import Mathlib

/-!
# Request-governance core of `iso27001-gin`

Shallow embedding of

* `internal/core/middleware/rate_limiter.go` (tiered sliding-window limiter),
* `internal/core/middleware/brute_force.go` (failed-login lockout guard),
* `internal/infrastructure/telemetry/error_budget.go` (outcome counters),
* `internal/infrastructure/telemetry/quality_score.go` (pillar scores),

together with the properties the specification states about them.

Conventions of the embedding.

* Go `int64` values are `Int`; an `int64` subtraction or multiplication is
  followed by `wrap64`, the two's-complement wrap to 64 bits.
* `time.Now()` is an explicit argument of every function that reads the clock.
  `time.Now().UnixNano()` is an `Int` number of nanoseconds since the Unix epoch.
* A Go `map[string]T` is a total function from `String`; a missing key reads as
  the zero value of `T` (the nil slice is `[]`, the nil pointer is `none`).
* A mutex-protected critical section is one atomic state transition.
* A `float64` value is the rational number it stands for. The telemetry
  section has two layers: the arithmetic of the source carried out exactly, and
  the same arithmetic with every operation rounded to float64 (namespace
  `Telemetry.Float64`).
-/

namespace Middleware

/-! ## Machine integers and durations -/

/-- Two's-complement wrap of an integer into the range of Go's `int64`. -/
def wrap64 (x : Int) : Int := (x + 2 ^ 63) % 2 ^ 64 - 2 ^ 63

/-- Nanoseconds in one second: `time.Second`. -/
def second : Int := 1000000000

/-- Nanoseconds in one minute: `time.Minute`. -/
def minute : Int := 60 * second

/-! ## rate_limiter.go -/

/-- Quota per tier: `tierLimits`; a key that is not in the map reads as 0. -/
def tierLimits (t : String) : Int :=
  if t = "auth" then 10
  else if t = "write" then 30
  else if t = "global" then 100
  else 0

/-- In-process sliding windows: `localWindows`, key to Unix-nano timestamps. -/
abbrev Windows := String → List Int

/-- Assignment `m[key] = v` on a map. -/
def setKey {α : Type} (m : String → α) (key : String) (v : α) : String → α :=
  fun k => if k = key then v else m k

/-- Loop of `localCheck` (lines 58-63): walks `entries` and appends to
`filtered` every `t` with `t > cutoff`. -/
def pruneLoop (cutoff : Int) : List Int → List Int → List Int
  | [], filtered => filtered
  | t :: rest, filtered =>
    if t > cutoff then pruneLoop cutoff rest (filtered ++ [t])
    else pruneLoop cutoff rest filtered

/-- Value of `cutoff` in `localCheck`: `now - windowSec*int64(time.Second)`. -/
def cutoffOf (now windowSec : Int) : Int :=
  wrap64 (now - wrap64 (windowSec * second))

/-- Function `localCheck(key, limit, windowSec)` with the clock reading `now`
made on its first line; returns the result and the new `localWindows`. -/
def localCheck (localWindows : Windows) (key : String) (limit windowSec now : Int) :
    Bool × Windows :=
  let cutoff := cutoffOf now windowSec
  let entries := localWindows key
  let filtered := pruneLoop cutoff entries []
  if (filtered.length : Int) ≥ limit then
    (false, setKey localWindows key filtered)
  else
    (true, setKey localWindows key (filtered ++ [now]))

/-- A run of `localCheck(key, limit, 60)` calls, one per clock reading; keeps
the windows and the log of (clock reading, result) in call order. -/
def checkAll (localWindows : Windows) (key : String) (limit : Int) (clock : List Int) :
    Windows × List (Int × Bool) :=
  clock.foldl
    (fun st now =>
      let r := localCheck st.1 key limit 60 now
      (r.2, st.2 ++ [(now, r.1)]))
    (localWindows, [])

/-- Timestamps of the calls of a log that returned true. -/
def admitted (log : List (Int × Bool)) : List Int :=
  (log.filter (fun e => e.2)).map (fun e => e.1)

/-- Clock readings for which `cutoff` is computed without overflow: Unix-nano
readings from the epoch on that fit an `int64`. -/
def ClockOk (now : Int) : Prop := 0 ≤ now ∧ now < 2 ^ 63

instance (now : Int) : Decidable (ClockOk now) := by
  unfold ClockOk; infer_instance

/-! ### Tier classification -/

/-- Test `strings.Contains(s, substr)`: some suffix of `s` starts with `substr`. -/
def containsStr : List Char → List Char → Bool
  | [], substr => substr.isEmpty
  | c :: s, substr => substr.isPrefixOf (c :: s) || containsStr s substr

/-- Test `strings.HasSuffix(s, suffix)`. -/
def hasSuffix (s suffix : List Char) : Bool := suffix.isSuffixOf s

/-- ASCII case mapping of `strings.ToUpper`: on a string of ASCII characters,
such as an HTTP method token, `strings.ToUpper` is this function. -/
def asciiUpper (s : String) : String := String.mk (s.data.map Char.toUpper)

/-- Function `tier(method, path)`. The library function `strings.ToUpper` is
the argument `toUpper`. -/
def tier (toUpper : String → String) (method path : String) : String :=
  if containsStr path.data "/auth/".data || hasSuffix path.data "/auth".data then
    "auth"
  else
    let m := toUpper method
    if m = "POST" ∨ m = "PUT" ∨ m = "PATCH" ∨ m = "DELETE" then
      "write"
    else
      "global"

/-! ### Shared store -/

/-- A `goredis.Client` as one request sees it. Every command has the 300 ms
deadline of the caller; `none` is a reply with `err != nil` (connection
refused, deadline exceeded, `redis.Nil` for a missing key). -/
structure Redis where
  /-- Reply of `script.Run(ctx, rdb, [key], limit, now, window).Int()`. -/
  run : String → Int → Int → Int → Option Int
  /-- Reply of `Incr(ctx, key).Result()`. -/
  incr : String → Option Int
  /-- Reply of `Get(ctx, key).Result()`. -/
  get : String → Option String

/-- A sorted set of the store: (score, member) pairs, one pair per member. -/
abbrev ZSet := List (Int × Int)

/-- Command `ZREMRANGEBYSCORE key lo hi`: drops the members whose score is in
the closed range from `lo` to `hi`. -/
def zremRangeByScore (z : ZSet) (lo hi : Int) : ZSet :=
  z.filter (fun e => !(decide (lo ≤ e.1) && decide (e.1 ≤ hi)))

/-- Command `ZADD key score member`. -/
def zadd (z : ZSet) (score member : Int) : ZSet :=
  z.filter (fun e => !(decide (e.2 = member))) ++ [(score, member)]

/-- Script `luaScript` run on the sorted set of its key with `ARGV` equal to
`limit`, `now`, `window`; returns the reply and the sorted set afterwards.
Numbers are exact integers and the member `tostring(now)` is `now` itself.
`EXPIRE key window` only drops a key that no request was added to for
`window` seconds and is left out. -/
def luaScript (z : ZSet) (limit now window : Int) : Int × ZSet :=
  let clearBefore := now - window
  let z1 := zremRangeByScore z 0 clearBefore
  let count : Int := z1.length
  if count < limit then
    (0, zadd z1 now now)
  else
    (1, z1)

/-- A reachable store holding the sorted set `z` under every key: its script
reply is computed by `luaScript`. -/
def liveStore (z : ZSet) : Redis where
  run := fun _ limit now window => some (luaScript z limit now window).1
  incr := fun _ => none
  get := fun _ => none

/-- A store that answers every command with an error. -/
def deadStore : Redis where
  run := fun _ _ _ _ => none
  incr := fun _ => none
  get := fun _ => none

/-! ### Middleware -/

/-- What the handler returned by `RateLimit` did with one request. -/
structure Verdict where
  /-- Final value of the variable `allowed`. -/
  allowed : Bool
  /-- Status of `AbortWithStatusJSON`, or `none` when `c.Next()` ran. -/
  aborted : Option Nat
  /-- Header `X-RateLimit-Limit`. -/
  limit : Int
  /-- Header `X-RateLimit-Remaining`, when set. -/
  remaining : Option String
  deriving DecidableEq

/-- Handler returned by `RateLimit(rdb)` on one request. `now` is the clock
reading of line 92, `localNow` the one `localCheck` makes when it is called. -/
def RateLimit (toUpper : String → String) (rdb : Option Redis) (localWindows : Windows)
    (method path ip : String) (now localNow : Int) : Verdict × Windows :=
  let t := tier toUpper method path
  let limit := tierLimits t
  let key := "rate_limit:" ++ t ++ ":" ++ ip
  let allowed₁ : Bool :=
    match rdb with
    | some r =>
      match r.run key limit now 60 with
      | some res => decide (res = 0)
      | none => true
    | none => true
  let r₂ : Bool × Windows :=
    match rdb with
    | none => localCheck localWindows key limit 60 localNow
    | some _ => (allowed₁, localWindows)
  if !r₂.1 then
    ({ allowed := false, aborted := some 429, limit := limit, remaining := some "0" }, r₂.2)
  else
    ({ allowed := true, aborted := none, limit := limit, remaining := none }, r₂.2)

/-! ## brute_force.go -/

/-- Constant `bruteMaxAttempts`. -/
def bruteMaxAttempts : Int := 5

/-- Constant `bruteLockoutTTL`, in nanoseconds. -/
def bruteLockoutTTL : Int := 15 * minute

/-- Constant `bruteKeyPrefix`. -/
def bruteKeyPrefix : String := "brute_force:"

/-- The zero `time.Time` (January 1, year 1, 00:00:00 UTC) in nanoseconds since
the Unix epoch. -/
def zeroTime : Int := -62135596800 * second

/-- Struct `localEntry`; `lockedUntil` is in nanoseconds since the Unix epoch. -/
structure localEntry where
  count : Int
  lockedUntil : Int
  deriving DecidableEq

/-- The zero value `&localEntry{}`. -/
def localEntry.zero : localEntry := { count := 0, lockedUntil := zeroTime }

/-- Write commands the guard sends to the shared store. -/
inductive Cmd where
  | incr (key : String)
  | expire (key : String) (ttl : Int)
  | set (key : String) (value : Int) (ttl : Int)
  | del (keys : List String)
  deriving DecidableEq

/-- Struct `BruteForceGuard`. -/
structure BruteForceGuard where
  rdb : Option Redis
  mem : String → Option localEntry

/-- Function `NewBruteForceGuard(rdb)`. -/
def NewBruteForceGuard (rdb : Option Redis) : BruteForceGuard :=
  { rdb := rdb, mem := fun _ => none }

/-- Method `memEntry`: creates the entry when absent and returns it. -/
def BruteForceGuard.memEntry (g : BruteForceGuard) (identifier : String) :
    BruteForceGuard × localEntry :=
  match g.mem identifier with
  | none => ({ g with mem := setKey g.mem identifier (some localEntry.zero) }, localEntry.zero)
  | some e => (g, e)

/-- Method `RecordFailure` at clock reading `now`; returns the guard and the
commands sent to the shared store. -/
def BruteForceGuard.RecordFailure (g : BruteForceGuard) (identifier : String) (now : Int) :
    BruteForceGuard × List Cmd :=
  match g.rdb with
  | some r =>
    let keyCount := bruteKeyPrefix ++ identifier ++ ":count"
    let keyLock := bruteKeyPrefix ++ identifier ++ ":locked_until"
    let count := (r.incr keyCount).getD 0
    let sent := [Cmd.incr keyCount, Cmd.expire keyCount bruteLockoutTTL]
    if count ≥ bruteMaxAttempts then
      (g, sent ++ [Cmd.set keyLock ((now + bruteLockoutTTL) / second) bruteLockoutTTL,
                   Cmd.del [keyCount]])
    else
      (g, sent)
  | none =>
    let (g₁, e) := g.memEntry identifier
    let e₁ : localEntry := { e with count := wrap64 (e.count + 1) }
    let e₂ : localEntry :=
      if e₁.count ≥ bruteMaxAttempts then
        { count := 0, lockedUntil := now + bruteLockoutTTL }
      else e₁
    ({ g₁ with mem := setKey g₁.mem identifier (some e₂) }, [])

/-- Method `Clear`; returns the guard and the commands sent to the shared store. -/
def BruteForceGuard.Clear (g : BruteForceGuard) (identifier : String) :
    BruteForceGuard × List Cmd :=
  match g.rdb with
  | some _ =>
    (g, [Cmd.del [bruteKeyPrefix ++ identifier ++ ":count",
                  bruteKeyPrefix ++ identifier ++ ":locked_until"]])
  | none => ({ g with mem := setKey g.mem identifier none }, [])

/-- Digits of a decimal numeral, most significant first. -/
def digitsValue : List Char → Option Nat
  | [] => none
  | cs =>
    if cs.all Char.isDigit then
      some (cs.foldl (fun acc c => 10 * acc + (c.toNat - 48)) 0)
    else none

/-- Call `strconv.ParseInt(val, 10, 64)`; `none` when `err != nil`. -/
def parseInt (val : String) : Option Int :=
  let signed : Option Int :=
    match val.data with
    | '-' :: cs => (digitsValue cs).map (fun n => -(n : Int))
    | '+' :: cs => (digitsValue cs).map (fun n => (n : Int))
    | cs => (digitsValue cs).map (fun n => (n : Int))
  match signed with
  | some v => if -(2 ^ 63) ≤ v ∧ v < 2 ^ 63 then some v else none
  | none => none

/-- Method `isLocked` at clock reading `now`. -/
def BruteForceGuard.isLocked (g : BruteForceGuard) (identifier : String) (now : Int) : Bool :=
  match g.rdb with
  | some r =>
    match r.get (bruteKeyPrefix ++ identifier ++ ":locked_until") with
    | none => false
    | some val =>
      match parseInt val with
      | none => false
      | some ts => decide (now / second < ts)
  | none =>
    match g.mem identifier with
    | none => false
    | some e => decide (now < e.lockedUntil)

/-- Method `Check` at clock reading `now`: the result, and the status of
`AbortWithStatusJSON` when the request is aborted. -/
def BruteForceGuard.Check (g : BruteForceGuard) (identifier : String) (now : Int) :
    Bool × Option Nat :=
  if g.isLocked identifier now then (false, some 429) else (true, none)

/-- A run of `RecordFailure(identifier)` calls, one per clock reading. -/
def BruteForceGuard.recordAll (g : BruteForceGuard) (identifier : String) (clock : List Int) :
    BruteForceGuard :=
  clock.foldl (fun g now => (g.RecordFailure identifier now).1) g

/-! ### Path segments and runs over several keys -/

/-- The segments of a path separated by the character `/`, as
`strings.Split(path, "/")` lists them: the reading of "path segment" that the
specification of the auth tier is compared with. -/
def pathSegments : List Char → List (List Char)
  | [] => [[]]
  | c :: cs =>
    if c = '/' then [] :: pathSegments cs
    else
      match pathSegments cs with
      | [] => [[c]]
      | s :: rest => (c :: s) :: rest

/-- A run of `localCheck(key, limit, 60)` calls on any keys: each call is a
triple of key, limit and clock reading; returns the windows afterwards. -/
def checkMany (localWindows : Windows) (calls : List (String × Int × Int)) : Windows :=
  calls.foldl (fun w c => (localCheck w c.1 c.2.1 60 c.2.2).2) localWindows

end Middleware

/-! ## Telemetry: error_budget.go and quality_score.go

A `float64` value is the rational number it stands for; NaN and the infinities
are outside the model. The definitions come in two layers. The first carries
the arithmetic of the source out exactly, without rounding error; it serves
the properties that do not depend on the last bits of a result. The second,
in namespace `Float64`, rounds every operation to the nearest float64 as the
compiled program does; it serves the properties that state the value of a
computed float64. An `atomic.Int64` is an `Int` whose additions wrap to 64
bits; the calls of one tracker are taken one after the other. -/

namespace Telemetry

open Middleware (wrap64)

/-- Function `math.Round` on exact values: the nearest integer, halves rounded
away from zero. -/
def mathRound (x : ℚ) : ℚ :=
  if 0 ≤ x then ((⌊x + 1 / 2⌋ : ℤ) : ℚ) else -((⌊-x + 1 / 2⌋ : ℤ) : ℚ)

/-- Struct `ErrorBudgetSnapshot`. -/
structure ErrorBudgetSnapshot where
  SLATarget : ℚ
  TotalRequests : Int
  FailedRequests : Int
  ClientErrors : Int
  ObservedAvailability : ℚ
  BudgetConsumedPct : ℚ
  BudgetExhausted : Bool
  deriving DecidableEq

/-- Struct `ErrorBudgetTracker`: the SLA target and the three counters. -/
structure ErrorBudgetTracker where
  slaTarget : ℚ
  total : Int
  failed : Int
  clientErrors : Int
  deriving DecidableEq

/-- Function `NewErrorBudgetTracker(slaTarget)`: the counters start at zero. -/
def NewErrorBudgetTracker (slaTarget : ℚ) : ErrorBudgetTracker :=
  { slaTarget := slaTarget, total := 0, failed := 0, clientErrors := 0 }

/-- Method `Record(statusCode)`. -/
def ErrorBudgetTracker.Record (t : ErrorBudgetTracker) (statusCode : Int) :
    ErrorBudgetTracker :=
  let t₁ : ErrorBudgetTracker := { t with total := wrap64 (t.total + 1) }
  if statusCode ≥ 500 then
    { t₁ with failed := wrap64 (t₁.failed + 1) }
  else if statusCode ≥ 400 then
    { t₁ with clientErrors := wrap64 (t₁.clientErrors + 1) }
  else
    t₁

/-- Method `Snapshot()`. -/
def ErrorBudgetTracker.Snapshot (t : ErrorBudgetTracker) : ErrorBudgetSnapshot :=
  let total := t.total
  let failed := t.failed
  let ce := t.clientErrors
  if total = 0 then
    { SLATarget := t.slaTarget, TotalRequests := 0, FailedRequests := 0, ClientErrors := 0,
      ObservedAvailability := 1, BudgetConsumedPct := 0, BudgetExhausted := false }
  else
    let availability : ℚ := ((wrap64 (total - failed) : Int) : ℚ) / (total : ℚ)
    let allowedRate : ℚ := 1 - t.slaTarget
    let consumed : ℚ :=
      if allowedRate > 0 then
        let raw : ℚ := (failed : ℚ) / (total : ℚ) / allowedRate * 100
        let rounded : ℚ := mathRound (raw * 1000) / 1000
        if rounded > 100 then 100 else rounded
      else if failed > 0 then 100
      else 0
    { SLATarget := t.slaTarget,
      TotalRequests := total,
      FailedRequests := failed,
      ClientErrors := ce,
      ObservedAvailability := mathRound (availability * 1000000) / 1000000,
      BudgetConsumedPct := consumed,
      BudgetExhausted := decide (consumed ≥ 100) }

/-- Method `Reset()`. -/
def ErrorBudgetTracker.Reset (t : ErrorBudgetTracker) : ErrorBudgetTracker :=
  { t with total := 0, failed := 0, clientErrors := 0 }

/-- A run of `Record` calls, one per status code. -/
def ErrorBudgetTracker.recordAll (t : ErrorBudgetTracker) (codes : List Int) :
    ErrorBudgetTracker :=
  codes.foldl (fun t c => t.Record c) t

/-- One call on a tracker: `Record(code)` or `Reset()`. -/
inductive Call where
  | record (statusCode : Int)
  | reset
  deriving DecidableEq

/-- Effect of one call on the tracker. -/
def ErrorBudgetTracker.call (t : ErrorBudgetTracker) : Call → ErrorBudgetTracker
  | Call.record statusCode => t.Record statusCode
  | Call.reset => t.Reset

/-- A run of `Record` and `Reset` calls in order. -/
def ErrorBudgetTracker.callAll (t : ErrorBudgetTracker) (calls : List Call) :
    ErrorBudgetTracker :=
  calls.foldl (fun t c => t.call c) t

/-- Struct `QualityScore`. -/
structure QualityScore where
  Security : ℚ
  DataIntegrity : ℚ
  Reliability : ℚ
  Auditability : ℚ
  Performance : ℚ
  deriving DecidableEq

/-- Struct `QualityScoreInput`. -/
structure QualityScoreInput where
  AuthChecksPassed : Int
  AuthChecksTotal : Int
  AuditEventsRecorded : Int
  AuditEventsExpected : Int
  Availability : ℚ
  LogsWithCorrelID : Int
  TotalLogs : Int
  ObservedP95LatencyMS : ℚ
  ObservedP99LatencyMS : ℚ

/-- Function `clamp01`. -/
def clamp01 (v : ℚ) : ℚ :=
  if v < 0 then 0
  else if v > 1 then 1
  else v

/-- Function `ratio(num, den)`. -/
def ratio (num den : Int) : ℚ :=
  if den ≤ 0 then 1
  else clamp01 ((num : ℚ) / (den : ℚ))

/-- Function `latencyScore(observedMS, targetMS)`. -/
def latencyScore (observedMS targetMS : ℚ) : ℚ :=
  if targetMS ≤ 0 then 1
  else clamp01 (1 - observedMS / targetMS)

/-- Function `Calculate`. -/
def Calculate (input : QualityScoreInput) : QualityScore :=
  { Security := ratio input.AuthChecksPassed input.AuthChecksTotal,
    DataIntegrity := ratio input.AuditEventsRecorded input.AuditEventsExpected,
    Reliability := clamp01 input.Availability,
    Auditability := ratio input.LogsWithCorrelID input.TotalLogs,
    Performance := latencyScore input.ObservedP95LatencyMS 500 }

/-- Constant `ProductionGate`. -/
def ProductionGate : ℚ := 0.70

/-- Constant `SLOP95LatencyMS`. -/
def SLOP95LatencyMS : ℚ := 200.0

/-- Constant `SLOP99LatencyMS`. -/
def SLOP99LatencyMS : ℚ := 500.0

/-- Constant `SLOErrorRatePct`. -/
def SLOErrorRatePct : ℚ := 0.1

/-- Constant `ClientErrSpikePct`. -/
def ClientErrSpikePct : ℚ := 5.0

/-- Method `Composite()`. -/
def QualityScore.Composite (q : QualityScore) : ℚ :=
  let weightSum : ℚ := 0.95
  let raw : ℚ := q.Security * 0.40 + q.DataIntegrity * 0.20 + q.Reliability * 0.15 +
    q.Auditability * 0.15 + q.Performance * 0.05
  raw / weightSum

/-- Method `PassesGate()`. -/
def QualityScore.PassesGate (q : QualityScore) : Bool :=
  decide (q.Composite ≥ ProductionGate)

/-- Struct `SLOAlert`. -/
structure SLOAlert where
  P95LatencyBreached : Bool
  P99LatencyBreached : Bool
  ErrorRateBreached : Bool
  ClientErrorSpike : Bool
  deriving DecidableEq

/-- Method `AnyBreach()`. -/
def SLOAlert.AnyBreach (a : SLOAlert) : Bool :=
  a.P95LatencyBreached || a.P99LatencyBreached || a.ErrorRateBreached || a.ClientErrorSpike

/-- Function `EvaluateSLO(failed, clientErrors, total, p95MS, p99MS)`. -/
def EvaluateSLO (failed clientErrors total : Int) (p95MS p99MS : ℚ) : SLOAlert :=
  let errRatePct : ℚ := if total > 0 then (failed : ℚ) / (total : ℚ) * 100.0 else 0
  let ceRatePct : ℚ := if total > 0 then (clientErrors : ℚ) / (total : ℚ) * 100.0 else 0
  { P95LatencyBreached := decide (p95MS > SLOP95LatencyMS),
    P99LatencyBreached := decide (p99MS > SLOP99LatencyMS),
    ErrorRateBreached := decide (errRatePct > SLOErrorRatePct),
    ClientErrorSpike := decide (ceRatePct > ClientErrSpikePct) }

/-! ### float64 arithmetic

The definitions above carry the arithmetic of the source out exactly. The
definitions below round every float64 operation as IEEE 754 does: to the
nearest float64, ties to the even mantissa, with gradual underflow. Overflow
to an infinity and NaN are outside the model; multiplication and addition are
not fused. A float64 value is the rational number it stands for. -/

/-- Nearest integer, a tie going to the even one. -/
def roundEven (x : ℚ) : ℤ :=
  if x - ⌊x⌋ < 1 / 2 then ⌊x⌋
  else if x - ⌊x⌋ > 1 / 2 then ⌊x⌋ + 1
  else if ⌊x⌋ % 2 = 0 then ⌊x⌋
  else ⌊x⌋ + 1

/-- Exponent of the unit in the last place of the float64 format at `x`:
53 significant bits, and -1074 in the subnormal range. -/
def ulpExp (x : ℚ) : ℤ :=
  if x = 0 then -1074 else max (Int.log 2 |x| - 52) (-1074)

/-- The float64 nearest to `x`, ties to even: the result of one rounded
float64 operation whose exact result is `x`. -/
def fl (x : ℚ) : ℚ :=
  (roundEven (x / 2 ^ ulpExp x) : ℚ) * 2 ^ ulpExp x

namespace Float64

/-- Conversion `float64(n)` of an `int64` or `int`. -/
def ofInt (n : Int) : ℚ := fl (n : ℚ)

/-- Method `Snapshot()` in float64 arithmetic; `slaTarget` is a float64. -/
def Snapshot (t : ErrorBudgetTracker) : ErrorBudgetSnapshot :=
  let total := t.total
  let failed := t.failed
  let ce := t.clientErrors
  if total = 0 then
    { SLATarget := t.slaTarget, TotalRequests := 0, FailedRequests := 0, ClientErrors := 0,
      ObservedAvailability := 1, BudgetConsumedPct := 0, BudgetExhausted := false }
  else
    let availability : ℚ := fl (ofInt (wrap64 (total - failed)) / ofInt total)
    let allowedRate : ℚ := fl (1 - t.slaTarget)
    let consumed : ℚ :=
      if allowedRate > 0 then
        let raw : ℚ := fl (fl (fl (ofInt failed / ofInt total) / allowedRate) * 100)
        let rounded : ℚ := fl (mathRound (fl (raw * 1000)) / 1000)
        if rounded > 100 then 100 else rounded
      else if failed > 0 then 100
      else 0
    { SLATarget := t.slaTarget,
      TotalRequests := total,
      FailedRequests := failed,
      ClientErrors := ce,
      ObservedAvailability := fl (mathRound (fl (availability * 1000000)) / 1000000),
      BudgetConsumedPct := consumed,
      BudgetExhausted := decide (consumed ≥ 100) }

/-- Function `ratio(num, den)` in float64 arithmetic. -/
def ratio (num den : Int) : ℚ :=
  if den ≤ 0 then 1
  else clamp01 (fl (ofInt num / ofInt den))

/-- Function `latencyScore(observedMS, targetMS)` in float64 arithmetic. -/
def latencyScore (observedMS targetMS : ℚ) : ℚ :=
  if targetMS ≤ 0 then 1
  else clamp01 (fl (1 - fl (observedMS / targetMS)))

/-- Function `Calculate` in float64 arithmetic. -/
def Calculate (input : QualityScoreInput) : QualityScore :=
  { Security := ratio input.AuthChecksPassed input.AuthChecksTotal,
    DataIntegrity := ratio input.AuditEventsRecorded input.AuditEventsExpected,
    Reliability := clamp01 input.Availability,
    Auditability := ratio input.LogsWithCorrelID input.TotalLogs,
    Performance := latencyScore input.ObservedP95LatencyMS 500 }

/-- Method `Composite()` in float64 arithmetic: the products, the sums from
left to right and the quotient are each rounded, and so are the constants. -/
def Composite (q : QualityScore) : ℚ :=
  let weightSum : ℚ := fl 0.95
  let raw : ℚ :=
    fl (fl (fl (fl (fl (q.Security * fl 0.40) + fl (q.DataIntegrity * fl 0.20))
      + fl (q.Reliability * fl 0.15)) + fl (q.Auditability * fl 0.15))
      + fl (q.Performance * fl 0.05))
  fl (raw / weightSum)

/-- Method `PassesGate()` in float64 arithmetic; the gate is the float64
nearest to 0.70. -/
def PassesGate (q : QualityScore) : Bool :=
  decide (Composite q ≥ fl 0.70)

/-- Function `EvaluateSLO` in float64 arithmetic; the thresholds 200, 500 and
5 are float64 values, 0.1 is rounded. -/
def EvaluateSLO (failed clientErrors total : Int) (p95MS p99MS : ℚ) : SLOAlert :=
  let errRatePct : ℚ := if total > 0 then fl (fl (ofInt failed / ofInt total) * 100) else 0
  let ceRatePct : ℚ :=
    if total > 0 then fl (fl (ofInt clientErrors / ofInt total) * 100) else 0
  { P95LatencyBreached := decide (p95MS > 200),
    P99LatencyBreached := decide (p99MS > 500),
    ErrorRateBreached := decide (errRatePct > fl 0.1),
    ClientErrorSpike := decide (ceRatePct > 5) }

end Float64

end Telemetry

/-! # Theorems -/

namespace Middleware

/-! ### Lemmas on pruning -/

theorem pruneLoop_eq (cutoff : Int) (entries filtered : List Int) :
    pruneLoop cutoff entries filtered
      = filtered ++ entries.filter (fun t => decide (cutoff < t)) := by
  induction entries generalizing filtered with
  | nil => simp [pruneLoop]
  | cons t rest ih =>
    by_cases h : cutoff < t
    · simp [pruneLoop, h, ih]
    · simp [pruneLoop, h, ih]

theorem wrap64_id {x : Int} (h1 : -(2 ^ 63) ≤ x) (h2 : x < 2 ^ 63) : wrap64 x = x := by
  unfold wrap64
  rw [Int.emod_eq_of_lt (by omega) (by omega)]
  omega

theorem cutoffOf_sixty {now : Int} (h : ClockOk now) :
    cutoffOf now 60 = now - 60 * second := by
  obtain ⟨h1, h2⟩ := h
  have hs : wrap64 (60 * second) = 60 * second := by
    apply wrap64_id <;> simp [second]
  unfold cutoffOf
  rw [hs]
  apply wrap64_id <;> simp only [second] <;> omega

/-! ### Lemmas on maps and on one `localCheck` call -/

theorem setKey_same {α : Type} (m : String → α) (key : String) (v : α) :
    setKey m key v key = v := by
  simp [setKey]

theorem setKey_other {α : Type} (m : String → α) (key k : String) (v : α) (h : k ≠ key) :
    setKey m key v k = m k := by
  simp [setKey, h]

theorem pruneLoop_length_le (cutoff : Int) (entries : List Int) :
    (pruneLoop cutoff entries []).length ≤ entries.length := by
  rw [pruneLoop_eq]
  simpa using List.length_filter_le _ entries

theorem localCheck_true_of_lt (w : Windows) (key : String) (limit ws now : Int)
    (h : ((pruneLoop (cutoffOf now ws) (w key) []).length : Int) < limit) :
    localCheck w key limit ws now
      = (true, setKey w key (pruneLoop (cutoffOf now ws) (w key) [] ++ [now])) := by
  unfold localCheck
  simp only [ge_iff_le]
  rw [if_neg (by omega)]

theorem localCheck_false_of_ge (w : Windows) (key : String) (limit ws now : Int)
    (h : limit ≤ ((pruneLoop (cutoffOf now ws) (w key) []).length : Int)) :
    localCheck w key limit ws now
      = (false, setKey w key (pruneLoop (cutoffOf now ws) (w key) [])) := by
  unfold localCheck
  simp only [ge_iff_le]
  rw [if_pos h]

theorem checkAll_snoc (w : Windows) (key : String) (limit : Int) (clock : List Int) (now : Int) :
    checkAll w key limit (clock ++ [now])
      = ((localCheck (checkAll w key limit clock).1 key limit 60 now).2,
          (checkAll w key limit clock).2
            ++ [(now, (localCheck (checkAll w key limit clock).1 key limit 60 now).1)]) := by
  simp [checkAll, List.foldl_append]

/-- From a window with room for the whole run, every check is admitted. -/
theorem foldl_all_admitted (key : String) (limit : Int) (clock : List Int) :
    ∀ (w : Windows) (log : List (Int × Bool)),
      ((w key).length : Int) + clock.length ≤ limit →
      (clock.foldl
        (fun (st : Windows × List (Int × Bool)) now =>
          ((localCheck st.1 key limit 60 now).2, st.2 ++ [(now, (localCheck st.1 key limit 60 now).1)]))
        (w, log)).2 = log ++ clock.map (fun t => (t, true)) := by
  induction clock with
  | nil => intro w log _; simp
  | cons now rest ih =>
    intro w log h
    have hlen := pruneLoop_length_le (cutoffOf now 60) (w key)
    have hlt : ((pruneLoop (cutoffOf now 60) (w key) []).length : Int) < limit := by
      simp only [List.length_cons, Nat.cast_add, Nat.cast_one] at h
      omega
    simp only [List.foldl_cons, List.map_cons]
    rw [localCheck_true_of_lt w key limit 60 now hlt]
    rw [ih]
    · simp
    · simp only [setKey_same, List.length_append, List.length_singleton, Nat.cast_add,
        Nat.cast_one]
      simp only [List.length_cons, Nat.cast_add, Nat.cast_one] at h
      omega

theorem localCheck_true_iff (w : Windows) (key : String) (limit ws now : Int) :
    (localCheck w key limit ws now).1 = true
      ↔ ((pruneLoop (cutoffOf now ws) (w key) []).length : Int) < limit := by
  by_cases h : ((pruneLoop (cutoffOf now ws) (w key) []).length : Int) < limit
  · rw [localCheck_true_of_lt w key limit ws now h]; simp [h]
  · rw [localCheck_false_of_ge w key limit ws now (by omega)]; simp [h]

theorem filter_newer_twice (l : List Int) (W now x : Int) (h : now ≤ x) :
    (l.filter (fun t => decide (now - W < t))).filter (fun t => decide (x - W < t))
      = l.filter (fun t => decide (x - W < t)) := by
  rw [List.filter_filter]
  apply List.filter_congr
  intro t _
  by_cases hx : x - W < t
  · have : now - W < t := by omega
    simp [hx, this]
  · simp [hx]

theorem admitted_snoc_true (log : List (Int × Bool)) (now : Int) :
    admitted (log ++ [(now, true)]) = admitted log ++ [now] := by
  simp [admitted]

theorem admitted_snoc_false (log : List (Int × Bool)) (now : Int) :
    admitted (log ++ [(now, false)]) = admitted log := by
  simp [admitted]

/-- Invariant of a run from an empty window under a non-decreasing clock:
the stored window and the admitted timestamps agree on everything younger
than 60 s at any later reading, the window holds at most `limit` entries, and
any span shorter than 60 s holds at most `limit` admitted timestamps. -/
theorem checkAll_invariant (w : Windows) (key : String) (limit : Int)
    (hw : w key = []) (hlimit : 0 ≤ limit) (clock : List Int) :
    clock.Pairwise (fun s t => s ≤ t) → (∀ t ∈ clock, ClockOk t) →
    (∀ x, (∀ c ∈ clock, c ≤ x) →
        ((checkAll w key limit clock).1 key).filter (fun t => decide (x - 60 * second < t))
          = (admitted (checkAll w key limit clock).2).filter
              (fun t => decide (x - 60 * second < t))) ∧
    (((checkAll w key limit clock).1 key).length : Int) ≤ limit ∧
    (∀ a b : Int, b - a < 60 * second →
        (((admitted (checkAll w key limit clock).2).filter
            (fun t => decide (a ≤ t) && decide (t ≤ b))).length : Int) ≤ limit) := by
  induction clock using List.reverseRecOn with
  | nil =>
    intro _ _
    simp [checkAll, admitted, hw, hlimit]
  | append_singleton l now ih =>
    intro hmono hclock
    rw [List.pairwise_append] at hmono
    obtain ⟨hl, -, hlast⟩ := hmono
    have hnow : ClockOk now := hclock now (by simp)
    obtain ⟨ihA, ihB, ihC⟩ := ih hl (fun t ht => hclock t (by simp [ht]))
    have hR : pruneLoop (cutoffOf now 60) ((checkAll w key limit l).1 key) []
        = ((checkAll w key limit l).1 key).filter (fun t => decide (now - 60 * second < t)) := by
      rw [pruneLoop_eq, cutoffOf_sixty hnow]; simp
    have hRA : pruneLoop (cutoffOf now 60) ((checkAll w key limit l).1 key) []
        = (admitted (checkAll w key limit l).2).filter
            (fun t => decide (now - 60 * second < t)) := by
      rw [hR]
      exact ihA now (fun c hc => hlast c hc now (by simp))
    rw [checkAll_snoc]
    by_cases h : ((pruneLoop (cutoffOf now 60) ((checkAll w key limit l).1 key) []).length : Int)
        < limit
    · rw [localCheck_true_of_lt _ key limit 60 now h]
      simp only [setKey_same, admitted_snoc_true]
      refine ⟨?_, ?_, ?_⟩
      · intro x hx
        have hnx : now ≤ x := hx now (by simp)
        rw [List.filter_append, List.filter_append, hR, filter_newer_twice _ _ _ _ hnx]
        rw [ihA x (fun c hc => hx c (by simp [hc]))]
      · simp only [List.length_append, List.length_singleton, Nat.cast_add, Nat.cast_one]
        omega
      · intro a b hab
        rw [List.filter_append]
        by_cases hin : a ≤ now ∧ now ≤ b
        · have hsub : ((admitted (checkAll w key limit l).2).filter
              (fun t => decide (a ≤ t) && decide (t ≤ b))).length
              ≤ (pruneLoop (cutoffOf now 60) ((checkAll w key limit l).1 key) []).length := by
            rw [hRA]
            have heq : (admitted (checkAll w key limit l).2).filter
                (fun t => decide (a ≤ t) && decide (t ≤ b))
                = ((admitted (checkAll w key limit l).2).filter
                    (fun t => decide (now - 60 * second < t))).filter
                    (fun t => decide (a ≤ t) && decide (t ≤ b)) := by
              rw [List.filter_filter]
              apply List.filter_congr
              intro t _
              by_cases hat : a ≤ t
              · have : now - 60 * second < t := by omega
                simp [hat, this]
              · simp [hat]
            rw [heq]
            exact List.length_filter_le _ _
          simp only [List.length_append, Nat.cast_add]
          have hone : ([now].filter (fun t => decide (a ≤ t) && decide (t ≤ b))).length ≤ 1 :=
            List.length_filter_le _ _
          omega
        · have hnil : [now].filter (fun t => decide (a ≤ t) && decide (t ≤ b)) = [] := by
            rw [List.filter_eq_nil_iff]
            intro t ht
            rw [List.mem_singleton] at ht
            subst ht
            simpa using hin
          rw [hnil, List.append_nil]
          exact ihC a b hab
    · rw [localCheck_false_of_ge _ key limit 60 now (by omega)]
      simp only [setKey_same, admitted_snoc_false]
      refine ⟨?_, ?_, ihC⟩
      · intro x hx
        have hnx : now ≤ x := hx now (by simp)
        rw [hR, filter_newer_twice _ _ _ _ hnx]
        exact ihA x (fun c hc => hx c (by simp [hc]))
      · have := pruneLoop_length_le (cutoffOf now 60) ((checkAll w key limit l).1 key)
        omega

/-! ### C1: at most `limit` admissions per window -/

/-- C1. In-process limiter, at-most-quota. From an empty window for `key`, for
every run of `localCheck(key, limit, 60)` calls with a fixed `limit ≥ 0` and
non-decreasing clock readings: the calls that returned true with a timestamp in
an interval from `a` to `b` spanning less than 60 seconds (so in any half-open
60-second interval) number at most `limit`; after every prefix of the run the
timestamp list stored for `key` holds at most `limit` entries; and the limits
in use are 10 for auth, 30 for write, 100 for global. -/
theorem localCheck_at_most_quota (w : Windows) (key : String) (limit : Int) (clock : List Int)
    (hw : w key = []) (hlimit : 0 ≤ limit)
    (hmono : clock.Pairwise (fun s t => s ≤ t)) (hclock : ∀ t ∈ clock, ClockOk t) :
    (∀ a b : Int, b - a < 60 * second →
        (((admitted (checkAll w key limit clock).2).filter
            (fun t => decide (a ≤ t) && decide (t ≤ b))).length : Int) ≤ limit) ∧
    (∀ pre : List Int, pre <+: clock →
        (((checkAll w key limit pre).1 key).length : Int) ≤ limit) ∧
    (tierLimits "auth" = 10 ∧ tierLimits "write" = 30 ∧ tierLimits "global" = 100) := by
  refine ⟨(checkAll_invariant w key limit hw hlimit clock hmono hclock).2.2, ?_, by decide⟩
  rintro pre ⟨suf, rfl⟩
  rw [List.pairwise_append] at hmono
  exact (checkAll_invariant w key limit hw hlimit pre hmono.1
    (fun t ht => hclock t (by simp [ht]))).2.1

/-- Instance of C1 at limit 2: of four checks within one second only two are
admitted, and the window ends with two entries. -/
theorem localCheck_at_most_quota_witness :
    ((((admitted (checkAll (fun _ => []) "k" 2 [0, 10, 20, 1000000000]).2).filter
        (fun t => decide ((0 : Int) ≤ t) && decide (t ≤ 1000000000))).length : Int) ≤ 2) ∧
    admitted (checkAll (fun _ => []) "k" 2 [0, 10, 20, 1000000000]).2 = [0, 10] :=
  ⟨(localCheck_at_most_quota (fun _ => []) "k" 2 [0, 10, 20, 1000000000] rfl (by decide)
      (by decide) (by decide)).1 0 1000000000 (by decide), by decide⟩

/-! ### C2: one admission step -/

/-- C2. One admission step of `localCheck(key, limit, 60)` at clock reading
`now`, with `R` the entries of the key's window that survive pruning: the call
returns true iff `|R| < limit`; on true the stored window becomes `R` followed
by `now`; on false it becomes exactly `R`; no other key changes. Consequently,
from an empty window, a run of at most `limit` checks is admitted throughout. -/
theorem localCheck_step (w : Windows) (key : String) (limit now : Int) :
    ((localCheck w key limit 60 now).1 = true
        ↔ ((pruneLoop (cutoffOf now 60) (w key) []).length : Int) < limit) ∧
    ((localCheck w key limit 60 now).1 = true →
        (localCheck w key limit 60 now).2 key
          = pruneLoop (cutoffOf now 60) (w key) [] ++ [now]) ∧
    ((localCheck w key limit 60 now).1 = false →
        (localCheck w key limit 60 now).2 key = pruneLoop (cutoffOf now 60) (w key) []) ∧
    (∀ k, k ≠ key → (localCheck w key limit 60 now).2 k = w k) ∧
    (∀ clock : List Int, w key = [] → (clock.length : Int) ≤ limit →
        (checkAll w key limit clock).2 = clock.map (fun t => (t, true))) := by
  by_cases h : ((pruneLoop (cutoffOf now 60) (w key) []).length : Int) < limit
  · rw [localCheck_true_of_lt w key limit 60 now h]
    refine ⟨by simp [h], by simp [setKey_same], by simp, ?_, ?_⟩
    · intro k hk; simp [setKey_other _ _ _ _ hk]
    · intro clock hw hlen
      have := foldl_all_admitted key limit clock w [] (by rw [hw]; simpa using hlen)
      simpa [checkAll] using this
  · rw [localCheck_false_of_ge w key limit 60 now (by omega)]
    refine ⟨by simp [h], by simp, by simp [setKey_same], ?_, ?_⟩
    · intro k hk; simp [setKey_other _ _ _ _ hk]
    · intro clock hw hlen
      have := foldl_all_admitted key limit clock w [] (by rw [hw]; simpa using hlen)
      simpa [checkAll] using this

/-- Instance of C2: three checks at limit 3 from an empty window, the clock
standing still, are all admitted. -/
theorem localCheck_step_witness :
    (checkAll (fun _ => []) "k" 3 [5, 5, 5]).2 = [(5, true), (5, true), (5, true)] :=
  (localCheck_step (fun _ => []) "k" 3 0).2.2.2.2 [5, 5, 5] rfl (by decide)

/-! ### C3: pruning boundary -/

/-- C3, as stated, fails: an event recorded exactly 60 seconds before `now` is
discarded, so at limit 1 the next request is admitted and the stored window no
longer holds the old event. -/
theorem localCheck_boundary_counterexample :
    ((60000000000 : Int) - 0 = 60 * second) ∧
    pruneLoop (cutoffOf 60000000000 60) [0] [] = [] ∧
    (localCheck (fun _ => [0]) "k" 1 60 60000000000).1 = true ∧
    (localCheck (fun _ => [0]) "k" 1 60 60000000000).2 "k" = [60000000000] := by
  decide

/-- C3, amended. At a clock reading `now` the events kept by `localCheck` are,
in order, exactly those with `now - 60 s < t` (age strictly below 60 seconds);
the events discarded are exactly those with `t ≤ now - 60 s`, the one recorded
exactly 60 seconds before `now` included; and the result is true iff the number
of events younger than 60 seconds is below `limit`. -/
theorem localCheck_prune_boundary (w : Windows) (key : String) (limit now : Int)
    (hnow : ClockOk now) :
    pruneLoop (cutoffOf now 60) (w key) []
        = (w key).filter (fun t => decide (now - 60 * second < t)) ∧
    (∀ t, t ∈ pruneLoop (cutoffOf now 60) (w key) [] ↔ t ∈ w key ∧ now - t < 60 * second) ∧
    (∀ t, t ∈ w key → t ≤ now - 60 * second → t ∉ (localCheck w key limit 60 now).2 key) ∧
    ((localCheck w key limit 60 now).1 = true
        ↔ (((w key).filter (fun t => decide (now - t < 60 * second))).length : Int) < limit) := by
  have hR : pruneLoop (cutoffOf now 60) (w key) []
      = (w key).filter (fun t => decide (now - 60 * second < t)) := by
    rw [pruneLoop_eq, cutoffOf_sixty hnow]; simp
  have hfun : (fun t : Int => decide (now - t < 60 * second))
      = (fun t : Int => decide (now - 60 * second < t)) := by
    funext t
    by_cases h : now - t < 60 * second
    · have h2 : now - 60 * second < t := by omega
      simp [h, h2]
    · have h2 : ¬ now - 60 * second < t := by omega
      simp [h, h2]
  have hmem : ∀ t, t ∈ pruneLoop (cutoffOf now 60) (w key) []
      ↔ t ∈ w key ∧ now - t < 60 * second := by
    intro t
    rw [hR, List.mem_filter]
    constructor
    · rintro ⟨h1, h2⟩
      have h3 : now - 60 * second < t := by simpa using h2
      exact ⟨h1, by omega⟩
    · rintro ⟨h1, h2⟩
      have h3 : now - 60 * second < t := by omega
      exact ⟨h1, by simpa using h3⟩
  refine ⟨hR, hmem, ?_, ?_⟩
  · intro t ht hle hin
    have hsec : (0 : Int) < 60 * second := by simp [second]
    by_cases h : ((pruneLoop (cutoffOf now 60) (w key) []).length : Int) < limit
    · rw [localCheck_true_of_lt w key limit 60 now h] at hin
      simp only [setKey_same, List.mem_append, List.mem_singleton] at hin
      rcases hin with hin | hin
      · have := ((hmem t).1 hin).2
        omega
      · omega
    · rw [localCheck_false_of_ge w key limit 60 now (by omega)] at hin
      simp only [setKey_same] at hin
      have := ((hmem t).1 hin).2
      omega
  · rw [hfun, ← hR]
    exact localCheck_true_iff w key limit 60 now

/-- Instance of the amended C3 at `now` = 61 s with events at 0 s, 1 s and 2 s:
the first two are discarded, the third is kept. -/
theorem localCheck_prune_boundary_witness :
    ClockOk 61000000000 ∧
    pruneLoop (cutoffOf 61000000000 60) [0, 1000000000, 2000000000] [] = [2000000000] :=
  ⟨by decide, by
    have h := (localCheck_prune_boundary (fun _ => [0, 1000000000, 2000000000]) "k" 5
      61000000000 (by decide)).1
    rw [h]; decide⟩

/-! ### C4: store error in `RateLimit` -/

/-- On a store error the handler admits the request and leaves the in-process
windows as they were, whatever they hold. -/
theorem RateLimit_store_error (toUpper : String → String) (r : Redis) (w : Windows)
    (method path ip : String) (now localNow : Int)
    (herr : r.run ("rate_limit:" ++ tier toUpper method path ++ ":" ++ ip)
        (tierLimits (tier toUpper method path)) now 60 = none) :
    (RateLimit toUpper (some r) w method path ip now localNow).1.allowed = true ∧
    (RateLimit toUpper (some r) w method path ip now localNow).1.aborted = none ∧
    (RateLimit toUpper (some r) w method path ip now localNow).2 = w := by
  simp [RateLimit, herr]

/-- C4 on the code. Store configured and failing, ten events of the last
second in the in-process window of an auth key: `localCheck` on that key with
limit 10 returns false and would store its pruned window, while `RateLimit`
admits the request and the in-process window is left untouched. -/
theorem RateLimit_store_error_no_fallback :
    tier asciiUpper "POST" "/api/v1/auth/login" = "auth" ∧
    (localCheck (fun _ => List.replicate 10 1699999999000000000)
        "rate_limit:auth:10.0.0.1" 10 60 1700000000000000000).1 = false ∧
    (RateLimit asciiUpper (some deadStore) (fun _ => List.replicate 10 1699999999000000000)
        "POST" "/api/v1/auth/login" "10.0.0.1"
        1700000000000000000 1700000000000000000).1.allowed = true ∧
    (RateLimit asciiUpper (some deadStore) (fun _ => [])
        "POST" "/api/v1/auth/login" "10.0.0.1"
        1700000000000000000 1700000000000000000).2 "rate_limit:auth:10.0.0.1" = [] ∧
    (localCheck (fun _ => []) "rate_limit:auth:10.0.0.1" 10 60 1700000000000000000).2
        "rate_limit:auth:10.0.0.1" = [1700000000000000000] := by
  decide

/-! ### C5: window of the shared-store script -/

/-- What the script removes: a member stays iff its score is negative or above
`now - window`, with `now` and `window` taken in the same unit. -/
theorem luaScript_kept (z : ZSet) (now window : Int) (e : Int × Int) :
    e ∈ zremRangeByScore z 0 (now - window) ↔ e ∈ z ∧ (e.1 < 0 ∨ now - window < e.1) := by
  unfold zremRangeByScore
  rw [List.mem_filter]
  constructor
  · rintro ⟨h1, h2⟩
    refine ⟨h1, ?_⟩
    simp only [Bool.not_eq_true', Bool.and_eq_false_iff, decide_eq_false_iff_not] at h2
    omega
  · rintro ⟨h1, h2⟩
    refine ⟨h1, ?_⟩
    simp only [Bool.not_eq_true', Bool.and_eq_false_iff, decide_eq_false_iff_not]
    omega

/-- C5 on the code. Ten events recorded one second before `now` (nanosecond
scores), limit 10, and the arguments `RateLimit` passes (`now` in nanoseconds,
`window` = 60): the script removes all ten because each is more than 60
nanoseconds old, replies 0 and the request is admitted, while `localCheck` on
the same ten timestamps keeps them and returns false. -/
theorem luaScript_window_in_nanoseconds :
    zremRangeByScore
        ((List.range 10).map (fun i => ((1699999999000000000 : Int) + i, (1699999999000000000 : Int) + i)))
        0 (1700000000000000000 - 60) = [] ∧
    luaScript
        ((List.range 10).map (fun i => ((1699999999000000000 : Int) + i, (1699999999000000000 : Int) + i)))
        10 1700000000000000000 60 = (0, [(1700000000000000000, 1700000000000000000)]) ∧
    (RateLimit asciiUpper
        (some (liveStore
          ((List.range 10).map (fun i => ((1699999999000000000 : Int) + i, (1699999999000000000 : Int) + i)))))
        (fun _ => []) "POST" "/api/v1/auth/login" "10.0.0.1"
        1700000000000000000 1700000000000000000).1.allowed = true ∧
    (localCheck
        (fun _ => (List.range 10).map (fun i => (1699999999000000000 : Int) + i))
        "rate_limit:auth:10.0.0.1" 10 60 1700000000000000000).1 = false := by
  decide

/-! ### C6: tier classification -/

theorem containsStr_iff (s substr : List Char) :
    containsStr s substr = true ↔ substr <:+: s := by
  induction s with
  | nil => simp [containsStr, List.isEmpty_iff]
  | cons c s ih =>
    rw [containsStr, Bool.or_eq_true, ih, List.isPrefixOf_iff_prefix, List.infix_cons_iff]

theorem hasSuffix_iff (s suffix : List Char) :
    hasSuffix s suffix = true ↔ suffix <:+ s := by
  simp [hasSuffix]

theorem tier_auth_iff (toUpper : String → String) (method path : String) :
    tier toUpper method path = "auth"
      ↔ ("/auth/".data <:+: path.data ∨ "/auth".data <:+ path.data) := by
  rw [← containsStr_iff, ← hasSuffix_iff, ← Bool.or_eq_true]
  unfold tier
  by_cases h : (containsStr path.data "/auth/".data || hasSuffix path.data "/auth".data) = true
  · simp [h]
  · have hb : (containsStr path.data "/auth/".data || hasSuffix path.data "/auth".data) = false := by
      simpa using h
    rw [hb]
    simp only [Bool.false_eq_true, if_false, iff_false]
    split <;> decide

/-- C6. Tier classification and quota. For every method and path,
`tier(method, path)` is "auth" when the path contains "/auth/" or ends with
"/auth", whatever the method; otherwise "write" when the upper-cased method is
POST, PUT, PATCH or DELETE; otherwise "global". The result is one of the three
keys of `tierLimits`, the limit the handler applies is 10, 30 or 100
respectively, never 0. Methods that differ in letter case only are classified
alike, and `POST /api/v1/auth/login` is auth. -/
theorem tier_classification (toUpper : String → String) (method path : String) :
    (("/auth/".data <:+: path.data ∨ "/auth".data <:+ path.data) →
        tier toUpper method path = "auth") ∧
    (¬ ("/auth/".data <:+: path.data ∨ "/auth".data <:+ path.data) →
        (toUpper method = "POST" ∨ toUpper method = "PUT" ∨ toUpper method = "PATCH"
          ∨ toUpper method = "DELETE") →
        tier toUpper method path = "write") ∧
    (¬ ("/auth/".data <:+: path.data ∨ "/auth".data <:+ path.data) →
        ¬ (toUpper method = "POST" ∨ toUpper method = "PUT" ∨ toUpper method = "PATCH"
          ∨ toUpper method = "DELETE") →
        tier toUpper method path = "global") ∧
    ((tier toUpper method path = "auth" ∧ tierLimits (tier toUpper method path) = 10) ∨
     (tier toUpper method path = "write" ∧ tierLimits (tier toUpper method path) = 30) ∨
     (tier toUpper method path = "global" ∧ tierLimits (tier toUpper method path) = 100)) ∧
    tierLimits (tier toUpper method path) ≠ 0 ∧
    (∀ (rdb : Option Redis) (w : Windows) (ip : String) (now localNow : Int),
        (RateLimit toUpper rdb w method path ip now localNow).1.limit
          = tierLimits (tier toUpper method path)) ∧
    (∀ method₂ : String, toUpper method₂ = toUpper method →
        tier toUpper method₂ path = tier toUpper method path) ∧
    (tier asciiUpper "POST" "/api/v1/auth/login" = "auth" ∧
     tier asciiUpper "get" "/api/v1/auth" = "auth" ∧
     tier asciiUpper "pOsT" "/api/v1/users" = "write" ∧
     tier asciiUpper "delete" "/api/v1/authors/7" = "write" ∧
     tier asciiUpper "GET" "/api/v1/users" = "global") := by
  have hcases : (tier toUpper method path = "auth" ∧ tierLimits (tier toUpper method path) = 10) ∨
      (tier toUpper method path = "write" ∧ tierLimits (tier toUpper method path) = 30) ∨
      (tier toUpper method path = "global" ∧ tierLimits (tier toUpper method path) = 100) := by
    unfold tier
    split
    · exact Or.inl ⟨rfl, by decide⟩
    · simp only []
      split
      · exact Or.inr (Or.inl ⟨rfl, by decide⟩)
      · exact Or.inr (Or.inr ⟨rfl, by decide⟩)
  refine ⟨(tier_auth_iff toUpper method path).2, ?_, ?_, hcases, ?_, ?_, ?_, by decide⟩
  · intro hpath hm
    rw [← containsStr_iff, ← hasSuffix_iff, ← Bool.or_eq_true] at hpath
    unfold tier
    rw [if_neg hpath]
    simp only []
    rw [if_pos hm]
  · intro hpath hm
    rw [← containsStr_iff, ← hasSuffix_iff, ← Bool.or_eq_true] at hpath
    unfold tier
    rw [if_neg hpath]
    simp only []
    rw [if_neg hm]
  · rcases hcases with ⟨-, h⟩ | ⟨-, h⟩ | ⟨-, h⟩ <;> rw [h] <;> decide
  · intro rdb w ip now localNow
    unfold RateLimit
    simp only []
    split <;> rfl
  · intro method₂ h
    unfold tier
    simp only [h]

/-! ## Lockout guard, in-process path -/

theorem memEntry_snd (g : BruteForceGuard) (identifier : String) :
    (g.memEntry identifier).2 = (g.mem identifier).getD localEntry.zero := by
  unfold BruteForceGuard.memEntry
  cases g.mem identifier <;> rfl

/-- One `RecordFailure` on the in-process path, as a change of the entry. -/
theorem RecordFailure_inproc (g : BruteForceGuard) (identifier : String) (now : Int)
    (hrdb : g.rdb = none) :
    (g.RecordFailure identifier now).1.rdb = none ∧
    (g.RecordFailure identifier now).1.mem identifier
      = some (if wrap64 ((g.memEntry identifier).2.count + 1) ≥ bruteMaxAttempts then
          { count := 0, lockedUntil := now + bruteLockoutTTL }
        else
          { count := wrap64 ((g.memEntry identifier).2.count + 1),
            lockedUntil := (g.memEntry identifier).2.lockedUntil }) ∧
    (∀ k, k ≠ identifier → (g.RecordFailure identifier now).1.mem k = g.mem k) ∧
    (g.RecordFailure identifier now).2 = [] := by
  unfold BruteForceGuard.RecordFailure
  rw [hrdb]
  unfold BruteForceGuard.memEntry
  cases hm : g.mem identifier with
  | none =>
    refine ⟨hrdb, by simp [setKey], ?_, rfl⟩
    intro k hk
    simp [setKey, hk]
  | some e =>
    refine ⟨hrdb, by simp [setKey], ?_, rfl⟩
    intro k hk
    simp [setKey, hk]

theorem recordAll_snoc (g : BruteForceGuard) (identifier : String) (clock : List Int) (now : Int) :
    g.recordAll identifier (clock ++ [now])
      = ((g.recordAll identifier clock).RecordFailure identifier now).1 := by
  simp [BruteForceGuard.recordAll, List.foldl_append]

theorem recordAll_append (g : BruteForceGuard) (identifier : String) (c₁ c₂ : List Int) :
    g.recordAll identifier (c₁ ++ c₂) = (g.recordAll identifier c₁).recordAll identifier c₂ := by
  simp [BruteForceGuard.recordAll, List.foldl_append]

theorem recordAll_rdb (g : BruteForceGuard) (identifier : String) (clock : List Int)
    (hrdb : g.rdb = none) : (g.recordAll identifier clock).rdb = none := by
  induction clock using List.reverseRecOn with
  | nil => simpa [BruteForceGuard.recordAll] using hrdb
  | append_singleton l now ih =>
    rw [recordAll_snoc]
    exact (RecordFailure_inproc _ identifier now ih).1

/-- Below the threshold a run of failures only counts: from counter `c`, after
`n` failures with `c + n ≤ 4`, the entry holds counter `c + n` and the lock
instant it had. -/
theorem recordAll_below (g : BruteForceGuard) (identifier : String) (hrdb : g.rdb = none)
    (clock : List Int) :
    0 ≤ (g.memEntry identifier).2.count →
    (g.memEntry identifier).2.count + clock.length ≤ 4 →
    ((g.recordAll identifier clock).memEntry identifier).2
      = { count := (g.memEntry identifier).2.count + clock.length,
          lockedUntil := (g.memEntry identifier).2.lockedUntil } := by
  induction clock using List.reverseRecOn with
  | nil => intro _ _; simp [BruteForceGuard.recordAll]
  | append_singleton l now ih =>
    intro h0 h4
    simp only [List.length_append, List.length_singleton, Nat.cast_add, Nat.cast_one] at h4
    have ih2 := ih h0 (by omega)
    have hr := recordAll_rdb g identifier l hrdb
    obtain ⟨-, hmem, -, -⟩ := RecordFailure_inproc (g.recordAll identifier l) identifier now hr
    rw [recordAll_snoc, memEntry_snd, hmem, ih2]
    have hw : wrap64 ((g.memEntry identifier).2.count + (l.length : Int) + 1)
        = (g.memEntry identifier).2.count + (l.length : Int) + 1 := by
      apply wrap64_id <;> omega
    simp only [hw, Option.getD_some, List.length_append, List.length_singleton, Nat.cast_add,
      Nat.cast_one, bruteMaxAttempts]
    rw [if_neg (by omega)]
    congr 1
    omega

/-- The failure that brings the counter from 4 to 5 locks for 15 minutes from
its clock reading and resets the counter. -/
theorem RecordFailure_fifth (g : BruteForceGuard) (identifier : String) (now : Int)
    (hrdb : g.rdb = none) (h4 : (g.memEntry identifier).2.count = 4) :
    (g.RecordFailure identifier now).1.mem identifier
      = some { count := 0, lockedUntil := now + bruteLockoutTTL } := by
  obtain ⟨-, hmem, -, -⟩ := RecordFailure_inproc g identifier now hrdb
  rw [hmem, h4]
  have h5 : wrap64 (4 + 1) ≥ bruteMaxAttempts := by decide
  rw [if_pos h5]

theorem isLocked_inproc (g : BruteForceGuard) (identifier : String) (t : Int)
    (hrdb : g.rdb = none) :
    g.isLocked identifier t = true ↔ ∃ e, g.mem identifier = some e ∧ t < e.lockedUntil := by
  unfold BruteForceGuard.isLocked
  rw [hrdb]
  cases g.mem identifier with
  | none => simp
  | some e => simp

theorem Check_eq (g : BruteForceGuard) (identifier : String) (t : Int) :
    (g.Check identifier t).1 = !(g.isLocked identifier t) := by
  unfold BruteForceGuard.Check
  cases g.isLocked identifier t <;> rfl

theorem Check_true_of_expired (g : BruteForceGuard) (identifier : String) (t : Int)
    (hrdb : g.rdb = none) (h : (g.memEntry identifier).2.lockedUntil ≤ t) :
    (g.Check identifier t).1 = true := by
  rw [Check_eq]
  have hn : ¬ g.isLocked identifier t = true := by
    rw [isLocked_inproc g identifier t hrdb]
    rintro ⟨e, he, hlt⟩
    rw [memEntry_snd, he] at h
    simp only [Option.getD_some] at h
    omega
  simpa using hn

theorem Check_false_of_locked (g : BruteForceGuard) (identifier : String) (t : Int)
    (hrdb : g.rdb = none) (e : localEntry) (he : g.mem identifier = some e)
    (h : t < e.lockedUntil) :
    (g.Check identifier t).1 = false := by
  rw [Check_eq]
  have : g.isLocked identifier t = true := (isLocked_inproc g identifier t hrdb).2 ⟨e, he, h⟩
  simp [this]

theorem memEntry_fresh (g : BruteForceGuard) (identifier : String)
    (hfresh : g.mem identifier = none) :
    (g.memEntry identifier).2 = localEntry.zero := by
  rw [memEntry_snd, hfresh]; rfl

/-- While the counter stays below the threshold, `Check` allows at every
instant not before the lock instant the entry had. -/
theorem Check_after_below (g : BruteForceGuard) (identifier : String) (hrdb : g.rdb = none)
    (ts : List Int) (t : Int)
    (h0 : 0 ≤ (g.memEntry identifier).2.count)
    (h4 : (g.memEntry identifier).2.count + ts.length ≤ 4)
    (ht : (g.memEntry identifier).2.lockedUntil ≤ t) :
    ((g.recordAll identifier ts).Check identifier t).1 = true := by
  apply Check_true_of_expired _ identifier t (recordAll_rdb g identifier ts hrdb)
  rw [recordAll_below g identifier hrdb ts h0 h4]
  exact ht

/-- The failure that completes five locks: the entry then has counter 0 and
lock instant 15 minutes after that failure. -/
theorem recordAll_reaching (g : BruteForceGuard) (identifier : String) (hrdb : g.rdb = none)
    (ts : List Int) (t5 : Int)
    (h0 : 0 ≤ (g.memEntry identifier).2.count)
    (h4 : (g.memEntry identifier).2.count + ts.length = 4) :
    (g.recordAll identifier (ts ++ [t5])).mem identifier
      = some { count := 0, lockedUntil := t5 + bruteLockoutTTL } := by
  rw [recordAll_snoc]
  apply RecordFailure_fifth _ identifier t5 (recordAll_rdb g identifier ts hrdb)
  rw [recordAll_below g identifier hrdb ts h0 (by omega)]
  exact h4

theorem Clear_inproc (g : BruteForceGuard) (identifier : String) (hrdb : g.rdb = none) :
    (g.Clear identifier).1.rdb = none ∧ (g.Clear identifier).1.mem identifier = none ∧
    (∀ k, k ≠ identifier → (g.Clear identifier).1.mem k = g.mem k) := by
  unfold BruteForceGuard.Clear
  rw [hrdb]
  refine ⟨rfl, by simp [setKey], ?_⟩
  intro k hk
  simp [setKey, hk]

theorem lt_add_lockoutTTL (t : Int) : t < t + bruteLockoutTTL := by
  have : (0 : Int) < bruteLockoutTTL := by decide
  omega

/-! ### C7: lockout threshold -/

/-- C7. Lockout threshold, in-process guard. For an identifier with no entry:
after `n ≤ 4` `RecordFailure` calls `Check` returns true (at any instant not
before the zero time); after the 5th `RecordFailure`, `Check` at that instant
returns false, aborting with 429, and the stored failure counter is 0. -/
theorem lockout_threshold (g : BruteForceGuard) (identifier : String)
    (hrdb : g.rdb = none) (hfresh : g.mem identifier = none) :
    (∀ (ts : List Int) (t : Int), ts.length ≤ 4 → zeroTime ≤ t →
        ((g.recordAll identifier ts).Check identifier t).1 = true) ∧
    (∀ (ts : List Int) (t5 : Int), ts.length = 4 →
        (g.recordAll identifier (ts ++ [t5])).Check identifier t5 = (false, some 429) ∧
        ((g.recordAll identifier (ts ++ [t5])).mem identifier).map (fun e => e.count)
          = some 0) := by
  have hz := memEntry_fresh g identifier hfresh
  constructor
  · intro ts t hlen ht
    apply Check_after_below g identifier hrdb ts t
    · rw [hz]; decide
    · rw [hz]; simp only [localEntry.zero]; omega
    · rw [hz]; exact ht
  · intro ts t5 hlen
    have hmem := recordAll_reaching g identifier hrdb ts t5 (by rw [hz]; decide)
      (by rw [hz]; simp only [localEntry.zero]; omega)
    have hc := Check_false_of_locked _ identifier t5 (recordAll_rdb g identifier (ts ++ [t5]) hrdb)
      _ hmem (lt_add_lockoutTTL t5)
    refine ⟨?_, by rw [hmem]; rfl⟩
    rw [Check_eq] at hc
    unfold BruteForceGuard.Check
    cases hl : (g.recordAll identifier (ts ++ [t5])).isLocked identifier t5
    · rw [hl] at hc; simp at hc
    · rfl

/-- Instance of C7 on a new in-process guard: four failures allow, the fifth
locks. -/
theorem lockout_threshold_witness :
    (((NewBruteForceGuard none).recordAll "a@example.com" [1, 2, 3, 4]).Check
        "a@example.com" 5).1 = true ∧
    ((NewBruteForceGuard none).recordAll "a@example.com" ([1, 2, 3, 4] ++ [5])).Check
        "a@example.com" 5 = (false, some 429) :=
  ⟨(lockout_threshold (NewBruteForceGuard none) "a@example.com" rfl rfl).1 [1, 2, 3, 4] 5
      (by decide) (by decide),
   ((lockout_threshold (NewBruteForceGuard none) "a@example.com" rfl rfl).2 [1, 2, 3, 4] 5
      rfl).1⟩

/-! ### C8: lock duration -/

/-- C8. Lock duration, in-process guard. `Check(identifier)` at time `t`
returns false iff the identifier has an entry whose `lockedUntil` is strictly
after `t`. When the 5th failure of an identifier that had no entry is recorded
at `t5` and nothing follows, `Check` returns false at every `t` with
`t5 ≤ t < t5 + 15 min` and true at every `t ≥ t5 + 15 min`. -/
theorem lock_duration (g : BruteForceGuard) (identifier : String) (hrdb : g.rdb = none) :
    (∀ t : Int, (g.Check identifier t).1 = false
        ↔ ∃ e, g.mem identifier = some e ∧ t < e.lockedUntil) ∧
    (g.mem identifier = none → ∀ (ts : List Int) (t5 t : Int), ts.length = 4 →
        (t5 ≤ t → t < t5 + 15 * minute →
          ((g.recordAll identifier (ts ++ [t5])).Check identifier t).1 = false) ∧
        (t5 + 15 * minute ≤ t →
          ((g.recordAll identifier (ts ++ [t5])).Check identifier t).1 = true)) := by
  constructor
  · intro t
    rw [Check_eq, ← isLocked_inproc g identifier t hrdb]
    cases g.isLocked identifier t <;> simp
  · intro hfresh ts t5 t hlen
    have hz := memEntry_fresh g identifier hfresh
    have hr := recordAll_rdb g identifier (ts ++ [t5]) hrdb
    have hmem := recordAll_reaching g identifier hrdb ts t5 (by rw [hz]; decide)
      (by rw [hz]; simp only [localEntry.zero]; omega)
    constructor
    · intro _ hlt
      exact Check_false_of_locked _ identifier t hr _ hmem hlt
    · intro hge
      apply Check_true_of_expired _ identifier t hr
      rw [memEntry_snd, hmem]
      exact hge

/-- Instance of C8: a 5th failure at 0 locks at 899 s and no longer at 900 s. -/
theorem lock_duration_witness :
    (((NewBruteForceGuard none).recordAll "a@example.com" ([0, 0, 0, 0] ++ [0])).Check
        "a@example.com" 899000000000).1 = false ∧
    (((NewBruteForceGuard none).recordAll "a@example.com" ([0, 0, 0, 0] ++ [0])).Check
        "a@example.com" 900000000000).1 = true :=
  ⟨((lock_duration (NewBruteForceGuard none) "a@example.com" rfl).2 rfl [0, 0, 0, 0] 0
      899000000000 rfl).1 (by decide) (by decide),
   ((lock_duration (NewBruteForceGuard none) "a@example.com" rfl).2 rfl [0, 0, 0, 0] 0
      900000000000 rfl).2 (by decide)⟩

/-! ### C9: Clear unlocks -/

/-- C9. Clear unlocks, in-process guard. For every identifier and every run of
`k ≥ 0` preceding `RecordFailure` calls (also while locked), `Clear` removes
the entry, counter and lock instant alike: the `Check` that follows returns
true at any instant, up to four further failures keep `Check` true, and the
fifth further failure locks again. -/
theorem clear_unlocks (g : BruteForceGuard) (identifier : String) (hrdb : g.rdb = none)
    (ts : List Int) :
    ((g.recordAll identifier ts).Clear identifier).1.mem identifier = none ∧
    (∀ t : Int, (((g.recordAll identifier ts).Clear identifier).1.Check identifier t)
        = (true, none)) ∧
    (∀ (us : List Int) (t : Int), us.length ≤ 4 → zeroTime ≤ t →
        ((((g.recordAll identifier ts).Clear identifier).1.recordAll identifier us).Check
          identifier t).1 = true) ∧
    (∀ (us : List Int) (u5 : Int), us.length = 4 →
        ((((g.recordAll identifier ts).Clear identifier).1.recordAll identifier
          (us ++ [u5])).Check identifier u5).1 = false) := by
  obtain ⟨hr, hnone, -⟩ := Clear_inproc (g.recordAll identifier ts) identifier
    (recordAll_rdb g identifier ts hrdb)
  have hz := memEntry_fresh _ identifier hnone
  refine ⟨hnone, ?_, ?_, ?_⟩
  · intro t
    unfold BruteForceGuard.Check BruteForceGuard.isLocked
    rw [hr, hnone]
    rfl
  · intro us t hlen ht
    apply Check_after_below _ identifier hr us t
    · rw [hz]; decide
    · rw [hz]; simp only [localEntry.zero]; omega
    · rw [hz]; exact ht
  · intro us u5 hlen
    have hmem := recordAll_reaching _ identifier hr us u5 (by rw [hz]; decide)
      (by rw [hz]; simp only [localEntry.zero]; omega)
    exact Check_false_of_locked _ identifier u5 (recordAll_rdb _ identifier (us ++ [u5]) hr)
      _ hmem (lt_add_lockoutTTL u5)

/-- Instance of C9: five failures, then `Clear`, then `Check` at once. -/
theorem clear_unlocks_witness :
    (((NewBruteForceGuard none).recordAll "a@example.com" [1, 2, 3, 4, 5]).Clear
        "a@example.com").1.Check "a@example.com" 5 = (true, none) :=
  (clear_unlocks (NewBruteForceGuard none) "a@example.com" rfl [1, 2, 3, 4, 5]).2.1 5

/-! ### C10: a freshly-unlocked identifier starts from zero -/

/-- C10. In-process guard: after a lock created by a 5th failure at `t5`, with
no `Clear`, up to four further `RecordFailure` calls leave `Check` returning
true at every instant from `t5 + 15 min` on, and the fifth further failure, at
`u5`, locks the identifier again, until `u5 + 15 min`. -/
theorem unlocked_starts_from_zero (g : BruteForceGuard) (identifier : String)
    (hrdb : g.rdb = none) (hfresh : g.mem identifier = none)
    (ts : List Int) (t5 : Int) (hlen : ts.length = 4) :
    (∀ (us : List Int) (t : Int), us.length ≤ 4 → t5 + 15 * minute ≤ t →
        (((g.recordAll identifier (ts ++ [t5])).recordAll identifier us).Check
          identifier t).1 = true) ∧
    (∀ (us : List Int) (u5 : Int), us.length = 4 →
        (((g.recordAll identifier (ts ++ [t5])).recordAll identifier (us ++ [u5])).Check
          identifier u5).1 = false ∧
        ((g.recordAll identifier (ts ++ [t5])).recordAll identifier (us ++ [u5])).mem identifier
          = some { count := 0, lockedUntil := u5 + 15 * minute }) := by
  have hz := memEntry_fresh g identifier hfresh
  have hr := recordAll_rdb g identifier (ts ++ [t5]) hrdb
  have hmem := recordAll_reaching g identifier hrdb ts t5 (by rw [hz]; decide)
    (by rw [hz]; simp only [localEntry.zero]; omega)
  have he : ((g.recordAll identifier (ts ++ [t5])).memEntry identifier).2
      = { count := 0, lockedUntil := t5 + bruteLockoutTTL } := by
    rw [memEntry_snd, hmem]; rfl
  constructor
  · intro us t hus ht
    apply Check_after_below _ identifier hr us t
    · rw [he]
    · rw [he]; simp only []; omega
    · rw [he]; exact ht
  · intro us u5 hus
    have hmem2 := recordAll_reaching _ identifier hr us u5 (by rw [he])
      (by rw [he]; simp only []; omega)
    exact ⟨Check_false_of_locked _ identifier u5 (recordAll_rdb _ identifier (us ++ [u5]) hr)
      _ hmem2 (lt_add_lockoutTTL u5), hmem2⟩

/-- Instance of C10: lock at 0, four failures after expiry keep `Check` true,
the fifth locks again. -/
theorem unlocked_starts_from_zero_witness :
    ((((NewBruteForceGuard none).recordAll "a@example.com" ([0, 0, 0, 0] ++ [0])).recordAll
        "a@example.com" [900000000000, 900000000001, 900000000002, 900000000003]).Check
        "a@example.com" 900000000004).1 = true ∧
    ((((NewBruteForceGuard none).recordAll "a@example.com" ([0, 0, 0, 0] ++ [0])).recordAll
        "a@example.com"
        ([900000000000, 900000000001, 900000000002, 900000000003] ++ [900000000004])).Check
        "a@example.com" 900000000004).1 = false :=
  ⟨(unlocked_starts_from_zero (NewBruteForceGuard none) "a@example.com" rfl rfl [0, 0, 0, 0] 0
      rfl).1 [900000000000, 900000000001, 900000000002, 900000000003] 900000000004
      (by decide) (by decide),
   ((unlocked_starts_from_zero (NewBruteForceGuard none) "a@example.com" rfl rfl [0, 0, 0, 0] 0
      rfl).2 [900000000000, 900000000001, 900000000002, 900000000003] 900000000004 rfl).1⟩

/-! ## Lockout guard, shared-store path -/

theorem isLocked_store (g : BruteForceGuard) (r : Redis) (identifier : String) (now : Int)
    (hrdb : g.rdb = some r) :
    g.isLocked identifier now
      = (match r.get (bruteKeyPrefix ++ identifier ++ ":locked_until") with
        | none => false
        | some val =>
          match parseInt val with
          | none => false
          | some ts => decide (now / second < ts)) := by
  unfold BruteForceGuard.isLocked
  rw [hrdb]

theorem RecordFailure_store (g : BruteForceGuard) (r : Redis) (identifier : String) (now : Int)
    (hrdb : g.rdb = some r) :
    (g.RecordFailure identifier now).1 = g := by
  unfold BruteForceGuard.RecordFailure
  rw [hrdb]
  simp only []
  split <;> rfl

theorem recordAll_store (g : BruteForceGuard) (r : Redis) (identifier : String)
    (clock : List Int) (hrdb : g.rdb = some r) :
    g.recordAll identifier clock = g := by
  induction clock using List.reverseRecOn with
  | nil => rfl
  | append_singleton l now ih =>
    rw [recordAll_snoc, ih]
    exact RecordFailure_store g r identifier now hrdb

/-! ### C11: the guard fails open on the shared-store path -/

/-- C11. Lockout guard with a shared store configured, the store's replies
being results that may be errors. `isLocked` returns false and `Check` allows
whenever reading the `locked_until` key returns an error (missing key and
timeout included) or a value that does not parse as an integer;
`RecordFailure` sends no `SET` of the lock key when the counter increment
fails; and after any run of failures, also with an entry left in the
in-process map, a store whose read fails never makes `Check` return false. -/
theorem guard_fails_open (g : BruteForceGuard) (r : Redis) (identifier : String) (now : Int)
    (hrdb : g.rdb = some r) :
    (r.get (bruteKeyPrefix ++ identifier ++ ":locked_until") = none →
        g.isLocked identifier now = false ∧ g.Check identifier now = (true, none)) ∧
    (∀ val : String, r.get (bruteKeyPrefix ++ identifier ++ ":locked_until") = some val →
        parseInt val = none →
        g.isLocked identifier now = false ∧ g.Check identifier now = (true, none)) ∧
    (r.incr (bruteKeyPrefix ++ identifier ++ ":count") = none →
        (g.RecordFailure identifier now).2
          = [Cmd.incr (bruteKeyPrefix ++ identifier ++ ":count"),
             Cmd.expire (bruteKeyPrefix ++ identifier ++ ":count") bruteLockoutTTL] ∧
        (∀ (key : String) (value ttl : Int),
          Cmd.set key value ttl ∉ (g.RecordFailure identifier now).2) ∧
        (g.RecordFailure identifier now).1 = g) ∧
    (r.get (bruteKeyPrefix ++ identifier ++ ":locked_until") = none →
        ∀ (clock : List Int) (t : Int),
          ((g.recordAll identifier clock).Check identifier t).1 = true) := by
  have hopen : ∀ (t : Int), g.isLocked identifier t = false →
      g.Check identifier t = (true, none) := by
    intro t h
    unfold BruteForceGuard.Check
    rw [h]
    rfl
  refine ⟨?_, ?_, ?_, ?_⟩
  · intro hget
    have h : g.isLocked identifier now = false := by
      rw [isLocked_store g r identifier now hrdb, hget]
    exact ⟨h, hopen now h⟩
  · intro val hget hparse
    have h : g.isLocked identifier now = false := by
      rw [isLocked_store g r identifier now hrdb, hget]
      simp only [hparse]
    exact ⟨h, hopen now h⟩
  · intro hincr
    have hsent : (g.RecordFailure identifier now).2
        = [Cmd.incr (bruteKeyPrefix ++ identifier ++ ":count"),
           Cmd.expire (bruteKeyPrefix ++ identifier ++ ":count") bruteLockoutTTL] := by
      unfold BruteForceGuard.RecordFailure
      rw [hrdb]
      simp only [hincr, Option.getD_none]
      rw [if_neg (by decide)]
    refine ⟨hsent, ?_, RecordFailure_store g r identifier now hrdb⟩
    intro key value ttl
    rw [hsent]
    simp
  · intro hget clock t
    rw [recordAll_store g r identifier clock hrdb]
    have h : g.isLocked identifier t = false := by
      rw [isLocked_store g r identifier t hrdb, hget]
    rw [hopen t h]

/-- Instance of C11: a guard on a store that answers every command with an
error, with a locked entry left in its in-process map, allows after six
recorded failures. -/
theorem guard_fails_open_witness :
    (({ rdb := some deadStore,
        mem := fun _ => some { count := 0, lockedUntil := 2000000000000000000 } }
        : BruteForceGuard).recordAll "a@example.com" [1, 2, 3, 4, 5, 6]).Check
      "a@example.com" 7 = (true, none) := by
  have h := (guard_fails_open
    { rdb := some deadStore,
      mem := fun _ => some { count := 0, lockedUntil := 2000000000000000000 } }
    deadStore "a@example.com" 7 rfl).2.2.2 rfl [1, 2, 3, 4, 5, 6] 7
  unfold BruteForceGuard.Check at h ⊢
  split
  · rename_i hl
    rw [if_pos hl] at h
    simp at h
  · rfl

/-! ## Path segments -/

theorem pathSegments_slash (cs : List Char) :
    pathSegments ('/' :: cs) = [] :: pathSegments cs := by
  simp [pathSegments]

theorem pathSegments_ne_nil (q : List Char) : ∃ s rest, pathSegments q = s :: rest := by
  induction q with
  | nil => exact ⟨[], [], rfl⟩
  | cons c cs ih =>
    obtain ⟨s, rest, h⟩ := ih
    by_cases hc : c = '/'
    · subst hc
      exact ⟨[], pathSegments cs, pathSegments_slash cs⟩
    · exact ⟨c :: s, rest, by simp [pathSegments, hc, h]⟩

theorem pathSegments_other (c : Char) (cs s : List Char) (rest : List (List Char))
    (hc : c ≠ '/') (h : pathSegments cs = s :: rest) :
    pathSegments (c :: cs) = (c :: s) :: rest := by
  simp [pathSegments, hc, h]

/-- The first segment of `q` is `w` iff `w` has no `/` and `q` is `w` or
starts with `w` followed by `/`. -/
theorem head_segment_iff (q : List Char) :
    ∀ w : List Char, (pathSegments q).head? = some w
      ↔ ('/' ∉ w ∧ (q = w ∨ (w ++ ['/']) <+: q)) := by
  induction q with
  | nil =>
    intro w
    cases w with
    | nil => simp [pathSegments]
    | cons d w => simp [pathSegments]
  | cons c cs ih =>
    intro w
    by_cases hc : c = '/'
    · subst hc
      rw [pathSegments_slash]
      cases w with
      | nil => simp
      | cons d w =>
        simp only [List.head?_cons, Option.some.injEq, List.mem_cons, not_or, List.cons.injEq,
          List.cons_append, List.cons_prefix_cons]
        constructor
        · intro h
          exact absurd h (by simp)
        · rintro ⟨⟨hd, -⟩, h⟩
          rcases h with ⟨h, -⟩ | ⟨h, -⟩
          · exact absurd h hd
          · exact absurd h.symm hd
    · obtain ⟨s, rest, hs⟩ := pathSegments_ne_nil cs
      rw [pathSegments_other c cs s rest hc hs]
      have ihs : ∀ w', s = w' ↔ ('/' ∉ w' ∧ (cs = w' ∨ (w' ++ ['/']) <+: cs)) := by
        intro w'
        rw [← ih w', hs]
        simp
      cases w with
      | nil =>
        simp only [List.head?_cons, Option.some.injEq, List.nil_append, List.not_mem_nil,
          not_false_eq_true, true_and]
        constructor
        · intro h
          exact absurd h (by simp)
        · rintro (h | h)
          · exact absurd h (by simp)
          · rw [List.cons_prefix_cons] at h
            exact absurd h.1.symm hc
      | cons d w =>
        simp only [List.head?_cons, Option.some.injEq, List.cons.injEq, List.mem_cons, not_or,
          List.cons_append, List.cons_prefix_cons]
        rw [ihs w]
        constructor
        · rintro ⟨rfl, hw, h⟩
          refine ⟨⟨fun h' => hc h'.symm, hw⟩, ?_⟩
          rcases h with h | h
          · exact Or.inl ⟨rfl, h⟩
          · exact Or.inr ⟨rfl, h⟩
        · rintro ⟨⟨-, hw⟩, h⟩
          rcases h with ⟨rfl, h⟩ | ⟨rfl, h⟩
          · exact ⟨rfl, hw, Or.inl h⟩
          · exact ⟨rfl, hw, Or.inr h⟩

theorem mem_iff_head_or_tail {α : Type} (x : α) (l : List α) :
    x ∈ l ↔ (l.head? = some x ∨ x ∈ l.tail) := by
  cases l with
  | nil => simp
  | cons a l =>
    simp only [List.mem_cons, List.head?_cons, Option.some.injEq, List.tail_cons]
    constructor
    · rintro (h | h)
      · exact Or.inl h.symm
      · exact Or.inr h
    · rintro (h | h)
      · exact Or.inl h.symm
      · exact Or.inr h

theorem tail_segment_chars (q : List Char) :
    ['a', 'u', 't', 'h'] ∈ (pathSegments q).tail
      ↔ ('/' :: (['a', 'u', 't', 'h'] ++ ['/']) <:+: q ∨ '/' :: ['a', 'u', 't', 'h'] <:+ q) := by
  induction q with
  | nil => simp [pathSegments]
  | cons c cs ih =>
    rw [List.infix_cons_iff, List.suffix_cons_iff, List.cons_prefix_cons, List.cons.injEq]
    by_cases hc : c = '/'
    · subst hc
      rw [pathSegments_slash, List.tail_cons, mem_iff_head_or_tail, head_segment_iff, ih]
      have hno : '/' ∉ ['a', 'u', 't', 'h'] := by decide
      constructor
      · rintro (⟨-, h | h⟩ | h | h)
        · exact Or.inr (Or.inl ⟨rfl, h.symm⟩)
        · exact Or.inl (Or.inl ⟨rfl, h⟩)
        · exact Or.inl (Or.inr h)
        · exact Or.inr (Or.inr h)
      · rintro ((⟨-, h⟩ | h) | ⟨-, h⟩ | h)
        · exact Or.inl ⟨hno, Or.inr h⟩
        · exact Or.inr (Or.inl h)
        · exact Or.inl ⟨hno, Or.inl h.symm⟩
        · exact Or.inr (Or.inr h)
    · obtain ⟨s, rest, hs⟩ := pathSegments_ne_nil cs
      rw [pathSegments_other c cs s rest hc hs, List.tail_cons]
      have ih2 : ['a', 'u', 't', 'h'] ∈ rest
          ↔ ('/' :: (['a', 'u', 't', 'h'] ++ ['/']) <:+: cs ∨ '/' :: ['a', 'u', 't', 'h'] <:+ cs) := by
        rw [← ih, hs, List.tail_cons]
      rw [ih2]
      constructor
      · rintro (h | h)
        · exact Or.inl (Or.inr h)
        · exact Or.inr (Or.inr h)
      · rintro ((⟨h, -⟩ | h) | ⟨h, -⟩ | h)
        · exact absurd h.symm hc
        · exact Or.inl h
        · exact absurd h.symm hc
        · exact Or.inr h

/-- A segment after the first is "auth" iff the path contains "/auth/" or
ends with "/auth". -/
theorem tail_segment_iff (q : List Char) :
    "auth".data ∈ (pathSegments q).tail
      ↔ ("/auth/".data <:+: q ∨ "/auth".data <:+ q) :=
  tail_segment_chars q

/-! ### C28: the auth tier is an exact "auth" path segment -/

/-- C28. For every path that begins with "/" and every method,
`tier(method, path)` is "auth" iff one of the path's "/"-separated segments is
exactly "auth"; "/authors", "/api/authx/login" and "/oauth/token" are not
auth, while "/auth", "/api/v1/auth" and "/api/v1/auth/login" are. -/
theorem auth_tier_exact_segment (toUpper : String → String) (method path : String)
    (hslash : path.data.head? = some '/') :
    (tier toUpper method path = "auth" ↔ "auth".data ∈ pathSegments path.data) ∧
    (tier asciiUpper "GET" "/authors" ≠ "auth" ∧
     tier asciiUpper "GET" "/api/authx/login" ≠ "auth" ∧
     tier asciiUpper "GET" "/oauth/token" ≠ "auth" ∧
     tier asciiUpper "GET" "/auth" = "auth" ∧
     tier asciiUpper "GET" "/api/v1/auth" = "auth" ∧
     tier asciiUpper "GET" "/api/v1/auth/login" = "auth") := by
  refine ⟨?_, by decide⟩
  rw [tier_auth_iff, ← tail_segment_iff,
    mem_iff_head_or_tail ("auth".data) (pathSegments path.data), head_segment_iff]
  constructor
  · intro h
    exact Or.inr h
  · rintro (⟨-, h | h⟩ | h)
    · rw [h] at hslash
      exact absurd hslash (by decide)
    · obtain ⟨t, ht⟩ := h
      rw [← ht] at hslash
      have ha : ("auth".data ++ ['/'] ++ t).head? = some 'a' := rfl
      rw [ha] at hslash
      exact absurd hslash (by decide)
    · exact h

/-- Instance of C28 on "/api/v1/auth/login". -/
theorem auth_tier_exact_segment_witness :
    tier asciiUpper "POST" "/api/v1/auth/login" = "auth"
      ↔ "auth".data ∈ pathSegments "/api/v1/auth/login".data :=
  (auth_tier_exact_segment asciiUpper "POST" "/api/v1/auth/login" (by decide)).1

/-! ## Isolation of keys -/

theorem tier_mem (toUpper : String → String) (method path : String) :
    tier toUpper method path = "auth" ∨ tier toUpper method path = "write"
      ∨ tier toUpper method path = "global" := by
  unfold tier
  split
  · exact Or.inl rfl
  · simp only []
    split
    · exact Or.inr (Or.inl rfl)
    · exact Or.inr (Or.inr rfl)

/-- A `localCheck` on `key` reads and writes the window of `key` only. -/
theorem localCheck_local (w w₂ : Windows) (key : String) (limit ws now : Int)
    (h : w key = w₂ key) :
    (localCheck w key limit ws now).1 = (localCheck w₂ key limit ws now).1 ∧
    (localCheck w key limit ws now).2 key = (localCheck w₂ key limit ws now).2 key ∧
    (∀ k, k ≠ key → (localCheck w key limit ws now).2 k = w k) := by
  unfold localCheck
  simp only [← h]
  split
  · refine ⟨rfl, by simp [setKey_same], ?_⟩
    intro k hk
    exact setKey_other _ _ _ _ hk
  · refine ⟨rfl, by simp [setKey_same], ?_⟩
    intro k hk
    exact setKey_other _ _ _ _ hk

theorem checkMany_snoc (w : Windows) (calls : List (String × Int × Int))
    (c : String × Int × Int) :
    checkMany w (calls ++ [c]) = (localCheck (checkMany w calls) c.1 c.2.1 60 c.2.2).2 := by
  simp [checkMany, List.foldl_append]

theorem checkMany_other (w : Windows) (key : String) (calls : List (String × Int × Int)) :
    (∀ c ∈ calls, c.1 ≠ key) → checkMany w calls key = w key := by
  induction calls using List.reverseRecOn with
  | nil => intro _; rfl
  | append_singleton l c ih =>
    intro h
    rw [checkMany_snoc]
    have hc : key ≠ c.1 := fun e => h c (by simp) e.symm
    rw [(localCheck_local (checkMany w l) (checkMany w l) c.1 c.2.1 60 c.2.2 rfl).2.2 key hc]
    exact ih (fun c' hc' => h c' (by simp [hc']))

/-- The key built by `RateLimit` determines the tier and the client. -/
theorem rateLimit_key_injective (t₁ t₂ ip₁ ip₂ : String)
    (h₁ : t₁ = "auth" ∨ t₁ = "write" ∨ t₁ = "global")
    (h₂ : t₂ = "auth" ∨ t₂ = "write" ∨ t₂ = "global")
    (h : "rate_limit:" ++ t₁ ++ ":" ++ ip₁ = "rate_limit:" ++ t₂ ++ ":" ++ ip₂) :
    t₁ = t₂ ∧ ip₁ = ip₂ := by
  rcases h₁ with rfl | rfl | rfl <;> rcases h₂ with rfl | rfl | rfl <;>
    simp [String.ext_iff] at h ⊢ <;> exact h

/-! ### C29: per-key isolation of the in-process limiter -/

/-- C29. A `localCheck` call on key `k` changes only the window stored under
`k`; the keys `RateLimit` builds for two different (tier, client) pairs are
different; hence the result of a check on `k`, and the window it stores under
`k`, are the same after any run of checks on other keys, and the verdict of
`RateLimit` on the in-process path depends on the window of its own key
only. -/
theorem per_key_isolation (w : Windows) (k : String) (limit now : Int) :
    (∀ k₂, k₂ ≠ k → (localCheck w k limit 60 now).2 k₂ = w k₂) ∧
    (∀ (toUpper : String → String) (m₁ p₁ ip₁ m₂ p₂ ip₂ : String),
        (tier toUpper m₁ p₁, ip₁) ≠ (tier toUpper m₂ p₂, ip₂) →
        "rate_limit:" ++ tier toUpper m₁ p₁ ++ ":" ++ ip₁
          ≠ "rate_limit:" ++ tier toUpper m₂ p₂ ++ ":" ++ ip₂) ∧
    (∀ others : List (String × Int × Int), (∀ c ∈ others, c.1 ≠ k) →
        (localCheck (checkMany w others) k limit 60 now).1 = (localCheck w k limit 60 now).1 ∧
        (localCheck (checkMany w others) k limit 60 now).2 k
          = (localCheck w k limit 60 now).2 k) ∧
    (∀ (toUpper : String → String) (w₂ : Windows) (method path ip : String) (t localNow : Int),
        w₂ ("rate_limit:" ++ tier toUpper method path ++ ":" ++ ip)
          = w ("rate_limit:" ++ tier toUpper method path ++ ":" ++ ip) →
        (RateLimit toUpper none w₂ method path ip t localNow).1
          = (RateLimit toUpper none w method path ip t localNow).1) := by
  refine ⟨(localCheck_local w w k limit 60 now rfl).2.2, ?_, ?_, ?_⟩
  · intro toUpper m₁ p₁ ip₁ m₂ p₂ ip₂ hne heq
    obtain ⟨ht, hip⟩ := rateLimit_key_injective _ _ _ _ (tier_mem toUpper m₁ p₁)
      (tier_mem toUpper m₂ p₂) heq
    exact hne (by rw [ht, hip])
  · intro others hothers
    have hk := checkMany_other w k others hothers
    obtain ⟨h1, h2, -⟩ := localCheck_local (checkMany w others) w k limit 60 now hk
    exact ⟨h1, h2⟩
  · intro toUpper w₂ method path ip t localNow hw
    obtain ⟨h1, -, -⟩ := localCheck_local w₂ w
      ("rate_limit:" ++ tier toUpper method path ++ ":" ++ ip)
      (tierLimits (tier toUpper method path)) 60 localNow hw
    unfold RateLimit
    simp only [h1]
    split <;> rfl

end Middleware

namespace Telemetry

open Middleware (wrap64 wrap64_id)

/-! ### Lemmas on the counters -/

theorem records_snoc (t : ErrorBudgetTracker) (codes : List Int) (c : Int) :
    t.recordAll (codes ++ [c]) = (t.recordAll codes).Record c := by
  simp [ErrorBudgetTracker.recordAll, List.foldl_append]

theorem callAll_snoc (t : ErrorBudgetTracker) (calls : List Call) (c : Call) :
    t.callAll (calls ++ [c]) = (t.callAll calls).call c := by
  simp [ErrorBudgetTracker.callAll, List.foldl_append]

theorem Record_slaTarget (t : ErrorBudgetTracker) (c : Int) :
    (t.Record c).slaTarget = t.slaTarget := by
  unfold ErrorBudgetTracker.Record
  simp only []
  split
  · rfl
  · split <;> rfl

theorem recordAll_slaTarget (t : ErrorBudgetTracker) (codes : List Int) :
    (t.recordAll codes).slaTarget = t.slaTarget := by
  induction codes using List.reverseRecOn with
  | nil => rfl
  | append_singleton l c ih => rw [records_snoc, Record_slaTarget, ih]

/-- One `Record` on counters that are not at the top of the `int64` range:
the total goes up by one, and exactly the counter of the code's class does. -/
theorem Record_counts (t : ErrorBudgetTracker) (c : Int)
    (htotal : 0 ≤ t.total ∧ t.total + 1 < 2 ^ 63)
    (hfailed : 0 ≤ t.failed ∧ t.failed + 1 < 2 ^ 63)
    (hce : 0 ≤ t.clientErrors ∧ t.clientErrors + 1 < 2 ^ 63) :
    (t.Record c).total = t.total + 1 ∧
    (t.Record c).failed = t.failed + (if 500 ≤ c then 1 else 0) ∧
    (t.Record c).clientErrors = t.clientErrors + (if 400 ≤ c ∧ c ≤ 499 then 1 else 0) := by
  have h1 : wrap64 (t.total + 1) = t.total + 1 := wrap64_id (by omega) (by omega)
  have h2 : wrap64 (t.failed + 1) = t.failed + 1 := wrap64_id (by omega) (by omega)
  have h3 : wrap64 (t.clientErrors + 1) = t.clientErrors + 1 := wrap64_id (by omega) (by omega)
  unfold ErrorBudgetTracker.Record
  simp only [ge_iff_le]
  by_cases h500 : 500 ≤ c
  · rw [if_pos h500, if_pos h500, if_neg (by omega)]
    exact ⟨h1, h2, by simp⟩
  · rw [if_neg h500, if_neg h500]
    by_cases h400 : 400 ≤ c
    · rw [if_pos h400, if_pos ⟨h400, by omega⟩]
      exact ⟨h1, by simp, h3⟩
    · rw [if_neg h400, if_neg (by omega)]
      exact ⟨h1, by simp, by simp⟩

/-- Counters after a run of records from zeroed counters. -/
theorem recordAll_counts (t : ErrorBudgetTracker)
    (h0 : t.total = 0 ∧ t.failed = 0 ∧ t.clientErrors = 0) (codes : List Int) :
    (codes.length : Int) < 2 ^ 63 →
    (t.recordAll codes).total = codes.length ∧
    (t.recordAll codes).failed = (codes.filter (fun c => decide (500 ≤ c))).length ∧
    (t.recordAll codes).clientErrors
      = (codes.filter (fun c => decide (400 ≤ c ∧ c ≤ 499))).length := by
  induction codes using List.reverseRecOn with
  | nil =>
    intro _
    simpa [ErrorBudgetTracker.recordAll] using h0
  | append_singleton l c ih =>
    intro hlen
    simp only [List.length_append, List.length_singleton, Nat.cast_add, Nat.cast_one] at hlen
    obtain ⟨ht, hf, hc⟩ := ih (by omega)
    have hfl : ((l.filter (fun c => decide (500 ≤ c))).length : Int) ≤ l.length := by
      exact_mod_cast List.length_filter_le _ l
    have hcl : ((l.filter (fun c => decide (400 ≤ c ∧ c ≤ 499))).length : Int) ≤ l.length := by
      exact_mod_cast List.length_filter_le _ l
    obtain ⟨rt, rf, rc⟩ := Record_counts (t.recordAll l) c
      (by rw [ht]; omega) (by rw [hf]; omega) (by rw [hc]; omega)
    rw [records_snoc, rt, rf, rc, ht, hf, hc]
    refine ⟨by simp, ?_, ?_⟩
    · by_cases h : 500 ≤ c <;> simp [List.filter_append, h]
    · by_cases h : 400 ≤ c ∧ c ≤ 499 <;> simp [List.filter_append, h]

theorem Snapshot_counts (t : ErrorBudgetTracker)
    (h : t.total = 0 → t.failed = 0 ∧ t.clientErrors = 0) :
    t.Snapshot.TotalRequests = t.total ∧ t.Snapshot.FailedRequests = t.failed ∧
    t.Snapshot.ClientErrors = t.clientErrors ∧ t.Snapshot.SLATarget = t.slaTarget := by
  unfold ErrorBudgetTracker.Snapshot
  simp only []
  split
  · rename_i hz
    obtain ⟨hf, hc⟩ := h hz
    exact ⟨hz.symm, hf.symm, hc.symm, rfl⟩
  · exact ⟨rfl, rfl, rfl, rfl⟩

theorem Snapshot_zero (t : ErrorBudgetTracker) (h : t.total = 0) :
    t.Snapshot = { SLATarget := t.slaTarget, TotalRequests := 0, FailedRequests := 0,
                   ClientErrors := 0, ObservedAvailability := 1, BudgetConsumedPct := 0,
                   BudgetExhausted := false } := by
  unfold ErrorBudgetTracker.Snapshot
  simp only []
  rw [if_pos h]

/-! ### C12: outcome counters after a sequence of records -/

/-- C12. For a tracker whose counters are zero (a new one, or one just reset)
and every list of status codes recorded one by one (fewer than 2^63 of them):
`Snapshot` reports `TotalRequests` = length of the list, `FailedRequests` =
number of codes ≥ 500, `ClientErrors` = number of codes in 400..499; a code
below 400 changes only the total; and no `Record` of the run decreases a
counter. -/
theorem counters_after_records (t : ErrorBudgetTracker) (codes : List Int)
    (hzero : t.total = 0 ∧ t.failed = 0 ∧ t.clientErrors = 0)
    (hlen : (codes.length : Int) < 2 ^ 63) :
    (t.recordAll codes).Snapshot.TotalRequests = codes.length ∧
    (t.recordAll codes).Snapshot.FailedRequests
      = (codes.filter (fun c => decide (500 ≤ c))).length ∧
    (t.recordAll codes).Snapshot.ClientErrors
      = (codes.filter (fun c => decide (400 ≤ c ∧ c ≤ 499))).length ∧
    (∀ (pre : List Int) (c : Int), pre ++ [c] <+: codes →
        (t.recordAll pre).total ≤ (t.recordAll (pre ++ [c])).total ∧
        (t.recordAll pre).failed ≤ (t.recordAll (pre ++ [c])).failed ∧
        (t.recordAll pre).clientErrors ≤ (t.recordAll (pre ++ [c])).clientErrors ∧
        (c < 400 →
          (t.recordAll (pre ++ [c])).total = (t.recordAll pre).total + 1 ∧
          (t.recordAll (pre ++ [c])).failed = (t.recordAll pre).failed ∧
          (t.recordAll (pre ++ [c])).clientErrors = (t.recordAll pre).clientErrors)) ∧
    ((NewErrorBudgetTracker t.slaTarget).total = 0 ∧ (NewErrorBudgetTracker t.slaTarget).failed = 0
      ∧ (NewErrorBudgetTracker t.slaTarget).clientErrors = 0) ∧
    (∀ u : ErrorBudgetTracker, u.Reset.total = 0 ∧ u.Reset.failed = 0
      ∧ u.Reset.clientErrors = 0) := by
  obtain ⟨ht, hf, hc⟩ := recordAll_counts t hzero codes hlen
  have hfl : ((codes.filter (fun c => decide (500 ≤ c))).length : Int) ≤ codes.length := by
    exact_mod_cast List.length_filter_le _ codes
  have hcl : ((codes.filter (fun c => decide (400 ≤ c ∧ c ≤ 499))).length : Int)
      ≤ codes.length := by
    exact_mod_cast List.length_filter_le _ codes
  obtain ⟨st, sf, sc, -⟩ := Snapshot_counts (t.recordAll codes)
    (by intro hz; rw [hf, hc]; rw [ht] at hz; constructor <;> omega)
  refine ⟨by rw [st, ht], by rw [sf, hf], by rw [sc, hc], ?_, ⟨rfl, rfl, rfl⟩,
    fun u => ⟨rfl, rfl, rfl⟩⟩
  rintro pre c ⟨suf, rfl⟩
  have hpre : ((pre ++ [c]).length : Int) < 2 ^ 63 := by
    simp only [List.length_append, Nat.cast_add] at hlen ⊢
    omega
  have hpre2 : (pre.length : Int) < 2 ^ 63 := by
    simp only [List.length_append, List.length_singleton, Nat.cast_add, Nat.cast_one] at hpre
    omega
  obtain ⟨pt, pf, pc⟩ := recordAll_counts t hzero pre hpre2
  obtain ⟨qt, qf, qc⟩ := recordAll_counts t hzero (pre ++ [c]) hpre
  rw [pt, pf, pc, qt, qf, qc]
  simp only [List.filter_append, List.length_append, List.length_singleton, Nat.cast_add,
    Nat.cast_one]
  refine ⟨by omega, by omega, by omega, ?_⟩
  intro hlt
  have h5 : ¬ 500 ≤ c := by omega
  have h4 : ¬ (400 ≤ c ∧ c ≤ 499) := by omega
  simp [h5, h4]

/-- Instance of C12: codes 200, 503, 404, 0, -7, 500 give total 6, failed 2,
client errors 1. -/
theorem counters_after_records_witness :
    ((NewErrorBudgetTracker (999 / 1000)).recordAll [200, 503, 404, 0, -7, 500]).Snapshot.TotalRequests
      = 6 ∧
    ((NewErrorBudgetTracker (999 / 1000)).recordAll [200, 503, 404, 0, -7, 500]).Snapshot.FailedRequests
      = 2 ∧
    ((NewErrorBudgetTracker (999 / 1000)).recordAll [200, 503, 404, 0, -7, 500]).Snapshot.ClientErrors
      = 1 := by
  have h := counters_after_records (NewErrorBudgetTracker (999 / 1000))
    [200, 503, 404, 0, -7, 500] ⟨rfl, rfl, rfl⟩ (by decide)
  exact ⟨h.1, h.2.1, h.2.2.1⟩

/-! ### C13: tracker invariant -/

/-- Invariant of the states reached from a new tracker by fewer than 2^63
calls: the counters are non-negative, `failed + clientErrors ≤ total`, and the
total is at most the number of calls. -/
theorem callAll_invariant (sla : ℚ) (calls : List Call) :
    (calls.length : Int) < 2 ^ 63 →
    0 ≤ ((NewErrorBudgetTracker sla).callAll calls).failed ∧
    0 ≤ ((NewErrorBudgetTracker sla).callAll calls).clientErrors ∧
    ((NewErrorBudgetTracker sla).callAll calls).failed
      + ((NewErrorBudgetTracker sla).callAll calls).clientErrors
      ≤ ((NewErrorBudgetTracker sla).callAll calls).total ∧
    ((NewErrorBudgetTracker sla).callAll calls).total ≤ calls.length := by
  induction calls using List.reverseRecOn with
  | nil =>
    intro _
    simp [ErrorBudgetTracker.callAll, NewErrorBudgetTracker]
  | append_singleton l c ih =>
    intro hlen
    simp only [List.length_append, List.length_singleton, Nat.cast_add, Nat.cast_one] at hlen ⊢
    obtain ⟨hf, hc, hsum, ht⟩ := ih (by omega)
    rw [callAll_snoc]
    cases c with
    | reset =>
      simp only [ErrorBudgetTracker.call, ErrorBudgetTracker.Reset]
      refine ⟨le_refl _, le_refl _, by simp, by omega⟩
    | record code =>
      simp only [ErrorBudgetTracker.call]
      obtain ⟨rt, rf, rc⟩ := Record_counts ((NewErrorBudgetTracker sla).callAll l) code
        (by omega) (by omega) (by omega)
      rw [rt, rf, rc]
      by_cases h500 : 500 ≤ code
      · rw [if_pos h500, if_neg (by omega)]
        omega
      · rw [if_neg h500]
        by_cases h400 : 400 ≤ code
        · rw [if_pos ⟨h400, by omega⟩]
          omega
        · rw [if_neg (by omega)]
          omega

/-- C13. In every state reached from a new tracker by a run of `Record` and
`Reset` calls (fewer than 2^63 of them), `total ≥ failed + clientErrors`; and a
`Record` on any state leaves `failed` or `clientErrors` as it was, so it adds
to at most one of them: the next `Record` of the run raises their sum by at
most 1. -/
theorem tracker_invariant (sla : ℚ) (calls : List Call)
    (hlen : (calls.length : Int) < 2 ^ 63) :
    ((NewErrorBudgetTracker sla).callAll calls).total
      ≥ ((NewErrorBudgetTracker sla).callAll calls).failed
        + ((NewErrorBudgetTracker sla).callAll calls).clientErrors ∧
    (∀ (t : ErrorBudgetTracker) (c : Int),
        (t.Record c).failed = t.failed ∨ (t.Record c).clientErrors = t.clientErrors) ∧
    (∀ c : Int, (calls.length : Int) + 1 < 2 ^ 63 →
        ((NewErrorBudgetTracker sla).callAll (calls ++ [Call.record c])).failed
            + ((NewErrorBudgetTracker sla).callAll (calls ++ [Call.record c])).clientErrors
          ≤ ((NewErrorBudgetTracker sla).callAll calls).failed
            + ((NewErrorBudgetTracker sla).callAll calls).clientErrors + 1) := by
  obtain ⟨hf, hc, hsum, ht⟩ := callAll_invariant sla calls hlen
  refine ⟨hsum, ?_, ?_⟩
  · intro t c
    unfold ErrorBudgetTracker.Record
    simp only []
    split
    · exact Or.inr rfl
    · split
      · exact Or.inl rfl
      · exact Or.inl rfl
  · intro c hnext
    rw [callAll_snoc]
    simp only [ErrorBudgetTracker.call]
    obtain ⟨-, rf, rc⟩ := Record_counts ((NewErrorBudgetTracker sla).callAll calls) c
      (by omega) (by omega) (by omega)
    rw [rf, rc]
    by_cases h500 : 500 ≤ c
    · rw [if_pos h500, if_neg (by omega)]
      omega
    · rw [if_neg h500]
      by_cases h400 : 400 ≤ c
      · rw [if_pos ⟨h400, by omega⟩]
        omega
      · rw [if_neg (by omega)]
        omega

/-- Instance of C13: after records 500, 404, a reset, and records 200, 503 the
total is 2 and `failed + clientErrors` is 1. -/
theorem tracker_invariant_witness :
    ((NewErrorBudgetTracker (999 / 1000)).callAll
        [Call.record 500, Call.record 404, Call.reset, Call.record 200, Call.record 503]).total
      ≥ ((NewErrorBudgetTracker (999 / 1000)).callAll
        [Call.record 500, Call.record 404, Call.reset, Call.record 200, Call.record 503]).failed
        + ((NewErrorBudgetTracker (999 / 1000)).callAll
        [Call.record 500, Call.record 404, Call.reset, Call.record 200,
          Call.record 503]).clientErrors :=
  (tracker_invariant (999 / 1000)
    [Call.record 500, Call.record 404, Call.reset, Call.record 200, Call.record 503]
    (by decide)).1

/-! ### C16: Reset and the empty snapshot -/

/-- C16. After `Reset`, following any run of `Record` calls on any tracker,
`Snapshot` reports `TotalRequests = FailedRequests = ClientErrors = 0`,
`BudgetConsumedPct = 0`, `BudgetExhausted = false` and
`ObservedAvailability = 1`: it is the snapshot of a newly constructed tracker
with the same SLA target, which `Reset` keeps. -/
theorem reset_snapshot (t : ErrorBudgetTracker) (codes : List Int) :
    (t.recordAll codes).Reset.Snapshot
      = { SLATarget := t.slaTarget, TotalRequests := 0, FailedRequests := 0, ClientErrors := 0,
          ObservedAvailability := 1, BudgetConsumedPct := 0, BudgetExhausted := false } ∧
    (t.recordAll codes).Reset.Snapshot = (NewErrorBudgetTracker t.slaTarget).Snapshot ∧
    (t.recordAll codes).Reset.slaTarget = t.slaTarget := by
  have hs : (t.recordAll codes).Reset.slaTarget = t.slaTarget := by
    simp only [ErrorBudgetTracker.Reset]
    exact recordAll_slaTarget t codes
  have h1 := Snapshot_zero (t.recordAll codes).Reset rfl
  have h2 := Snapshot_zero (NewErrorBudgetTracker t.slaTarget) rfl
  rw [hs] at h1
  refine ⟨h1, ?_, hs⟩
  rw [h1, h2]
  rfl

/-! ### Lemmas on rounding and on the derived fields of a snapshot -/

theorem mathRound_nonneg_eq {x : ℚ} {k : ℤ} (h0 : 0 ≤ x) (h1 : (k : ℚ) ≤ x + 1 / 2)
    (h2 : x + 1 / 2 < (k : ℚ) + 1) : mathRound x = (k : ℚ) := by
  unfold mathRound
  rw [if_pos h0]
  have : ⌊x + 1 / 2⌋ = k := Int.floor_eq_iff.2 ⟨h1, h2⟩
  rw [this]

theorem mathRound_intCast (k : ℤ) : mathRound (k : ℚ) = (k : ℚ) := by
  unfold mathRound
  split
  · have : ⌊(k : ℚ) + 1 / 2⌋ = k := Int.floor_eq_iff.2 ⟨by linarith, by linarith⟩
    rw [this]
  · have : ⌊-(k : ℚ) + 1 / 2⌋ = -k := by
      apply Int.floor_eq_iff.2
      push_cast
      constructor <;> linarith
    rw [this]
    push_cast
    ring

theorem mathRound_isInt (x : ℚ) : ∃ k : ℤ, mathRound x = (k : ℚ) := by
  unfold mathRound
  split
  · exact ⟨_, rfl⟩
  · exact ⟨-⌊-x + 1 / 2⌋, by push_cast; ring⟩

theorem mathRound_near (x : ℚ) : |mathRound x - x| ≤ 1 / 2 := by
  unfold mathRound
  split
  · have h1 := Int.floor_le (x + 1 / 2)
    have h2 := Int.lt_floor_add_one (x + 1 / 2)
    rw [abs_le]
    constructor <;> linarith
  · have h1 := Int.floor_le (-x + 1 / 2)
    have h2 := Int.lt_floor_add_one (-x + 1 / 2)
    rw [abs_le]
    constructor <;> linarith

/-- Rounding to `1/d`: the result is a multiple of `1/d` within `1/(2d)`. -/
theorem round_div_near (x d : ℚ) (hd : 0 < d) :
    (∃ k : ℤ, mathRound (x * d) / d = (k : ℚ) / d) ∧ |mathRound (x * d) / d - x| ≤ 1 / (2 * d) := by
  constructor
  · obtain ⟨k, hk⟩ := mathRound_isInt (x * d)
    exact ⟨k, by rw [hk]⟩
  · have h := mathRound_near (x * d)
    have hx : mathRound (x * d) / d - x = (mathRound (x * d) - x * d) / d := by
      field_simp
      ring
    rw [hx, abs_div, abs_of_pos hd, div_le_iff₀ hd]
    have : 1 / (2 * d) * d = 1 / 2 := by
      field_simp
      ring
    rw [this]
    exact h

theorem Snapshot_nonzero (t : ErrorBudgetTracker) (h : t.total ≠ 0) :
    t.Snapshot.ObservedAvailability
      = mathRound (((wrap64 (t.total - t.failed) : Int) : ℚ) / (t.total : ℚ) * 1000000) / 1000000 ∧
    t.Snapshot.BudgetConsumedPct
      = (if 1 - t.slaTarget > 0 then
          (if mathRound ((t.failed : ℚ) / (t.total : ℚ) / (1 - t.slaTarget) * 100 * 1000) / 1000 > 100
            then 100
            else mathRound ((t.failed : ℚ) / (t.total : ℚ) / (1 - t.slaTarget) * 100 * 1000) / 1000)
        else if t.failed > 0 then 100
        else 0) ∧
    t.Snapshot.BudgetExhausted = decide (t.Snapshot.BudgetConsumedPct ≥ 100) ∧
    t.Snapshot.TotalRequests = t.total ∧ t.Snapshot.FailedRequests = t.failed ∧
    t.Snapshot.ClientErrors = t.clientErrors := by
  unfold ErrorBudgetTracker.Snapshot
  simp only []
  rw [if_neg h]
  exact ⟨rfl, rfl, rfl, rfl, rfl, rfl⟩

/-! ### C17: budget exactly spent -/

/-- C17. For every tracker whose SLA target is below 1 and whose counts
satisfy `failed / total = 1 - slaTarget`, `BudgetConsumedPct` is 100, hence
within [99, 101], and `BudgetExhausted` is true. -/
theorem budget_exactly_spent (t : ErrorBudgetTracker) (hsla : t.slaTarget < 1)
    (htotal : 0 < t.total)
    (hrate : (t.failed : ℚ) / (t.total : ℚ) = 1 - t.slaTarget) :
    t.Snapshot.BudgetConsumedPct = 100 ∧
    (99 ≤ t.Snapshot.BudgetConsumedPct ∧ t.Snapshot.BudgetConsumedPct ≤ 101) ∧
    t.Snapshot.BudgetExhausted = true := by
  obtain ⟨-, hc, he, -⟩ := Snapshot_nonzero t (by omega)
  have ha : 0 < 1 - t.slaTarget := by linarith
  have hraw : (t.failed : ℚ) / (t.total : ℚ) / (1 - t.slaTarget) * 100 * 1000
      = ((100000 : ℤ) : ℚ) := by
    rw [hrate, div_self (ne_of_gt ha)]
    norm_num
  have h100 : t.Snapshot.BudgetConsumedPct = 100 := by
    rw [hc, if_pos ha, hraw, mathRound_intCast]
    norm_num
  refine ⟨h100, ?_, ?_⟩
  · rw [h100]
    constructor <;> norm_num
  · rw [he, h100]
    simp

/-- Instance of C17, the run of the test: 999 records of status 200 and one of
status 500 at target 0.999 give `TotalRequests` = 1000, `FailedRequests` = 1
and `BudgetConsumedPct` = 100. -/
theorem budget_exactly_spent_witness :
    ((NewErrorBudgetTracker (999 / 1000)).recordAll
        (List.replicate 999 200 ++ [500])).Snapshot.TotalRequests = 1000 ∧
    ((NewErrorBudgetTracker (999 / 1000)).recordAll
        (List.replicate 999 200 ++ [500])).Snapshot.FailedRequests = 1 ∧
    ((NewErrorBudgetTracker (999 / 1000)).recordAll
        (List.replicate 999 200 ++ [500])).Snapshot.BudgetConsumedPct = 100 := by
  have hll : (List.replicate 999 (200 : Int) ++ [500]).length = 1000 := by
    simp only [List.length_append, List.length_replicate, List.length_singleton]
  have hfl : ((List.replicate 999 (200 : Int) ++ [500]).filter
      (fun c => decide (500 ≤ c))).length = 1 := by
    have h200 : decide ((500 : Int) ≤ 200) = false := by decide
    have h500 : decide ((500 : Int) ≤ 500) = true := by decide
    simp only [List.filter_append, List.filter_replicate, h200, List.filter_cons, h500,
      List.filter_nil, if_true, List.nil_append, List.length_singleton, Bool.false_eq_true,
      if_false]
  obtain ⟨ht, hf, -⟩ := recordAll_counts (NewErrorBudgetTracker (999 / 1000)) ⟨rfl, rfl, rfl⟩
    (List.replicate 999 200 ++ [500]) (by rw [hll]; norm_num)
  have hs := recordAll_slaTarget (NewErrorBudgetTracker (999 / 1000))
    (List.replicate 999 200 ++ [500])
  rw [hfl] at hf
  rw [hll] at ht
  obtain ⟨st, sf, -, -⟩ := Snapshot_counts
    ((NewErrorBudgetTracker (999 / 1000)).recordAll (List.replicate 999 200 ++ [500]))
    (by intro hz; rw [ht] at hz; norm_num at hz)
  refine ⟨by rw [st, ht]; rfl, by rw [sf, hf]; rfl, ?_⟩
  exact (budget_exactly_spent _
    (by rw [hs]; norm_num [NewErrorBudgetTracker])
    (by rw [ht]; norm_num)
    (by rw [ht, hf, hs]; norm_num [NewErrorBudgetTracker])).1

/-! ### C18: 4xx responses do not consume budget -/

/-- C18. For every SLA target and every non-empty sequence of recorded status
codes that are all below 500 (fewer than 2^63 of them), recorded on a new
tracker, the snapshot has `FailedRequests = 0`, `BudgetConsumedPct = 0`,
`BudgetExhausted = false` and `ObservedAvailability = 1`, and `ClientErrors`
is the number of codes from 400 on. -/
theorem client_errors_keep_budget (sla : ℚ) (codes : List Int) (hne : codes ≠ [])
    (hlen : (codes.length : Int) < 2 ^ 63) (hlow : ∀ c ∈ codes, c < 500) :
    ((NewErrorBudgetTracker sla).recordAll codes).Snapshot.FailedRequests = 0 ∧
    ((NewErrorBudgetTracker sla).recordAll codes).Snapshot.BudgetConsumedPct = 0 ∧
    ((NewErrorBudgetTracker sla).recordAll codes).Snapshot.BudgetExhausted = false ∧
    ((NewErrorBudgetTracker sla).recordAll codes).Snapshot.ObservedAvailability = 1 ∧
    ((NewErrorBudgetTracker sla).recordAll codes).Snapshot.ClientErrors
      = (codes.filter (fun c => decide (400 ≤ c))).length := by
  obtain ⟨ht, hf, hce⟩ := recordAll_counts (NewErrorBudgetTracker sla) ⟨rfl, rfl, rfl⟩ codes hlen
  have hnil : codes.filter (fun c => decide (500 ≤ c)) = [] := by
    rw [List.filter_eq_nil_iff]
    intro c hc
    have := hlow c hc
    simp only [decide_eq_true_eq]
    omega
  rw [hnil] at hf
  simp only [List.length_nil, Nat.cast_zero] at hf
  have hfeq : codes.filter (fun c => decide (400 ≤ c ∧ c ≤ 499))
      = codes.filter (fun c => decide (400 ≤ c)) := by
    apply List.filter_congr
    intro c hc
    have := hlow c hc
    by_cases h : 400 ≤ c
    · have h2 : c ≤ 499 := by omega
      simp [h, h2]
    · simp [h]
  have hpos : 0 < ((NewErrorBudgetTracker sla).recordAll codes).total := by
    rw [ht]
    cases codes with
    | nil => exact absurd rfl hne
    | cons a l => simp only [List.length_cons, Nat.cast_add, Nat.cast_one]; omega
  have hnz : ((NewErrorBudgetTracker sla).recordAll codes).total ≠ 0 := by omega
  obtain ⟨ha, hc, he, -, sf, sc⟩ := Snapshot_nonzero _ hnz
  have hcons : ((NewErrorBudgetTracker sla).recordAll codes).Snapshot.BudgetConsumedPct = 0 := by
    rw [hc, hf]
    have hr : mathRound ((((0 : ℤ) : ℚ)) / ((((NewErrorBudgetTracker sla).recordAll codes).total : ℤ) : ℚ)
        / (1 - ((NewErrorBudgetTracker sla).recordAll codes).slaTarget) * 100 * 1000) = 0 := by
      have h0 : (((0 : ℤ) : ℚ)) / ((((NewErrorBudgetTracker sla).recordAll codes).total : ℤ) : ℚ)
          / (1 - ((NewErrorBudgetTracker sla).recordAll codes).slaTarget) * 100 * 1000
          = ((0 : ℤ) : ℚ) := by simp
      rw [h0, mathRound_intCast]
      simp
    rw [hr]
    norm_num
  refine ⟨by rw [sf, hf], hcons, ?_, ?_, by rw [sc, hce, hfeq]⟩
  · rw [he, hcons]
    simp
  · rw [ha, hf]
    have hw : wrap64 (((NewErrorBudgetTracker sla).recordAll codes).total - 0)
        = ((NewErrorBudgetTracker sla).recordAll codes).total := by
      rw [sub_zero]
      exact wrap64_id (by omega) (by rw [ht]; exact hlen)
    rw [hw]
    have hq : ((((NewErrorBudgetTracker sla).recordAll codes).total : ℤ) : ℚ) ≠ 0 := by
      exact_mod_cast hnz
    have h1 : ((((NewErrorBudgetTracker sla).recordAll codes).total : ℤ) : ℚ)
        / ((((NewErrorBudgetTracker sla).recordAll codes).total : ℤ) : ℚ) * 1000000
        = ((1000000 : ℤ) : ℚ) := by
      rw [div_self hq]
      norm_num
    rw [h1, mathRound_intCast]
    norm_num

/-- Instance of C18, the run of the test: 100 records of status 400 at target
0.999 give `FailedRequests` = 0, `BudgetConsumedPct` = 0 and `ClientErrors` =
100. -/
theorem client_errors_keep_budget_witness :
    ((NewErrorBudgetTracker (999 / 1000)).recordAll
        (List.replicate 100 400)).Snapshot.FailedRequests = 0 ∧
    ((NewErrorBudgetTracker (999 / 1000)).recordAll
        (List.replicate 100 400)).Snapshot.BudgetConsumedPct = 0 ∧
    ((NewErrorBudgetTracker (999 / 1000)).recordAll
        (List.replicate 100 400)).Snapshot.ClientErrors = 100 := by
  have h := client_errors_keep_budget (999 / 1000) (List.replicate 100 400)
    (by simp) (by simp) (by intro c hc; rw [List.eq_of_mem_replicate hc]; decide)
  refine ⟨h.1, h.2.1, ?_⟩
  rw [h.2.2.2.2]
  simp [List.filter_replicate]

/-! ### Lemmas on the pillar functions -/

theorem clamp01_eq (v : ℚ) : clamp01 v = max 0 (min 1 v) := by
  unfold clamp01
  split
  · rename_i h
    rw [min_eq_right (by linarith), max_eq_left (le_of_lt h)]
  · rename_i h
    split
    · rename_i h1
      rw [min_eq_left (le_of_lt h1), max_eq_right (by norm_num)]
    · rename_i h1
      rw [min_eq_right (not_lt.1 h1), max_eq_right (not_lt.1 h)]

theorem clamp01_range (v : ℚ) : 0 ≤ clamp01 v ∧ clamp01 v ≤ 1 := by
  rw [clamp01_eq]
  exact ⟨le_max_left _ _, max_le (by norm_num) (min_le_left _ _)⟩

theorem clamp01_mono {a b : ℚ} (h : a ≤ b) : clamp01 a ≤ clamp01 b := by
  rw [clamp01_eq, clamp01_eq]
  exact max_le_max (le_refl _) (min_le_min (le_refl _) h)

theorem ratio_of_pos (num den : Int) (h : 0 < den) :
    ratio num den = max 0 (min 1 ((num : ℚ) / (den : ℚ))) := by
  unfold ratio
  rw [if_neg (by omega), clamp01_eq]

theorem ratio_of_nonpos (num den : Int) (h : den ≤ 0) : ratio num den = 1 := by
  unfold ratio
  rw [if_pos h]

theorem ratio_range (num den : Int) : 0 ≤ ratio num den ∧ ratio num den ≤ 1 := by
  unfold ratio
  split
  · constructor <;> norm_num
  · exact clamp01_range _

theorem latencyScore_500 (p : ℚ) : latencyScore p 500 = clamp01 (1 - p / 500) := by
  unfold latencyScore
  rw [if_neg (by norm_num)]

/-! ### C19: pillar formulas for well-formed inputs -/

/-- C19. For every input with non-negative denominators (the numerators
may be any integers, the non-negative ones included), `Calculate` returns `Security`, `DataIntegrity` and `Auditability` equal to
their count ratio clamped to [0,1], and to 1 when the denominator is 0;
`Reliability` is `Availability` clamped to [0,1]; `Performance` is
`1 - ObservedP95LatencyMS / 500` clamped to [0,1], which is 1 at P95 = 0, is 0
for every P95 ≥ 500 and never increases as P95 grows. -/
theorem pillar_formulas (input : QualityScoreInput)
    (hat : 0 ≤ input.AuthChecksTotal) (hee : 0 ≤ input.AuditEventsExpected)
    (htl : 0 ≤ input.TotalLogs) :
    ((input.AuthChecksTotal = 0 → (Calculate input).Security = 1) ∧
     (input.AuthChecksTotal ≠ 0 → (Calculate input).Security
        = max 0 (min 1 ((input.AuthChecksPassed : ℚ) / (input.AuthChecksTotal : ℚ))))) ∧
    ((input.AuditEventsExpected = 0 → (Calculate input).DataIntegrity = 1) ∧
     (input.AuditEventsExpected ≠ 0 → (Calculate input).DataIntegrity
        = max 0 (min 1 ((input.AuditEventsRecorded : ℚ) / (input.AuditEventsExpected : ℚ))))) ∧
    ((input.TotalLogs = 0 → (Calculate input).Auditability = 1) ∧
     (input.TotalLogs ≠ 0 → (Calculate input).Auditability
        = max 0 (min 1 ((input.LogsWithCorrelID : ℚ) / (input.TotalLogs : ℚ))))) ∧
    (Calculate input).Reliability = max 0 (min 1 input.Availability) ∧
    (Calculate input).Performance = max 0 (min 1 (1 - input.ObservedP95LatencyMS / 500)) ∧
    (input.ObservedP95LatencyMS = 0 → (Calculate input).Performance = 1) ∧
    (500 ≤ input.ObservedP95LatencyMS → (Calculate input).Performance = 0) ∧
    (∀ other : QualityScoreInput,
        input.ObservedP95LatencyMS ≤ other.ObservedP95LatencyMS →
        (Calculate other).Performance ≤ (Calculate input).Performance) := by
  have hperf : ∀ i : QualityScoreInput,
      (Calculate i).Performance = clamp01 (1 - i.ObservedP95LatencyMS / 500) :=
    fun i => latencyScore_500 i.ObservedP95LatencyMS
  refine ⟨⟨?_, ?_⟩, ⟨?_, ?_⟩, ⟨?_, ?_⟩, clamp01_eq _, ?_, ?_, ?_, ?_⟩
  · intro h
    exact ratio_of_nonpos _ _ (le_of_eq h)
  · intro h
    exact ratio_of_pos _ _ (lt_of_le_of_ne hat (Ne.symm h))
  · intro h
    exact ratio_of_nonpos _ _ (le_of_eq h)
  · intro h
    exact ratio_of_pos _ _ (lt_of_le_of_ne hee (Ne.symm h))
  · intro h
    exact ratio_of_nonpos _ _ (le_of_eq h)
  · intro h
    exact ratio_of_pos _ _ (lt_of_le_of_ne htl (Ne.symm h))
  · rw [hperf, clamp01_eq]
  · intro h0
    rw [hperf, h0]
    unfold clamp01
    norm_num
  · intro h500
    rw [hperf]
    unfold clamp01
    have hneg : 1 - input.ObservedP95LatencyMS / 500 ≤ 0 := by linarith
    split
    · rfl
    · rename_i h
      have hz : 1 - input.ObservedP95LatencyMS / 500 = 0 := le_antisymm hneg (not_lt.1 h)
      rw [hz]
      norm_num
  · intro other hle
    rw [hperf, hperf]
    apply clamp01_mono
    linarith

/-- Instance of C19: 3 of 4 auth checks, no audit events expected, 1 of 2 logs,
availability 0.5 and a P95 of 250 ms. -/
theorem pillar_formulas_witness :
    (Calculate { AuthChecksPassed := 3, AuthChecksTotal := 4, AuditEventsRecorded := 0,
                 AuditEventsExpected := 0, Availability := 1 / 2, LogsWithCorrelID := 1,
                 TotalLogs := 2, ObservedP95LatencyMS := 250,
                 ObservedP99LatencyMS := 400 }).DataIntegrity = 1 ∧
    (Calculate { AuthChecksPassed := 3, AuthChecksTotal := 4, AuditEventsRecorded := 0,
                 AuditEventsExpected := 0, Availability := 1 / 2, LogsWithCorrelID := 1,
                 TotalLogs := 2, ObservedP95LatencyMS := 250,
                 ObservedP99LatencyMS := 400 }).Security
      = max 0 (min 1 (((3 : ℤ) : ℚ) / ((4 : ℤ) : ℚ))) :=
  ⟨(pillar_formulas
      { AuthChecksPassed := 3, AuthChecksTotal := 4, AuditEventsRecorded := 0,
        AuditEventsExpected := 0, Availability := 1 / 2, LogsWithCorrelID := 1,
        TotalLogs := 2, ObservedP95LatencyMS := 250, ObservedP99LatencyMS := 400 }
      (by decide) (by decide) (by decide)).2.1.1 rfl,
   (pillar_formulas
      { AuthChecksPassed := 3, AuthChecksTotal := 4, AuditEventsRecorded := 0,
        AuditEventsExpected := 0, Availability := 1 / 2, LogsWithCorrelID := 1,
        TotalLogs := 2, ObservedP95LatencyMS := 250, ObservedP99LatencyMS := 400 }
      (by decide) (by decide) (by decide)).1.2 (by decide)⟩

/-! ### C20: non-positive denominators -/

/-- C20, as stated, fails: with numerator 1 and denominator -2 the quotient
clamped to [0,1] is 0, and with numerator -1 and denominator -2 it is 1/2, but
`ratio` returns 1 in both cases. -/
theorem ratio_negative_denominator_counterexample :
    ratio 1 (-2) = 1 ∧ max (0 : ℚ) (min 1 (((1 : ℤ) : ℚ) / ((-2 : ℤ) : ℚ))) = 0 ∧
    ratio (-1) (-2) = 1 ∧ max (0 : ℚ) (min 1 (((-1 : ℤ) : ℚ) / ((-2 : ℤ) : ℚ))) = 1 / 2 := by
  refine ⟨ratio_of_nonpos _ _ (by decide), ?_, ratio_of_nonpos _ _ (by decide), ?_⟩
  · norm_num
  · norm_num

/-- C20, amended. For every numerator and every negative denominator, `ratio`
is computed without error and equals 1: the no-data rule applies to every
denominator that is zero or negative. For a positive denominator the score is
the quotient clamped to [0,1]. In every case the score lies in [0,1]. -/
theorem ratio_denominator (num den : Int) :
    (den < 0 → ratio num den = 1) ∧
    (den = 0 → ratio num den = 1) ∧
    (0 < den → ratio num den = max 0 (min 1 ((num : ℚ) / (den : ℚ)))) ∧
    (0 ≤ ratio num den ∧ ratio num den ≤ 1) :=
  ⟨fun h => ratio_of_nonpos num den (le_of_lt h), fun h => ratio_of_nonpos num den (le_of_eq h),
   ratio_of_pos num den, ratio_range num den⟩

/-! ### Lemmas on the composite score -/

theorem Calculate_range (input : QualityScoreInput) :
    (0 ≤ (Calculate input).Security ∧ (Calculate input).Security ≤ 1) ∧
    (0 ≤ (Calculate input).DataIntegrity ∧ (Calculate input).DataIntegrity ≤ 1) ∧
    (0 ≤ (Calculate input).Reliability ∧ (Calculate input).Reliability ≤ 1) ∧
    (0 ≤ (Calculate input).Auditability ∧ (Calculate input).Auditability ≤ 1) ∧
    (0 ≤ (Calculate input).Performance ∧ (Calculate input).Performance ≤ 1) := by
  refine ⟨ratio_range _ _, ratio_range _ _, clamp01_range _, ratio_range _ _, ?_⟩
  show 0 ≤ latencyScore input.ObservedP95LatencyMS 500
    ∧ latencyScore input.ObservedP95LatencyMS 500 ≤ 1
  rw [latencyScore_500]
  exact clamp01_range _

theorem Composite_eq (q : QualityScore) :
    q.Composite = (0.40 * q.Security + 0.20 * q.DataIntegrity + 0.15 * q.Reliability
      + 0.15 * q.Auditability + 0.05 * q.Performance) / 0.95 := by
  unfold QualityScore.Composite
  simp only []
  ring

theorem Composite_mono (q r : QualityScore) (hs : q.Security ≤ r.Security)
    (hd : q.DataIntegrity ≤ r.DataIntegrity) (hr : q.Reliability ≤ r.Reliability)
    (ha : q.Auditability ≤ r.Auditability) (hp : q.Performance ≤ r.Performance) :
    q.Composite ≤ r.Composite := by
  rw [Composite_eq, Composite_eq]
  apply div_le_div_of_nonneg_right _ (by norm_num)
  linarith

theorem PassesGate_iff (q : QualityScore) : q.PassesGate = true ↔ q.Composite ≥ 0.70 := by
  unfold QualityScore.PassesGate ProductionGate
  simp

/-! ### C21: pillar range -/

/-- C21. For every `QualityScoreInput` whatsoever (negative counts, numerator
above denominator, zero or negative denominators, any availability, any P95),
`Calculate` returns a score, and each of its five pillars lies in [0,1]. -/
theorem pillar_range (input : QualityScoreInput) :
    (0 ≤ (Calculate input).Security ∧ (Calculate input).Security ≤ 1) ∧
    (0 ≤ (Calculate input).DataIntegrity ∧ (Calculate input).DataIntegrity ≤ 1) ∧
    (0 ≤ (Calculate input).Reliability ∧ (Calculate input).Reliability ≤ 1) ∧
    (0 ≤ (Calculate input).Auditability ∧ (Calculate input).Auditability ≤ 1) ∧
    (0 ≤ (Calculate input).Performance ∧ (Calculate input).Performance ≤ 1) :=
  Calculate_range input

/-! ### C25: zero security fails the gate -/

/-- C25. For every input whose security pillar is 0 (`AuthChecksPassed ≤ 0`
with `AuthChecksTotal > 0`), whatever the other inputs are, the composite is
at most 0.55/0.95, which is below 0.70, and `PassesGate()` is false. -/
theorem zero_security_fails (input : QualityScoreInput)
    (hpassed : input.AuthChecksPassed ≤ 0) (htotal : 0 < input.AuthChecksTotal) :
    (Calculate input).Security = 0 ∧
    (Calculate input).Composite ≤ 0.55 / 0.95 ∧ ((0.55 : ℚ) / 0.95 < 0.70) ∧
    (Calculate input).PassesGate = false := by
  obtain ⟨-, ⟨d0, d1⟩, ⟨r0, r1⟩, ⟨a0, a1⟩, ⟨p0, p1⟩⟩ := Calculate_range input
  have hs : (Calculate input).Security = 0 := by
    show ratio input.AuthChecksPassed input.AuthChecksTotal = 0
    rw [ratio_of_pos _ _ htotal]
    have hp : ((input.AuthChecksPassed : ℤ) : ℚ) ≤ 0 := by exact_mod_cast hpassed
    have ht : (0 : ℚ) < ((input.AuthChecksTotal : ℤ) : ℚ) := by exact_mod_cast htotal
    have hq : ((input.AuthChecksPassed : ℤ) : ℚ) / ((input.AuthChecksTotal : ℤ) : ℚ) ≤ 0 :=
      div_nonpos_of_nonpos_of_nonneg hp (le_of_lt ht)
    rw [min_eq_right (by linarith), max_eq_left hq]
  have hc : (Calculate input).Composite ≤ 0.55 / 0.95 := by
    rw [Composite_eq, hs]
    apply div_le_div_of_nonneg_right _ (by norm_num)
    linarith
  have hlt : ((0.55 : ℚ) / 0.95 < 0.70) := by norm_num
  refine ⟨hs, hc, hlt, ?_⟩
  have hn : ¬ (Calculate input).PassesGate = true := by
    rw [PassesGate_iff]
    intro hge
    linarith
  simpa using hn

/-- Instance of C25, the input of the test: 0 of 100 auth checks passed,
availability 0.5, P95 of 1000 ms, all other counts zero. -/
theorem zero_security_fails_witness :
    (Calculate { AuthChecksPassed := 0, AuthChecksTotal := 100, AuditEventsRecorded := 0,
                 AuditEventsExpected := 0, Availability := 0.5, LogsWithCorrelID := 0,
                 TotalLogs := 0, ObservedP95LatencyMS := 1000,
                 ObservedP99LatencyMS := 0 }).PassesGate = false :=
  (zero_security_fails
    { AuthChecksPassed := 0, AuthChecksTotal := 100, AuditEventsRecorded := 0,
      AuditEventsExpected := 0, Availability := 0.5, LogsWithCorrelID := 0,
      TotalLogs := 0, ObservedP95LatencyMS := 1000, ObservedP99LatencyMS := 0 }
    (by decide) (by decide)).2.2.2

/-! ### Lemmas on the SLO flags -/

theorem ErrorRateBreached_iff (failed clientErrors total : Int) (p95MS p99MS : ℚ) :
    (EvaluateSLO failed clientErrors total p95MS p99MS).ErrorRateBreached = true
      ↔ 0 < total ∧ (failed : ℚ) / (total : ℚ) > 0.1 / 100 := by
  unfold EvaluateSLO SLOErrorRatePct
  simp only [decide_eq_true_eq]
  by_cases h : total > 0
  · rw [if_pos h]
    constructor
    · intro hb
      refine ⟨h, ?_⟩
      have : (failed : ℚ) / (total : ℚ) * 100.0 > 0.1 := hb
      norm_num at this ⊢
      linarith
    · rintro ⟨-, hb⟩
      show (failed : ℚ) / (total : ℚ) * 100.0 > 0.1
      norm_num at hb ⊢
      linarith
  · rw [if_neg h]
    constructor
    · intro hb
      norm_num at hb
    · rintro ⟨hpos, -⟩
      exact absurd hpos h

theorem ClientErrorSpike_iff (failed clientErrors total : Int) (p95MS p99MS : ℚ) :
    (EvaluateSLO failed clientErrors total p95MS p99MS).ClientErrorSpike = true
      ↔ 0 < total ∧ (clientErrors : ℚ) / (total : ℚ) > 5 / 100 := by
  unfold EvaluateSLO ClientErrSpikePct
  simp only [decide_eq_true_eq]
  by_cases h : total > 0
  · rw [if_pos h]
    constructor
    · intro hb
      refine ⟨h, ?_⟩
      have : (clientErrors : ℚ) / (total : ℚ) * 100.0 > 5.0 := hb
      norm_num at this ⊢
      linarith
    · rintro ⟨-, hb⟩
      show (clientErrors : ℚ) / (total : ℚ) * 100.0 > 5.0
      norm_num at hb ⊢
      linarith
  · rw [if_neg h]
    constructor
    · intro hb
      norm_num at hb
    · rintro ⟨hpos, -⟩
      exact absurd hpos h

/-! ### C30: an error-rate breach implies an exhausted budget -/

theorem callAll_slaTarget (t : ErrorBudgetTracker) (calls : List Call) :
    (t.callAll calls).slaTarget = t.slaTarget := by
  induction calls using List.reverseRecOn with
  | nil => rfl
  | append_singleton l c ih =>
    rw [callAll_snoc]
    cases c with
    | record code => simp only [ErrorBudgetTracker.call]; rw [Record_slaTarget, ih]
    | reset => simp only [ErrorBudgetTracker.call, ErrorBudgetTracker.Reset]; exact ih

theorem mathRound_ge {x : ℚ} {k : ℤ} (h0 : 0 ≤ x) (hk : (k : ℚ) ≤ x) : (k : ℚ) ≤ mathRound x := by
  unfold mathRound
  rw [if_pos h0]
  have : k ≤ ⌊x + 1 / 2⌋ := Int.le_floor.2 (by linarith)
  exact_mod_cast this

/-- At target 0.999, a 5xx rate above 0.1 % makes the consumed budget 100. -/
theorem exhausted_of_rate (t : ErrorBudgetTracker) (hsla : t.slaTarget = 999 / 1000)
    (htotal : 0 < t.total) (hrate : (t.failed : ℚ) / (t.total : ℚ) > 0.1 / 100) :
    t.Snapshot.BudgetConsumedPct = 100 ∧ t.Snapshot.BudgetExhausted = true := by
  obtain ⟨-, hc, he, -⟩ := Snapshot_nonzero t (by omega)
  have ha : (1 : ℚ) - t.slaTarget > 0 := by rw [hsla]; norm_num
  have hraw : ((100000 : ℤ) : ℚ)
      ≤ (t.failed : ℚ) / (t.total : ℚ) / (1 - t.slaTarget) * 100 * 1000 := by
    rw [hsla]
    norm_num at hrate ⊢
    linarith
  have hround : (100 : ℚ)
      ≤ mathRound ((t.failed : ℚ) / (t.total : ℚ) / (1 - t.slaTarget) * 100 * 1000) / 1000 := by
    have h := mathRound_ge (le_trans (by norm_num) hraw) hraw
    rw [le_div_iff₀ (by norm_num)]
    norm_num at h ⊢
    exact h
  have h100 : t.Snapshot.BudgetConsumedPct = 100 := by
    rw [hc, if_pos ha]
    split
    · rfl
    · rename_i hle
      exact le_antisymm (not_lt.1 hle) hround
  refine ⟨h100, ?_⟩
  rw [he, h100]
  simp

/-- C30. For a tracker with SLA target 0.999 and every state with `total > 0`
reached by `Record` and `Reset` calls: if `EvaluateSLO` applied to the
snapshot's `FailedRequests`, `ClientErrors` and `TotalRequests` sets
`ErrorRateBreached`, then the same snapshot has `BudgetConsumedPct` = 100 and
`BudgetExhausted` = true. The converse fails: after 999 records of 200 and one
of 500 the 5xx rate is exactly 0.1 %, the budget is exhausted and
`ErrorRateBreached` is false. -/
theorem breach_implies_exhausted (calls : List Call) (p95 p99 : ℚ)
    (htotal : 0 < ((NewErrorBudgetTracker (999 / 1000)).callAll calls).total)
    (hbreach :
      (EvaluateSLO
        ((NewErrorBudgetTracker (999 / 1000)).callAll calls).Snapshot.FailedRequests
        ((NewErrorBudgetTracker (999 / 1000)).callAll calls).Snapshot.ClientErrors
        ((NewErrorBudgetTracker (999 / 1000)).callAll calls).Snapshot.TotalRequests
        p95 p99).ErrorRateBreached = true) :
    (((NewErrorBudgetTracker (999 / 1000)).callAll calls).Snapshot.BudgetConsumedPct = 100 ∧
     ((NewErrorBudgetTracker (999 / 1000)).callAll calls).Snapshot.BudgetExhausted = true) ∧
    (((NewErrorBudgetTracker (999 / 1000)).recordAll
        (List.replicate 999 200 ++ [500])).Snapshot.BudgetExhausted = true ∧
     (EvaluateSLO
        ((NewErrorBudgetTracker (999 / 1000)).recordAll
          (List.replicate 999 200 ++ [500])).Snapshot.FailedRequests
        ((NewErrorBudgetTracker (999 / 1000)).recordAll
          (List.replicate 999 200 ++ [500])).Snapshot.ClientErrors
        ((NewErrorBudgetTracker (999 / 1000)).recordAll
          (List.replicate 999 200 ++ [500])).Snapshot.TotalRequests
        p95 p99).ErrorRateBreached = false) := by
  constructor
  · obtain ⟨-, -, -, st, sf, -⟩ := Snapshot_nonzero
      ((NewErrorBudgetTracker (999 / 1000)).callAll calls) (by omega)
    rw [st, sf, ErrorRateBreached_iff] at hbreach
    exact exhausted_of_rate _ (callAll_slaTarget _ calls) htotal hbreach.2
  · have hll : (List.replicate 999 (200 : Int) ++ [500]).length = 1000 := by
      simp only [List.length_append, List.length_replicate, List.length_singleton]
    have hfl : ((List.replicate 999 (200 : Int) ++ [500]).filter
        (fun c => decide (500 ≤ c))).length = 1 := by
      have h200 : decide ((500 : Int) ≤ 200) = false := by decide
      have h500 : decide ((500 : Int) ≤ 500) = true := by decide
      simp only [List.filter_append, List.filter_replicate, h200, List.filter_cons, h500,
        List.filter_nil, if_true, List.nil_append, List.length_singleton, Bool.false_eq_true,
        if_false]
    obtain ⟨ht, hf, -⟩ := recordAll_counts (NewErrorBudgetTracker (999 / 1000)) ⟨rfl, rfl, rfl⟩
      (List.replicate 999 200 ++ [500]) (by rw [hll]; norm_num)
    rw [hll] at ht
    rw [hfl] at hf
    have hs := recordAll_slaTarget (NewErrorBudgetTracker (999 / 1000))
      (List.replicate 999 200 ++ [500])
    obtain ⟨-, hc, he, st, sf, -⟩ := Snapshot_nonzero
      ((NewErrorBudgetTracker (999 / 1000)).recordAll (List.replicate 999 200 ++ [500]))
      (by rw [ht]; norm_num)
    constructor
    · have h100 : ((NewErrorBudgetTracker (999 / 1000)).recordAll
          (List.replicate 999 200 ++ [500])).Snapshot.BudgetConsumedPct = 100 := by
        rw [hc, hs, ht, hf]
        have hraw : (((1 : ℕ) : ℤ) : ℚ) / (((1000 : ℕ) : ℤ) : ℚ)
            / (1 - (NewErrorBudgetTracker (999 / 1000)).slaTarget) * 100 * 1000
            = ((100000 : ℤ) : ℚ) := by
          norm_num [NewErrorBudgetTracker]
        rw [hraw, mathRound_intCast]
        norm_num [NewErrorBudgetTracker]
      rw [he, h100]
      simp
    · have hn : ¬ (EvaluateSLO
          ((NewErrorBudgetTracker (999 / 1000)).recordAll
            (List.replicate 999 200 ++ [500])).Snapshot.FailedRequests
          ((NewErrorBudgetTracker (999 / 1000)).recordAll
            (List.replicate 999 200 ++ [500])).Snapshot.ClientErrors
          ((NewErrorBudgetTracker (999 / 1000)).recordAll
            (List.replicate 999 200 ++ [500])).Snapshot.TotalRequests
          p95 p99).ErrorRateBreached = true := by
        rw [st, sf, ErrorRateBreached_iff, ht, hf]
        norm_num
      exact Bool.eq_false_iff.2 hn

/-- Instance of C30: records 500, 200, 500 breach the error-rate SLO and
exhaust the budget. -/
theorem breach_implies_exhausted_witness :
    ((NewErrorBudgetTracker (999 / 1000)).callAll
        [Call.record 500, Call.record 200, Call.record 500]).Snapshot.BudgetConsumedPct = 100 ∧
    ((NewErrorBudgetTracker (999 / 1000)).callAll
        [Call.record 500, Call.record 200, Call.record 500]).Snapshot.BudgetExhausted = true := by
  have ht : ((NewErrorBudgetTracker (999 / 1000)).callAll
      [Call.record 500, Call.record 200, Call.record 500]).total = 3 := by decide
  have hf : ((NewErrorBudgetTracker (999 / 1000)).callAll
      [Call.record 500, Call.record 200, Call.record 500]).failed = 2 := by decide
  obtain ⟨-, -, -, st, sf, -⟩ := Snapshot_nonzero
    ((NewErrorBudgetTracker (999 / 1000)).callAll
      [Call.record 500, Call.record 200, Call.record 500]) (by rw [ht]; decide)
  exact (breach_implies_exhausted [Call.record 500, Call.record 200, Call.record 500] 0 0
    (by rw [ht]; decide)
    (by rw [st, sf, ErrorRateBreached_iff, ht, hf]; norm_num)).1

/-! ## float64 rounding -/

theorem roundEven_cases (y : ℚ) :
    (roundEven y = ⌊y⌋ ∧ y - ⌊y⌋ ≤ 1 / 2) ∨ (roundEven y = ⌊y⌋ + 1 ∧ 1 / 2 ≤ y - ⌊y⌋) := by
  unfold roundEven
  split
  · exact Or.inl ⟨rfl, by linarith⟩
  · rename_i h1
    split
    · exact Or.inr ⟨rfl, by linarith⟩
    · rename_i h2
      have : y - ⌊y⌋ = 1 / 2 := le_antisymm (not_lt.1 h2) (not_lt.1 h1)
      split
      · exact Or.inl ⟨rfl, by linarith⟩
      · exact Or.inr ⟨rfl, by linarith⟩

theorem roundEven_near (y : ℚ) : |(roundEven y : ℚ) - y| ≤ 1 / 2 := by
  have h1 := Int.floor_le y
  have h2 := Int.lt_floor_add_one y
  rw [abs_le]
  rcases roundEven_cases y with ⟨h, hf⟩ | ⟨h, hf⟩
  · rw [h]; constructor <;> linarith
  · rw [h]; push_cast; constructor <;> linarith

theorem roundEven_le_of_le (y : ℚ) (n : ℤ) (h : y ≤ n) : roundEven y ≤ n := by
  have h1 := Int.floor_le y
  rcases roundEven_cases y with ⟨hr, hf⟩ | ⟨hr, hf⟩
  · rw [hr]
    exact_mod_cast le_trans h1 h
  · rw [hr]
    have : ((⌊y⌋ : ℤ) : ℚ) < n := by linarith
    have : ⌊y⌋ < n := by exact_mod_cast this
    omega

theorem roundEven_ge_of_ge (y : ℚ) (n : ℤ) (h : (n : ℚ) ≤ y) : n ≤ roundEven y := by
  have hn : n ≤ ⌊y⌋ := Int.le_floor.2 h
  rcases roundEven_cases y with ⟨hr, -⟩ | ⟨hr, -⟩ <;> rw [hr] <;> omega

theorem roundEven_eq (y : ℚ) (n : ℤ) (h1 : (n : ℚ) - 1 / 2 < y) (h2 : y < (n : ℚ) + 1 / 2) :
    roundEven y = n := by
  have h := roundEven_near y
  rw [abs_le] at h
  have ha : ((roundEven y : ℤ) : ℚ) < n + 1 := by linarith
  have hb : (n : ℚ) - 1 < roundEven y := by linarith
  have ha' : roundEven y < n + 1 := by exact_mod_cast ha
  have hb' : n - 1 < roundEven y := by exact_mod_cast hb
  omega

theorem roundEven_intCast (n : ℤ) : roundEven (n : ℚ) = n :=
  roundEven_eq _ n (by linarith) (by linarith)

theorem roundEven_tie_even (n : ℤ) (heven : n % 2 = 0) : roundEven ((n : ℚ) + 1 / 2) = n := by
  have hfl : ⌊(n : ℚ) + 1 / 2⌋ = n := by
    rw [Int.floor_eq_iff]
    constructor <;> linarith
  unfold roundEven
  rw [hfl]
  rw [if_neg (by linarith), if_neg (by linarith), if_pos heven]

theorem roundEven_tie_odd (n : ℤ) (hodd : n % 2 = 1) :
    roundEven ((n : ℚ) + 1 / 2) = n + 1 := by
  have hfl : ⌊(n : ℚ) + 1 / 2⌋ = n := by
    rw [Int.floor_eq_iff]
    constructor <;> linarith
  unfold roundEven
  rw [hfl]
  rw [if_neg (by linarith), if_neg (by linarith), if_neg (by omega)]

theorem two_zpow_pos (k : ℤ) : (0 : ℚ) < 2 ^ k := zpow_pos (by norm_num) k

theorem ulpExp_ge (x : ℚ) : -1074 ≤ ulpExp x := by
  unfold ulpExp
  split
  · exact le_refl _
  · exact le_max_right _ _

theorem ulpExp_eq (x : ℚ) (k : ℤ) (hk : -1074 ≤ k) (hlo : (2 : ℚ) ^ (k + 52) ≤ |x|)
    (hhi : |x| < (2 : ℚ) ^ (k + 53)) : ulpExp x = k := by
  have hpos : 0 < |x| := lt_of_lt_of_le (two_zpow_pos _) hlo
  have hx : x ≠ 0 := abs_pos.1 hpos
  have h1 : k + 52 ≤ Int.log 2 |x| :=
    (Int.zpow_le_iff_le_log (by norm_num) hpos).1 (by exact_mod_cast hlo)
  have h2 : Int.log 2 |x| < k + 53 :=
    (Int.lt_zpow_iff_log_lt (by norm_num) hpos).1 (by exact_mod_cast hhi)
  unfold ulpExp
  rw [if_neg hx]
  have : Int.log 2 |x| - 52 = k := by omega
  rw [this]
  exact max_eq_left hk

theorem fl_eval (x : ℚ) (k M : ℤ) (hk : ulpExp x = k) (hM : roundEven (x / 2 ^ k) = M) :
    fl x = (M : ℚ) * 2 ^ k := by
  unfold fl
  rw [hk, hM]

theorem fl_zero : fl 0 = 0 := by
  unfold fl
  simp [roundEven]

theorem fl_sub_eq (x : ℚ) :
    fl x - x = ((roundEven (x / 2 ^ ulpExp x) : ℚ) - x / 2 ^ ulpExp x) * 2 ^ ulpExp x := by
  unfold fl
  have := ne_of_gt (two_zpow_pos (ulpExp x))
  field_simp

theorem fl_err_ulp (x : ℚ) : |fl x - x| ≤ 1 / 2 * 2 ^ ulpExp x := by
  rw [fl_sub_eq, abs_mul, abs_of_pos (two_zpow_pos _)]
  exact mul_le_mul_of_nonneg_right (roundEven_near _) (le_of_lt (two_zpow_pos _))

theorem ulpExp_le_of_lt (x : ℚ) (n : ℤ) (hn : -1021 ≤ n) (hx : |x| < (2 : ℚ) ^ n) :
    ulpExp x ≤ n - 53 := by
  unfold ulpExp
  split
  · omega
  · rename_i h0
    have hpos : 0 < |x| := abs_pos.2 h0
    have h2 : Int.log 2 |x| < n :=
      (Int.lt_zpow_iff_log_lt (by norm_num) hpos).1 (by exact_mod_cast hx)
    exact max_le (by omega) (by omega)

theorem fl_abs_err (x : ℚ) (n : ℤ) (hn : -1021 ≤ n) (hx : |x| < (2 : ℚ) ^ n) :
    |fl x - x| ≤ (2 : ℚ) ^ (n - 54) := by
  have h1 := fl_err_ulp x
  have h2 : (2 : ℚ) ^ ulpExp x ≤ 2 ^ (n - 53) :=
    zpow_le_zpow_right₀ (by norm_num) (ulpExp_le_of_lt x n hn hx)
  have h3 : (2 : ℚ) ^ (n - 53) = 2 * 2 ^ (n - 54) := by
    have : n - 53 = 1 + (n - 54) := by ring
    rw [this, zpow_add₀ (by norm_num)]
    norm_num
  linarith

theorem fl_rel_err (x : ℚ) (hx : (2 : ℚ) ^ (-1022 : ℤ) ≤ |x|) :
    |fl x - x| ≤ 2 ^ (-53 : ℤ) * |x| := by
  have hpos : 0 < |x| := lt_of_lt_of_le (two_zpow_pos _) hx
  have hx0 : x ≠ 0 := abs_pos.1 hpos
  have hlog : -1022 ≤ Int.log 2 |x| :=
    (Int.zpow_le_iff_le_log (by norm_num) hpos).1 (by exact_mod_cast hx)
  have he : ulpExp x = Int.log 2 |x| - 52 := by
    unfold ulpExp
    rw [if_neg hx0]
    exact max_eq_left (by omega)
  have h1 := fl_err_ulp x
  rw [he] at h1
  have h2 : ((2 : ℕ) : ℚ) ^ Int.log 2 |x| ≤ |x| := Int.zpow_log_le_self (by norm_num) hpos
  have h3 : (1 : ℚ) / 2 * 2 ^ (Int.log 2 |x| - 52) = 2 ^ (-53 : ℤ) * 2 ^ Int.log 2 |x| := by
    have : Int.log 2 |x| - 52 = 1 + (-53 + Int.log 2 |x|) := by ring
    rw [this, zpow_add₀ (by norm_num), zpow_add₀ (by norm_num)]
    norm_num
    ring
  rw [h3] at h1
  have h4 : (2 : ℚ) ^ (-53 : ℤ) * 2 ^ Int.log 2 |x| ≤ 2 ^ (-53 : ℤ) * |x| :=
    mul_le_mul_of_nonneg_left (by exact_mod_cast h2) (le_of_lt (two_zpow_pos _))
  linarith


theorem ulpExp_mono (x y : ℚ) (h : |x| ≤ |y|) : ulpExp x ≤ ulpExp y := by
  by_cases hx : x = 0
  · have : ulpExp x = -1074 := by unfold ulpExp; rw [if_pos hx]
    rw [this]
    exact ulpExp_ge y
  · have hpos : 0 < |x| := abs_pos.2 hx
    have hy : y ≠ 0 := abs_pos.1 (lt_of_lt_of_le hpos h)
    unfold ulpExp
    rw [if_neg hx, if_neg hy]
    have := Int.log_mono_right (b := 2) hpos h
    exact max_le_max (by omega) (le_refl _)

theorem grid_coarsen (z : ℚ) (M k k₂ : ℤ) (hz : z = (M : ℚ) * 2 ^ k) (hk : k₂ ≤ k) :
    ∃ M₂ : ℤ, z = (M₂ : ℚ) * 2 ^ k₂ := by
  obtain ⟨n, hn⟩ := Int.eq_ofNat_of_zero_le (by omega : 0 ≤ k - k₂)
  refine ⟨M * 2 ^ n, ?_⟩
  have hk' : k = k₂ + (n : ℤ) := by omega
  rw [hz, hk', zpow_add₀ (by norm_num), zpow_natCast]
  push_cast
  ring

theorem fl_le_of_le_grid (x z : ℚ) (M : ℤ) (hz : z = (M : ℚ) * 2 ^ ulpExp x) (h : x ≤ z) :
    fl x ≤ z := by
  have hp := two_zpow_pos (ulpExp x)
  have hy : x / 2 ^ ulpExp x ≤ (M : ℚ) := by
    rw [div_le_iff₀ hp, ← hz]
    exact h
  have hr : ((roundEven (x / 2 ^ ulpExp x) : ℤ) : ℚ) ≤ (M : ℚ) := by
    exact_mod_cast roundEven_le_of_le _ M hy
  unfold fl
  rw [hz]
  exact mul_le_mul_of_nonneg_right hr (le_of_lt hp)

theorem fl_ge_of_ge_grid (x z : ℚ) (M : ℤ) (hz : z = (M : ℚ) * 2 ^ ulpExp x) (h : z ≤ x) :
    z ≤ fl x := by
  have hp := two_zpow_pos (ulpExp x)
  have hy : (M : ℚ) ≤ x / 2 ^ ulpExp x := by
    rw [le_div_iff₀ hp, ← hz]
    exact h
  have hr : (M : ℚ) ≤ ((roundEven (x / 2 ^ ulpExp x) : ℤ) : ℚ) := by
    exact_mod_cast roundEven_ge_of_ge _ M hy
  unfold fl
  rw [hz]
  exact mul_le_mul_of_nonneg_right hr (le_of_lt hp)

theorem fl_nonneg (x : ℚ) (h : 0 ≤ x) : 0 ≤ fl x :=
  fl_ge_of_ge_grid x 0 0 (by simp) h

theorem fl_nonpos (x : ℚ) (h : x ≤ 0) : fl x ≤ 0 :=
  fl_le_of_le_grid x 0 0 (by simp) h

/-- Rounding does not cross a float64 above: `z` is a multiple of its own unit
in the last place. -/
theorem fl_le_of_le (x z : ℚ) (M : ℤ) (hz : z = (M : ℚ) * 2 ^ ulpExp z) (hz0 : 0 ≤ z)
    (h : x ≤ z) : fl x ≤ z := by
  by_cases hx : 0 ≤ x
  · have habs : |x| ≤ |z| := by rw [abs_of_nonneg hx, abs_of_nonneg hz0]; exact h
    obtain ⟨M₂, hM₂⟩ := grid_coarsen z M _ _ hz (ulpExp_mono x z habs)
    exact fl_le_of_le_grid x z M₂ hM₂ h
  · exact le_trans (fl_nonpos x (le_of_lt (not_le.1 hx))) hz0

/-- Rounding does not cross a positive float64 below. -/
theorem fl_ge_of_ge (x z : ℚ) (M : ℤ) (hz : z = (M : ℚ) * 2 ^ ulpExp z) (hz0 : 0 < z)
    (h : z ≤ x) : z ≤ fl x := by
  have hx0 : 0 < x := lt_of_lt_of_le hz0 h
  have habs : |z| ≤ |x| := by rw [abs_of_pos hx0, abs_of_pos hz0]; exact h
  have hle := ulpExp_mono z x habs
  rcases lt_or_eq_of_le hle with hlt | heq
  · -- z lies in a lower binade: the power of two below x separates them
    have hxne : x ≠ 0 := ne_of_gt hx0
    have hzne : z ≠ 0 := ne_of_gt hz0
    have hge := ulpExp_ge z
    have hex : ulpExp x = Int.log 2 |x| - 52 := by
      have hx' : ulpExp x = max (Int.log 2 |x| - 52) (-1074) := by
        unfold ulpExp; rw [if_neg hxne]
      rw [hx'] at hlt ⊢
      rcases le_total (Int.log 2 |x| - 52) (-1074) with hc | hc
      · rw [max_eq_right hc] at hlt; omega
      · exact max_eq_left hc
    have hez : Int.log 2 |z| - 52 ≤ ulpExp z := by
      unfold ulpExp; rw [if_neg hzne]; exact le_max_left _ _
    have hlog : Int.log 2 |z| < Int.log 2 |x| := by omega
    have hzlt : |z| < ((2 : ℕ) : ℚ) ^ Int.log 2 |x| :=
      (Int.lt_zpow_iff_log_lt (by norm_num) (abs_pos.2 hzne)).2 hlog
    have hpow : ((2 : ℕ) : ℚ) ^ Int.log 2 |x| ≤ |x| :=
      Int.zpow_log_le_self (by norm_num) (abs_pos.2 hxne)
    rw [abs_of_pos hz0] at hzlt
    have hpow : ((2 : ℕ) : ℚ) ^ Int.log 2 |x| ≤ x := le_trans hpow (le_of_eq (abs_of_pos hx0))
    have hgrid : ((2 : ℕ) : ℚ) ^ Int.log 2 |x| = ((2 ^ 52 : ℤ) : ℚ) * 2 ^ ulpExp x := by
      rw [hex]
      have : Int.log 2 |x| = 52 + (Int.log 2 |x| - 52) := by ring
      conv_lhs => rw [this]
      rw [zpow_add₀ (by norm_num)]
      norm_num
    have := fl_ge_of_ge_grid x _ (2 ^ 52) hgrid hpow
    linarith
  · rw [heq] at hz
    exact fl_ge_of_ge_grid x z M hz h

theorem fl_of_grid (z : ℚ) (M : ℤ) (hz : z = (M : ℚ) * 2 ^ ulpExp z) : fl z = z := by
  have hp := two_zpow_pos (ulpExp z)
  have hy : z / 2 ^ ulpExp z = (M : ℚ) := by
    rw [div_eq_iff (ne_of_gt hp), ← hz]
  unfold fl
  rw [hy, roundEven_intCast, ← hz]

/-- An integer below 2^53 in absolute value is a float64. -/
theorem fl_intCast (n : ℤ) (h : |n| < 2 ^ 53) : fl (n : ℚ) = (n : ℚ) := by
  have habs : |(n : ℚ)| < (2 : ℚ) ^ (53 : ℤ) := by
    have : ((|n| : ℤ) : ℚ) < ((2 ^ 53 : ℤ) : ℚ) := by exact_mod_cast h
    rw [Int.cast_abs] at this
    norm_num at this ⊢
    exact this
  have hle : ulpExp (n : ℚ) ≤ 0 := by
    have := ulpExp_le_of_lt (n : ℚ) 53 (by norm_num) habs
    omega
  obtain ⟨M, hM⟩ := grid_coarsen (n : ℚ) n 0 (ulpExp (n : ℚ)) (by simp) hle
  exact fl_of_grid _ M hM

/-! ### Values of float64 constants and of the composite of perfect pillars -/

theorem fl_const_c40 : fl (0.40) = (3602879701896397 / 9007199254740992) := by
  have harg : (0.40 : ℚ) = ((2 : ℚ) / 5) := by norm_num
  have hk : ulpExp ((2 : ℚ) / 5) = -54 := by
    apply ulpExp_eq <;> norm_num [abs_of_pos]
  have hM : roundEven (((2 : ℚ) / 5) / 2 ^ (-54 : ℤ)) = 7205759403792794 := by
    apply roundEven_eq <;> norm_num
  rw [harg, fl_eval _ _ 7205759403792794 hk hM]
  norm_num

theorem fl_const_c20 : fl (0.20) = (3602879701896397 / 18014398509481984) := by
  have harg : (0.20 : ℚ) = ((1 : ℚ) / 5) := by norm_num
  have hk : ulpExp ((1 : ℚ) / 5) = -55 := by
    apply ulpExp_eq <;> norm_num [abs_of_pos]
  have hM : roundEven (((1 : ℚ) / 5) / 2 ^ (-55 : ℤ)) = 7205759403792794 := by
    apply roundEven_eq <;> norm_num
  rw [harg, fl_eval _ _ 7205759403792794 hk hM]
  norm_num

theorem fl_const_c15 : fl (0.15) = (5404319552844595 / 36028797018963968) := by
  have harg : (0.15 : ℚ) = ((3 : ℚ) / 20) := by norm_num
  have hk : ulpExp ((3 : ℚ) / 20) = -55 := by
    apply ulpExp_eq <;> norm_num [abs_of_pos]
  have hM : roundEven (((3 : ℚ) / 20) / 2 ^ (-55 : ℤ)) = 5404319552844595 := by
    apply roundEven_eq <;> norm_num
  rw [harg, fl_eval _ _ 5404319552844595 hk hM]
  norm_num

theorem fl_const_c05 : fl (0.05) = (3602879701896397 / 72057594037927936) := by
  have harg : (0.05 : ℚ) = ((1 : ℚ) / 20) := by norm_num
  have hk : ulpExp ((1 : ℚ) / 20) = -57 := by
    apply ulpExp_eq <;> norm_num [abs_of_pos]
  have hM : roundEven (((1 : ℚ) / 20) / 2 ^ (-57 : ℤ)) = 7205759403792794 := by
    apply roundEven_eq <;> norm_num
  rw [harg, fl_eval _ _ 7205759403792794 hk hM]
  norm_num

theorem fl_const_c95 : fl (0.95) = (4278419646001971 / 4503599627370496) := by
  have harg : (0.95 : ℚ) = ((19 : ℚ) / 20) := by norm_num
  have hk : ulpExp ((19 : ℚ) / 20) = -53 := by
    apply ulpExp_eq <;> norm_num [abs_of_pos]
  have hM : roundEven (((19 : ℚ) / 20) / 2 ^ (-53 : ℤ)) = 8556839292003942 := by
    apply roundEven_eq <;> norm_num
  rw [harg, fl_eval _ _ 8556839292003942 hk hM]
  norm_num

theorem fl_const_c70 : fl (0.70) = (3152519739159347 / 4503599627370496) := by
  have harg : (0.70 : ℚ) = ((7 : ℚ) / 10) := by norm_num
  have hk : ulpExp ((7 : ℚ) / 10) = -53 := by
    apply ulpExp_eq <;> norm_num [abs_of_pos]
  have hM : roundEven (((7 : ℚ) / 10) / 2 ^ (-53 : ℤ)) = 6305039478318694 := by
    apply roundEven_eq <;> norm_num
  rw [harg, fl_eval _ _ 6305039478318694 hk hM]
  norm_num

theorem fl_const_c01 : fl (0.1) = (3602879701896397 / 36028797018963968) := by
  have harg : (0.1 : ℚ) = ((1 : ℚ) / 10) := by norm_num
  have hk : ulpExp ((1 : ℚ) / 10) = -56 := by
    apply ulpExp_eq <;> norm_num [abs_of_pos]
  have hM : roundEven (((1 : ℚ) / 10) / 2 ^ (-56 : ℤ)) = 7205759403792794 := by
    apply roundEven_eq <;> norm_num
  rw [harg, fl_eval _ _ 7205759403792794 hk hM]
  norm_num

theorem fl_one_mul_c40 : fl (1 * (3602879701896397 / 9007199254740992)) = (3602879701896397 / 9007199254740992) := by
  have harg : (1 * (3602879701896397 / 9007199254740992) : ℚ) = ((3602879701896397 : ℚ) / 9007199254740992) := by norm_num
  have hk : ulpExp ((3602879701896397 : ℚ) / 9007199254740992) = -54 := by
    apply ulpExp_eq <;> norm_num [abs_of_pos]
  have hM : roundEven (((3602879701896397 : ℚ) / 9007199254740992) / 2 ^ (-54 : ℤ)) = 7205759403792794 := by
    apply roundEven_eq <;> norm_num
  rw [harg, fl_eval _ _ 7205759403792794 hk hM]
  norm_num

theorem fl_one_mul_c20 : fl (1 * (3602879701896397 / 18014398509481984)) = (3602879701896397 / 18014398509481984) := by
  have harg : (1 * (3602879701896397 / 18014398509481984) : ℚ) = ((3602879701896397 : ℚ) / 18014398509481984) := by norm_num
  have hk : ulpExp ((3602879701896397 : ℚ) / 18014398509481984) = -55 := by
    apply ulpExp_eq <;> norm_num [abs_of_pos]
  have hM : roundEven (((3602879701896397 : ℚ) / 18014398509481984) / 2 ^ (-55 : ℤ)) = 7205759403792794 := by
    apply roundEven_eq <;> norm_num
  rw [harg, fl_eval _ _ 7205759403792794 hk hM]
  norm_num

theorem fl_one_mul_c15 : fl (1 * (5404319552844595 / 36028797018963968)) = (5404319552844595 / 36028797018963968) := by
  have harg : (1 * (5404319552844595 / 36028797018963968) : ℚ) = ((5404319552844595 : ℚ) / 36028797018963968) := by norm_num
  have hk : ulpExp ((5404319552844595 : ℚ) / 36028797018963968) = -55 := by
    apply ulpExp_eq <;> norm_num [abs_of_pos]
  have hM : roundEven (((5404319552844595 : ℚ) / 36028797018963968) / 2 ^ (-55 : ℤ)) = 5404319552844595 := by
    apply roundEven_eq <;> norm_num
  rw [harg, fl_eval _ _ 5404319552844595 hk hM]
  norm_num

theorem fl_one_mul_c05 : fl (1 * (3602879701896397 / 72057594037927936)) = (3602879701896397 / 72057594037927936) := by
  have harg : (1 * (3602879701896397 / 72057594037927936) : ℚ) = ((3602879701896397 : ℚ) / 72057594037927936) := by norm_num
  have hk : ulpExp ((3602879701896397 : ℚ) / 72057594037927936) = -57 := by
    apply ulpExp_eq <;> norm_num [abs_of_pos]
  have hM : roundEven (((3602879701896397 : ℚ) / 72057594037927936) / 2 ^ (-57 : ℤ)) = 7205759403792794 := by
    apply roundEven_eq <;> norm_num
  rw [harg, fl_eval _ _ 7205759403792794 hk hM]
  norm_num

theorem fl_ones_sum1 : fl ((3602879701896397 / 9007199254740992) + (3602879701896397 / 18014398509481984)) = (1351079888211149 / 2251799813685248) := by
  have harg : ((3602879701896397 / 9007199254740992) + (3602879701896397 / 18014398509481984) : ℚ) = ((10808639105689191 : ℚ) / 18014398509481984) := by norm_num
  have hk : ulpExp ((10808639105689191 : ℚ) / 18014398509481984) = -53 := by
    apply ulpExp_eq <;> norm_num [abs_of_pos]
  have hM : roundEven (((10808639105689191 : ℚ) / 18014398509481984) / 2 ^ (-53 : ℤ)) = 5404319552844596 := by
    have ht : (((10808639105689191 : ℚ) / 18014398509481984) / 2 ^ (-53 : ℤ) : ℚ) = ((5404319552844595 : ℤ) : ℚ) + 1 / 2 := by norm_num
    rw [ht]
    exact roundEven_tie_odd (5404319552844595) (by decide)
  rw [harg, fl_eval _ _ 5404319552844596 hk hM]
  norm_num

theorem fl_ones_sum2 : fl ((1351079888211149 / 2251799813685248) + (5404319552844595 / 36028797018963968)) = (6755399441055745 / 9007199254740992) := by
  have harg : ((1351079888211149 / 2251799813685248) + (5404319552844595 / 36028797018963968) : ℚ) = ((27021597764222979 : ℚ) / 36028797018963968) := by norm_num
  have hk : ulpExp ((27021597764222979 : ℚ) / 36028797018963968) = -53 := by
    apply ulpExp_eq <;> norm_num [abs_of_pos]
  have hM : roundEven (((27021597764222979 : ℚ) / 36028797018963968) / 2 ^ (-53 : ℤ)) = 6755399441055745 := by
    apply roundEven_eq <;> norm_num
  rw [harg, fl_eval _ _ 6755399441055745 hk hM]
  norm_num

theorem fl_ones_sum3 : fl ((6755399441055745 / 9007199254740992) + (5404319552844595 / 36028797018963968)) = (4053239664633447 / 4503599627370496) := by
  have harg : ((6755399441055745 / 9007199254740992) + (5404319552844595 / 36028797018963968) : ℚ) = ((32425917317067575 : ℚ) / 36028797018963968) := by norm_num
  have hk : ulpExp ((32425917317067575 : ℚ) / 36028797018963968) = -53 := by
    apply ulpExp_eq <;> norm_num [abs_of_pos]
  have hM : roundEven (((32425917317067575 : ℚ) / 36028797018963968) / 2 ^ (-53 : ℤ)) = 8106479329266894 := by
    apply roundEven_eq <;> norm_num
  rw [harg, fl_eval _ _ 8106479329266894 hk hM]
  norm_num

theorem fl_ones_sum4 : fl ((4053239664633447 / 4503599627370496) + (3602879701896397 / 72057594037927936)) = (1069604911500493 / 1125899906842624) := by
  have harg : ((4053239664633447 / 4503599627370496) + (3602879701896397 / 72057594037927936) : ℚ) = ((68454714336031549 : ℚ) / 72057594037927936) := by norm_num
  have hk : ulpExp ((68454714336031549 : ℚ) / 72057594037927936) = -53 := by
    apply ulpExp_eq <;> norm_num [abs_of_pos]
  have hM : roundEven (((68454714336031549 : ℚ) / 72057594037927936) / 2 ^ (-53 : ℤ)) = 8556839292003944 := by
    apply roundEven_eq <;> norm_num
  rw [harg, fl_eval _ _ 8556839292003944 hk hM]
  norm_num

theorem fl_ones_quot : fl ((1069604911500493 / 1125899906842624) / (4278419646001971 / 4503599627370496)) = (4503599627370497 / 4503599627370496) := by
  have harg : ((1069604911500493 / 1125899906842624) / (4278419646001971 / 4503599627370496) : ℚ) = ((4278419646001972 : ℚ) / 4278419646001971) := by norm_num
  have hk : ulpExp ((4278419646001972 : ℚ) / 4278419646001971) = -52 := by
    apply ulpExp_eq <;> norm_num [abs_of_pos]
  have hM : roundEven (((4278419646001972 : ℚ) / 4278419646001971) / 2 ^ (-52 : ℤ)) = 4503599627370497 := by
    apply roundEven_eq <;> norm_num
  rw [harg, fl_eval _ _ 4503599627370497 hk hM]
  norm_num

/-- The composite of five pillars of 1 in float64 arithmetic is the float64
next above 1. -/
theorem Composite_ones :
    Float64.Composite { Security := 1, DataIntegrity := 1, Reliability := 1, Auditability := 1,
                        Performance := 1 } = (4503599627370497 / 4503599627370496) := by
  unfold Float64.Composite
  simp only [fl_const_c40, fl_const_c20, fl_const_c15, fl_const_c05, fl_const_c95,
    fl_one_mul_c40, fl_one_mul_c20, fl_one_mul_c15, fl_one_mul_c05, fl_ones_sum1,
    fl_ones_sum2, fl_ones_sum3, fl_ones_sum4, fl_ones_quot]


/-! ### Perfect inputs in float64 arithmetic -/

theorem ulpExp_one : ulpExp 1 = -52 := by
  apply ulpExp_eq <;> norm_num

theorem one_le_fl (x : ℚ) (h : 1 ≤ x) : 1 ≤ fl x := by
  apply fl_ge_of_ge x 1 (2 ^ 52) _ (by norm_num) h
  rw [ulpExp_one]
  norm_num

theorem fl_one : fl 1 = 1 := by
  have := fl_intCast 1 (by decide)
  simpa using this

theorem Float64_ratio_self (n : Int) (hn : 0 < n) : Float64.ratio n n = 1 := by
  have h1 : (1 : ℚ) ≤ (n : ℚ) := by exact_mod_cast hn
  have hpos : (0 : ℚ) < fl (n : ℚ) := lt_of_lt_of_le (by norm_num) (one_le_fl _ h1)
  unfold Float64.ratio Float64.ofInt
  rw [if_neg (by omega), div_self (ne_of_gt hpos), fl_one, clamp01_eq]
  norm_num

theorem Float64_latency_zero : Float64.latencyScore 0 500 = 1 := by
  unfold Float64.latencyScore
  rw [if_neg (by norm_num)]
  have h0 : fl ((0 : ℚ) / 500) = 0 := by rw [zero_div, fl_zero]
  rw [h0, sub_zero, fl_one, clamp01_eq]
  norm_num

/-- On perfect inputs every pillar computed in float64 arithmetic is 1. -/
theorem Float64_Calculate_perfect (input : QualityScoreInput)
    (hauth : input.AuthChecksPassed = input.AuthChecksTotal ∧ 0 < input.AuthChecksTotal)
    (haudit : input.AuditEventsRecorded = input.AuditEventsExpected
      ∧ 0 < input.AuditEventsExpected)
    (hlogs : input.LogsWithCorrelID = input.TotalLogs ∧ 0 < input.TotalLogs)
    (hav : input.Availability = 1) (hp95 : input.ObservedP95LatencyMS = 0) :
    Float64.Calculate input
      = { Security := 1, DataIntegrity := 1, Reliability := 1, Auditability := 1,
          Performance := 1 } := by
  unfold Float64.Calculate
  rw [hauth.1, haudit.1, hlogs.1, hav, hp95, Float64_ratio_self _ hauth.2,
    Float64_ratio_self _ haudit.2, Float64_ratio_self _ hlogs.2, Float64_latency_zero]
  have : clamp01 1 = 1 := by rw [clamp01_eq]; norm_num
  rw [this]

/-! ### C23: the composite is not confined to [0,1] -/

/-- C23 on the code. On the perfect input of the repository's test (100 of 100
for each count, availability 1, latencies 0) every pillar is 1 and
`Composite()`, computed in float64 arithmetic as the source does, is
1.0000000000000002 = 1 + 2^-52, above the upper end of [0,1] that the comment
on `Composite` promises. -/
theorem composite_exceeds_one :
    Float64.Calculate
        { AuthChecksPassed := 100, AuthChecksTotal := 100, AuditEventsRecorded := 100,
          AuditEventsExpected := 100, Availability := 1, LogsWithCorrelID := 100,
          TotalLogs := 100, ObservedP95LatencyMS := 0, ObservedP99LatencyMS := 0 }
      = { Security := 1, DataIntegrity := 1, Reliability := 1, Auditability := 1,
          Performance := 1 } ∧
    Float64.Composite (Float64.Calculate
        { AuthChecksPassed := 100, AuthChecksTotal := 100, AuditEventsRecorded := 100,
          AuditEventsExpected := 100, Availability := 1, LogsWithCorrelID := 100,
          TotalLogs := 100, ObservedP95LatencyMS := 0, ObservedP99LatencyMS := 0 })
      = 1 + 2 ^ (-52 : ℤ) ∧
    Float64.Composite (Float64.Calculate
        { AuthChecksPassed := 100, AuthChecksTotal := 100, AuditEventsRecorded := 100,
          AuditEventsExpected := 100, Availability := 1, LogsWithCorrelID := 100,
          TotalLogs := 100, ObservedP95LatencyMS := 0, ObservedP99LatencyMS := 0 }) > 1 := by
  have hc := Float64_Calculate_perfect
    { AuthChecksPassed := 100, AuthChecksTotal := 100, AuditEventsRecorded := 100,
      AuditEventsExpected := 100, Availability := 1, LogsWithCorrelID := 100,
      TotalLogs := 100, ObservedP95LatencyMS := 0, ObservedP99LatencyMS := 0 }
    ⟨rfl, by decide⟩ ⟨rfl, by decide⟩ ⟨rfl, by decide⟩ rfl rfl
  refine ⟨hc, ?_, ?_⟩
  · rw [hc, Composite_ones]
    norm_num
  · rw [hc, Composite_ones]
    norm_num

/-! ### C24: perfect inputs pass the gate -/

/-- C24, as stated, fails: on the perfect input of the test the float64
composite is not 1. -/
theorem perfect_composite_not_one :
    Float64.Composite (Float64.Calculate
        { AuthChecksPassed := 100, AuthChecksTotal := 100, AuditEventsRecorded := 100,
          AuditEventsExpected := 100, Availability := 1, LogsWithCorrelID := 100,
          TotalLogs := 100, ObservedP95LatencyMS := 0, ObservedP99LatencyMS := 0 }) ≠ 1 := by
  rw [Float64_Calculate_perfect _ ⟨rfl, by decide⟩ ⟨rfl, by decide⟩ ⟨rfl, by decide⟩ rfl rfl,
    Composite_ones]
  norm_num

/-- C24, amended. For every input in which each count ratio is 1 (numerator =
denominator > 0), `Availability` = 1 and `ObservedP95LatencyMS` = 0, in
float64 arithmetic every pillar is 1, `Composite()` is at least 0.99 and
`PassesGate()` is true. -/
theorem perfect_inputs_pass (input : QualityScoreInput)
    (hauth : input.AuthChecksPassed = input.AuthChecksTotal ∧ 0 < input.AuthChecksTotal)
    (haudit : input.AuditEventsRecorded = input.AuditEventsExpected
      ∧ 0 < input.AuditEventsExpected)
    (hlogs : input.LogsWithCorrelID = input.TotalLogs ∧ 0 < input.TotalLogs)
    (hav : input.Availability = 1) (hp95 : input.ObservedP95LatencyMS = 0) :
    ((Float64.Calculate input).Security = 1 ∧ (Float64.Calculate input).DataIntegrity = 1 ∧
     (Float64.Calculate input).Reliability = 1 ∧ (Float64.Calculate input).Auditability = 1 ∧
     (Float64.Calculate input).Performance = 1) ∧
    Float64.Composite (Float64.Calculate input) ≥ 0.99 ∧
    Float64.PassesGate (Float64.Calculate input) = true := by
  have hc := Float64_Calculate_perfect input hauth haudit hlogs hav hp95
  rw [hc]
  refine ⟨⟨rfl, rfl, rfl, rfl, rfl⟩, ?_, ?_⟩
  · rw [Composite_ones]
    norm_num
  · unfold Float64.PassesGate
    rw [Composite_ones, fl_const_c70]
    norm_num

/-- Instance of the amended C24, the input of the test: 100 of 100 for each
count, availability 1, latencies 0. -/
theorem perfect_inputs_pass_witness :
    Float64.Composite (Float64.Calculate
        { AuthChecksPassed := 100, AuthChecksTotal := 100, AuditEventsRecorded := 100,
          AuditEventsExpected := 100, Availability := 1, LogsWithCorrelID := 100,
          TotalLogs := 100, ObservedP95LatencyMS := 0, ObservedP99LatencyMS := 0 }) ≥ 0.99 ∧
    Float64.PassesGate (Float64.Calculate
        { AuthChecksPassed := 100, AuthChecksTotal := 100, AuditEventsRecorded := 100,
          AuditEventsExpected := 100, Availability := 1, LogsWithCorrelID := 100,
          TotalLogs := 100, ObservedP95LatencyMS := 0, ObservedP99LatencyMS := 0 }) = true :=
  (perfect_inputs_pass
      { AuthChecksPassed := 100, AuthChecksTotal := 100, AuditEventsRecorded := 100,
        AuditEventsExpected := 100, Availability := 1, LogsWithCorrelID := 100,
        TotalLogs := 100, ObservedP95LatencyMS := 0, ObservedP99LatencyMS := 0 }
      ⟨rfl, by decide⟩ ⟨rfl, by decide⟩ ⟨rfl, by decide⟩ rfl rfl).2

/-! ### Rounding error of the composite -/

/-- Rounded product of a pillar in [0,1] with a constant `c` below `2^n`. -/
theorem fl_mul_const_near (v c : ℚ) (n : ℤ) (hn : -1021 ≤ n) (hv : 0 ≤ v ∧ v ≤ 1)
    (hc : 0 ≤ c ∧ c < 2 ^ n) : |fl (v * c) - v * c| ≤ 2 ^ (n - 54) := by
  apply fl_abs_err _ n hn
  rw [abs_of_nonneg (mul_nonneg hv.1 hc.1)]
  calc v * c ≤ 1 * c := mul_le_mul_of_nonneg_right hv.2 hc.1
    _ = c := one_mul c
    _ < 2 ^ n := hc.2

/-- For pillars in [0,1] the float64 composite is within 2^-50 of the exact
value of the formula. -/
theorem Composite_near (q : QualityScore)
    (hS : 0 ≤ q.Security ∧ q.Security ≤ 1) (hD : 0 ≤ q.DataIntegrity ∧ q.DataIntegrity ≤ 1)
    (hR : 0 ≤ q.Reliability ∧ q.Reliability ≤ 1) (hA : 0 ≤ q.Auditability ∧ q.Auditability ≤ 1)
    (hP : 0 ≤ q.Performance ∧ q.Performance ≤ 1) :
    |Float64.Composite q
        - (0.40 * q.Security + 0.20 * q.DataIntegrity + 0.15 * q.Reliability
            + 0.15 * q.Auditability + 0.05 * q.Performance) / 0.95| ≤ 2 ^ (-50 : ℤ) := by
  unfold Float64.Composite
  simp only [fl_const_c40, fl_const_c20, fl_const_c15, fl_const_c05, fl_const_c95]
  have e1 := abs_le.1 (fl_mul_const_near q.Security (3602879701896397 / 9007199254740992) (-1)
    (by norm_num) hS (by norm_num))
  have e2 := abs_le.1 (fl_mul_const_near q.DataIntegrity (3602879701896397 / 18014398509481984)
    (-2) (by norm_num) hD (by norm_num))
  have e3 := abs_le.1 (fl_mul_const_near q.Reliability (5404319552844595 / 36028797018963968)
    (-2) (by norm_num) hR (by norm_num))
  have e4 := abs_le.1 (fl_mul_const_near q.Auditability (5404319552844595 / 36028797018963968)
    (-2) (by norm_num) hA (by norm_num))
  have e5 := abs_le.1 (fl_mul_const_near q.Performance (3602879701896397 / 72057594037927936)
    (-4) (by norm_num) hP (by norm_num))
  norm_num at e1 e2 e3 e4 e5
  generalize fl (q.Security * (3602879701896397 / 9007199254740992)) = p1 at *
  generalize fl (q.DataIntegrity * (3602879701896397 / 18014398509481984)) = p2 at *
  generalize fl (q.Reliability * (5404319552844595 / 36028797018963968)) = p3 at *
  generalize fl (q.Auditability * (5404319552844595 / 36028797018963968)) = p4 at *
  generalize fl (q.Performance * (3602879701896397 / 72057594037927936)) = p5 at *
  obtain ⟨hS0, hS1⟩ := hS
  obtain ⟨hD0, hD1⟩ := hD
  obtain ⟨hR0, hR1⟩ := hR
  obtain ⟨hA0, hA1⟩ := hA
  obtain ⟨hP0, hP1⟩ := hP
  have b1 : |p1 + p2| < (2 : ℚ) ^ (0 : ℤ) := by
    rw [abs_lt]; norm_num; constructor <;> linarith
  have f1 := abs_le.1 (fl_abs_err _ 0 (by norm_num) b1)
  norm_num at f1
  generalize fl (p1 + p2) = s1 at *
  have b2 : |s1 + p3| < (2 : ℚ) ^ (0 : ℤ) := by
    rw [abs_lt]; norm_num; constructor <;> linarith
  have f2 := abs_le.1 (fl_abs_err _ 0 (by norm_num) b2)
  norm_num at f2
  generalize fl (s1 + p3) = s2 at *
  have b3 : |s2 + p4| < (2 : ℚ) ^ (0 : ℤ) := by
    rw [abs_lt]; norm_num; constructor <;> linarith
  have f3 := abs_le.1 (fl_abs_err _ 0 (by norm_num) b3)
  norm_num at f3
  generalize fl (s2 + p4) = s3 at *
  have b4 : |s3 + p5| < (2 : ℚ) ^ (0 : ℤ) := by
    rw [abs_lt]; norm_num; constructor <;> linarith
  have f4 := abs_le.1 (fl_abs_err _ 0 (by norm_num) b4)
  norm_num at f4
  generalize fl (s3 + p5) = s4 at *
  have hdiv : s4 / (4278419646001971 / 4503599627370496)
      = s4 * (4503599627370496 / 4278419646001971) := by
    field_simp
  rw [hdiv]
  have b5 : |s4 * (4503599627370496 / 4278419646001971)| < (2 : ℚ) ^ (1 : ℤ) := by
    rw [abs_lt]; norm_num; constructor <;> linarith
  have f5 := abs_le.1 (fl_abs_err _ 1 (by norm_num) b5)
  norm_num at f5
  generalize fl (s4 * (4503599627370496 / 4278419646001971)) = r at *
  rw [abs_le]
  norm_num
  constructor <;> linarith

/-! ### C22: composite and gate in float64 arithmetic -/

/-- C22, as stated, fails: for five pillars of 1 the formula
(0.40*1 + 0.20*1 + 0.15*1 + 0.15*1 + 0.05*1) / 0.95 is 1, while `Composite()`,
which rounds the weights, every product, every partial sum and the quotient to
float64, returns 1 + 2^-52. -/
theorem composite_not_exact :
    (0.40 * 1 + 0.20 * 1 + 0.15 * 1 + 0.15 * 1 + 0.05 * 1 : ℚ) / 0.95 = 1 ∧
    Float64.Composite { Security := 1, DataIntegrity := 1, Reliability := 1, Auditability := 1,
                        Performance := 1 } = 1 + 2 ^ (-52 : ℤ) ∧
    Float64.Composite { Security := 1, DataIntegrity := 1, Reliability := 1, Auditability := 1,
                        Performance := 1 }
      ≠ (0.40 * 1 + 0.20 * 1 + 0.15 * 1 + 0.15 * 1 + 0.05 * 1) / 0.95 := by
  rw [Composite_ones]
  norm_num

/-- C22, amended. For every `QualityScore` whose pillars lie in [0,1],
`Composite()` in float64 arithmetic is within 2^-50 of
(0.40*Security + 0.20*DataIntegrity + 0.15*Reliability + 0.15*Auditability
+ 0.05*Performance) / 0.95; `PassesGate()` is true exactly when `Composite()`
is at least the float64 constant 0.70, which is
3152519739159347 / 2^52 (so a composite equal to that constant passes); hence
the gate passes whenever the exact value of the formula is at least
0.70 + 2^-50 and fails whenever it is at most 0.70 - 2^-49. -/
theorem composite_and_gate (q : QualityScore)
    (hS : 0 ≤ q.Security ∧ q.Security ≤ 1) (hD : 0 ≤ q.DataIntegrity ∧ q.DataIntegrity ≤ 1)
    (hR : 0 ≤ q.Reliability ∧ q.Reliability ≤ 1) (hA : 0 ≤ q.Auditability ∧ q.Auditability ≤ 1)
    (hP : 0 ≤ q.Performance ∧ q.Performance ≤ 1) :
    |Float64.Composite q
        - (0.40 * q.Security + 0.20 * q.DataIntegrity + 0.15 * q.Reliability
            + 0.15 * q.Auditability + 0.05 * q.Performance) / 0.95| ≤ 2 ^ (-50 : ℤ) ∧
    (Float64.PassesGate q = true ↔ Float64.Composite q ≥ fl 0.70) ∧
    fl 0.70 = 3152519739159347 / 2 ^ 52 ∧
    (Float64.Composite q = fl 0.70 → Float64.PassesGate q = true) ∧
    ((0.40 * q.Security + 0.20 * q.DataIntegrity + 0.15 * q.Reliability
        + 0.15 * q.Auditability + 0.05 * q.Performance) / 0.95 ≥ 0.70 + 2 ^ (-50 : ℤ) →
      Float64.PassesGate q = true) ∧
    ((0.40 * q.Security + 0.20 * q.DataIntegrity + 0.15 * q.Reliability
        + 0.15 * q.Auditability + 0.05 * q.Performance) / 0.95 ≤ 0.70 - 2 ^ (-49 : ℤ) →
      Float64.PassesGate q = false) := by
  have hnear := Composite_near q hS hD hR hA hP
  have hgate : Float64.PassesGate q = true ↔ Float64.Composite q ≥ fl 0.70 := by
    unfold Float64.PassesGate
    exact decide_eq_true_iff
  have h70 : fl 0.70 = 3152519739159347 / 2 ^ 52 := by
    rw [fl_const_c70]
    norm_num
  refine ⟨hnear, hgate, h70, fun h => hgate.2 (ge_of_eq h), ?_, ?_⟩
  · intro h
    apply hgate.2
    rw [h70]
    have hn := (abs_le.1 hnear).1
    norm_num at hn h ⊢
    linarith
  · intro h
    apply Bool.eq_false_iff.2
    intro hp
    have hc := hgate.1 hp
    rw [h70] at hc
    have hn := (abs_le.1 hnear).2
    norm_num at hn h hc
    linarith

/-- Instance of the amended C22: pillars 1, 1/2, 1, 1/2, 1/4. The exact value of
the formula is 0.75, the float64 composite is within 2^-50 of it, and the gate
passes. -/
theorem composite_and_gate_witness :
    |Float64.Composite { Security := 1, DataIntegrity := 1 / 2, Reliability := 1,
                         Auditability := 1 / 2, Performance := 1 / 4 }
        - (0.40 * 1 + 0.20 * (1 / 2) + 0.15 * 1 + 0.15 * (1 / 2) + 0.05 * (1 / 4)) / 0.95|
      ≤ 2 ^ (-50 : ℤ) ∧
    Float64.PassesGate { Security := 1, DataIntegrity := 1 / 2, Reliability := 1,
                         Auditability := 1 / 2, Performance := 1 / 4 } = true := by
  have h := composite_and_gate
    { Security := 1, DataIntegrity := 1 / 2, Reliability := 1, Auditability := 1 / 2,
      Performance := 1 / 4 }
    (by norm_num) (by norm_num) (by norm_num) (by norm_num) (by norm_num)
  exact ⟨h.1, h.2.2.2.2.1 (by norm_num)⟩

/-! ### C26: SLO flags in float64 arithmetic -/

theorem ulpExp_milli : ulpExp (1152921504606847 / 1152921504606846976) = -62 := by
  apply ulpExp_eq <;> norm_num [abs_of_pos]

theorem ulpExp_tenth : ulpExp (3602879701896397 / 36028797018963968) = -56 := by
  apply ulpExp_eq <;> norm_num [abs_of_pos]

theorem ulpExp_milli_up : ulpExp (4611686018427389 / 4611686018427387904) = -62 := by
  apply ulpExp_eq <;> norm_num [abs_of_pos]

theorem ulpExp_tenth_up : ulpExp (7205759403792795 / 72057594037927936) = -56 := by
  apply ulpExp_eq <;> norm_num [abs_of_pos]

theorem ulpExp_twentieth : ulpExp (3602879701896397 / 72057594037927936) = -57 := by
  apply ulpExp_eq <;> norm_num [abs_of_pos]

theorem ulpExp_twentieth_up : ulpExp (7205759403792795 / 144115188075855872) = -57 := by
  apply ulpExp_eq <;> norm_num [abs_of_pos]

theorem ulpExp_five_up : ulpExp (5629499534213121 / 1125899906842624) = -50 := by
  apply ulpExp_eq <;> norm_num [abs_of_pos]

theorem ulpExp_five : ulpExp 5 = -50 := by
  apply ulpExp_eq <;> norm_num [abs_of_pos]

/-- A rate of at most 1/1000, turned into a percentage in float64 arithmetic,
does not exceed the float64 constant 0.1. -/
theorem errRate_le (x : ℚ) (h : x ≤ 1 / 1000) : fl (fl x * 100) ≤ fl 0.1 := by
  have h1 : fl x ≤ (1152921504606847 / 1152921504606846976) := by
    refine fl_le_of_le x _ 4611686018427388 ?_ (by norm_num) (le_trans h (by norm_num))
    rw [ulpExp_milli]
    norm_num
  rw [fl_const_c01]
  refine fl_le_of_le _ _ 7205759403792794 ?_ (by norm_num) (by linarith)
  rw [ulpExp_tenth]
  norm_num

/-- A rate of at least the float64 next above 1/1000 (about 0.001 * (1 + 2.4e-16)),
turned into a percentage in float64 arithmetic, exceeds the float64 constant 0.1. -/
theorem errRate_gt (x : ℚ) (h : (4611686018427389 / 4611686018427387904) ≤ x) : fl (fl x * 100) > fl 0.1 := by
  have h1 : (4611686018427389 / 4611686018427387904) ≤ fl x := by
    refine fl_ge_of_ge x _ 4611686018427389 ?_ (by norm_num) h
    rw [ulpExp_milli_up]
    norm_num
  have h2 : (7205759403792795 / 72057594037927936) ≤ fl (fl x * 100) := by
    refine fl_ge_of_ge _ _ 7205759403792795 ?_ (by norm_num) (by linarith)
    rw [ulpExp_tenth_up]
    norm_num
  rw [fl_const_c01]
  exact lt_of_lt_of_le (by norm_num) h2

/-- A rate of at most 5/100, turned into a percentage in float64 arithmetic,
does not exceed 5. -/
theorem ceRate_le (x : ℚ) (h : x ≤ 5 / 100) : fl (fl x * 100) ≤ 5 := by
  have h1 : fl x ≤ (3602879701896397 / 72057594037927936) := by
    refine fl_le_of_le x _ 7205759403792794 ?_ (by norm_num) (le_trans h (by norm_num))
    rw [ulpExp_twentieth]
    norm_num
  generalize fl x = y at h1
  by_cases h5 : y * 100 ≤ 5
  · refine fl_le_of_le _ 5 5629499534213120 ?_ (by norm_num) h5
    rw [ulpExp_five]
    norm_num
  · push_neg at h5
    have hpos : (0 : ℚ) < y * 100 := by linarith
    have hk : ulpExp (y * 100) = -50 := by
      apply ulpExp_eq _ _ (by norm_num)
      · rw [abs_of_pos hpos]
        norm_num
        linarith
      · rw [abs_of_pos hpos]
        norm_num
        linarith
    have hdiv : y * 100 / 2 ^ (-50 : ℤ) = y * 100 * 1125899906842624 := by
      rw [zpow_neg, div_inv_eq_mul]
      norm_num
    have hM : roundEven (y * 100 / 2 ^ (-50 : ℤ)) = 5629499534213120 := by
      rw [hdiv]
      apply roundEven_eq
      · push_cast
        linarith
      · push_cast
        linarith
    rw [fl_eval _ _ _ hk hM]
    norm_num

/-- A rate of at least the float64 next above 5/100 (about 0.05 * (1 + 1.9e-16)),
turned into a percentage in float64 arithmetic, exceeds 5. -/
theorem ceRate_gt (x : ℚ) (h : (7205759403792795 / 144115188075855872) ≤ x) : fl (fl x * 100) > 5 := by
  have h1 : (7205759403792795 / 144115188075855872) ≤ fl x := by
    refine fl_ge_of_ge x _ 7205759403792795 ?_ (by norm_num) h
    rw [ulpExp_twentieth_up]
    norm_num
  have h2 : (5629499534213121 / 1125899906842624) ≤ fl (fl x * 100) := by
    refine fl_ge_of_ge _ _ 5629499534213121 ?_ (by norm_num) (by linarith)
    rw [ulpExp_five_up]
    norm_num
  exact lt_of_lt_of_le (by norm_num) h2

/-- With `total` in 1 .. 2^51 and `|n|` below 2^53, the float64 percentage of
`n / total` exceeds the float64 constant 0.1 exactly when `n / total > 0.1 %`. -/
theorem errRate_iff (n total : Int) (hn : |n| < 2 ^ 53) (h0 : 0 < total)
    (ht : total ≤ 2 ^ 51) :
    fl (fl (Float64.ofInt n / Float64.ofInt total) * 100) > fl 0.1
      ↔ (n : ℚ) / (total : ℚ) > 0.1 / 100 := by
  have htb : |total| < 2 ^ 53 := by
    rw [abs_of_pos h0]
    exact lt_of_le_of_lt ht (by norm_num)
  have hpos : (0 : ℚ) < (total : ℚ) := by exact_mod_cast h0
  have htq : (total : ℚ) ≤ 2251799813685248 := by exact_mod_cast ht
  unfold Float64.ofInt
  rw [fl_intCast n hn, fl_intCast total htb]
  constructor
  · intro hb
    by_contra hle
    push_neg at hle
    have := errRate_le ((n : ℚ) / (total : ℚ)) (le_trans hle (by norm_num))
    exact absurd hb (not_lt.2 this)
  · intro hx
    have h1 : (total : ℚ) < (n : ℚ) * 1000 := by
      rw [gt_iff_lt, lt_div_iff₀ hpos] at hx
      linarith
    have h2 : total < n * 1000 := by exact_mod_cast h1
    have h3 : total + 1 ≤ n * 1000 := h2
    have h4 : (total : ℚ) + 1 ≤ (n : ℚ) * 1000 := by exact_mod_cast h3
    apply errRate_gt
    rw [le_div_iff₀ hpos]
    linarith

/-- With `total` in 1 .. 2^51 and `|n|` below 2^53, the float64 percentage of
`n / total` exceeds 5 exactly when `n / total > 5 %`. -/
theorem ceRate_iff (n total : Int) (hn : |n| < 2 ^ 53) (h0 : 0 < total)
    (ht : total ≤ 2 ^ 51) :
    fl (fl (Float64.ofInt n / Float64.ofInt total) * 100) > 5
      ↔ (n : ℚ) / (total : ℚ) > 5 / 100 := by
  have htb : |total| < 2 ^ 53 := by
    rw [abs_of_pos h0]
    exact lt_of_le_of_lt ht (by norm_num)
  have hpos : (0 : ℚ) < (total : ℚ) := by exact_mod_cast h0
  have htq : (total : ℚ) ≤ 2251799813685248 := by exact_mod_cast ht
  unfold Float64.ofInt
  rw [fl_intCast n hn, fl_intCast total htb]
  constructor
  · intro hb
    by_contra hle
    push_neg at hle
    have := ceRate_le ((n : ℚ) / (total : ℚ)) hle
    exact absurd hb (not_lt.2 this)
  · intro hx
    have h1 : (total : ℚ) < (n : ℚ) * 20 := by
      rw [gt_iff_lt, lt_div_iff₀ hpos] at hx
      linarith
    have h2 : total < n * 20 := by exact_mod_cast h1
    have h3 : total + 1 ≤ n * 20 := h2
    have h4 : (total : ℚ) + 1 ≤ (n : ℚ) * 20 := by exact_mod_cast h3
    apply ceRate_gt
    rw [le_div_iff₀ hpos]
    linarith

theorem Float64_ErrorRateBreached_iff (failed clientErrors total : Int) (p95MS p99MS : ℚ) :
    (Float64.EvaluateSLO failed clientErrors total p95MS p99MS).ErrorRateBreached = true
      ↔ 0 < total
        ∧ fl (fl (Float64.ofInt failed / Float64.ofInt total) * 100) > fl 0.1 := by
  unfold Float64.EvaluateSLO
  simp only [decide_eq_true_eq]
  by_cases h : total > 0
  · rw [if_pos h]
    exact ⟨fun hb => ⟨h, hb⟩, fun hb => hb.2⟩
  · rw [if_neg h]
    constructor
    · intro hb
      rw [fl_const_c01] at hb
      norm_num at hb
    · intro hb
      exact absurd hb.1 h

theorem Float64_ClientErrorSpike_iff (failed clientErrors total : Int) (p95MS p99MS : ℚ) :
    (Float64.EvaluateSLO failed clientErrors total p95MS p99MS).ClientErrorSpike = true
      ↔ 0 < total
        ∧ fl (fl (Float64.ofInt clientErrors / Float64.ofInt total) * 100) > 5 := by
  unfold Float64.EvaluateSLO
  simp only [decide_eq_true_eq]
  by_cases h : total > 0
  · rw [if_pos h]
    exact ⟨fun hb => ⟨h, hb⟩, fun hb => hb.2⟩
  · rw [if_neg h]
    constructor
    · intro hb
      norm_num at hb
    · intro hb
      exact absurd hb.1 h

theorem fl_big_failed : fl (9007199254740993) = 9007199254740992 := by
  have harg : (9007199254740993 : ℚ) = (9007199254740993 : ℚ) := by norm_num
  have hk : ulpExp (9007199254740993 : ℚ) = 1 := by
    apply ulpExp_eq <;> norm_num [abs_of_pos]
  have hM : roundEven ((9007199254740993 : ℚ) / 2 ^ (1 : ℤ)) = 4503599627370496 := by
    have ht : ((9007199254740993 : ℚ) / 2 ^ (1 : ℤ) : ℚ) = ((4503599627370496 : ℤ) : ℚ) + 1 / 2 := by norm_num
    rw [ht]
    exact roundEven_tie_even (4503599627370496) (by decide)
  rw [harg, fl_eval _ _ 4503599627370496 hk hM]
  norm_num

theorem fl_big_total : fl (9007199254740992000) = 9007199254740992000 := by
  have harg : (9007199254740992000 : ℚ) = (9007199254740992000 : ℚ) := by norm_num
  have hk : ulpExp (9007199254740992000 : ℚ) = 10 := by
    apply ulpExp_eq <;> norm_num [abs_of_pos]
  have hM : roundEven ((9007199254740992000 : ℚ) / 2 ^ (10 : ℤ)) = 8796093022208000 := by
    apply roundEven_eq <;> norm_num
  rw [harg, fl_eval _ _ 8796093022208000 hk hM]
  norm_num

theorem fl_big_rate : fl (9007199254740992 / 9007199254740992000) = (1152921504606847 / 1152921504606846976) := by
  have harg : (9007199254740992 / 9007199254740992000 : ℚ) = ((1 : ℚ) / 1000) := by norm_num
  have hk : ulpExp ((1 : ℚ) / 1000) = -62 := by
    apply ulpExp_eq <;> norm_num [abs_of_pos]
  have hM : roundEven (((1 : ℚ) / 1000) / 2 ^ (-62 : ℤ)) = 4611686018427388 := by
    apply roundEven_eq <;> norm_num
  rw [harg, fl_eval _ _ 4611686018427388 hk hM]
  norm_num

theorem fl_milli_pct : fl ((1152921504606847 / 1152921504606846976) * 100) = (3602879701896397 / 36028797018963968) := by
  have harg : ((1152921504606847 / 1152921504606846976) * 100 : ℚ) = ((28823037615171175 : ℚ) / 288230376151711744) := by norm_num
  have hk : ulpExp ((28823037615171175 : ℚ) / 288230376151711744) = -56 := by
    apply ulpExp_eq <;> norm_num [abs_of_pos]
  have hM : roundEven (((28823037615171175 : ℚ) / 288230376151711744) / 2 ^ (-56 : ℤ)) = 7205759403792794 := by
    apply roundEven_eq <;> norm_num
  rw [harg, fl_eval _ _ 7205759403792794 hk hM]
  norm_num

/-- C26, as stated, fails: with `failed` = 2^53 + 1 and `total` = 2^53 * 1000
(both are `int64` values) the error rate exceeds 0.1 %, but `float64(failed)`
rounds to 2^53, the computed percentage equals the float64 constant 0.1, and
`ErrorRateBreached` is false. -/
theorem slo_flag_misses_breach :
    (Float64.EvaluateSLO 9007199254740993 0 9007199254740992000 0 0).ErrorRateBreached = false ∧
    (0 : Int) < 9007199254740992000 ∧
    ((9007199254740993 : Int) : ℚ) / ((9007199254740992000 : Int) : ℚ) > 0.1 / 100 := by
  refine ⟨?_, by decide, by norm_num⟩
  apply Bool.eq_false_iff.2
  intro hb
  rw [Float64_ErrorRateBreached_iff] at hb
  have h := hb.2
  simp only [Float64.ofInt, Int.cast_ofNat] at h
  rw [fl_big_failed, fl_big_total, fl_big_rate, fl_milli_pct, fl_const_c01] at h
  exact lt_irrefl _ h

/-- C26, amended. For every `p95` and `p99`, and every `failed`,
`clientErrors` of absolute value below 2^53 and `total` at most 2^51,
`EvaluateSLO` in float64 arithmetic sets `P95LatencyBreached` iff `p95 > 200`,
`P99LatencyBreached` iff `p99 > 500`, `ErrorRateBreached` iff `total > 0` and
`failed / total > 0.1 %`, `ClientErrorSpike` iff `total > 0` and
`clientErrors / total > 5 %`, every comparison strict and each flag a function
of its own inputs only; `AnyBreach()` is true iff at least one flag is set.
`(10, 0, 1000, 0, 0)` gives `ErrorRateBreached` and `AnyBreach` true,
`(0, 0, 1000, 100, 200)` gives `AnyBreach` false. -/
theorem slo_flags (failed clientErrors total : Int) (p95 p99 : ℚ)
    (hf : |failed| < 2 ^ 53) (hc : |clientErrors| < 2 ^ 53) (ht : total ≤ 2 ^ 51) :
    ((Float64.EvaluateSLO failed clientErrors total p95 p99).P95LatencyBreached = true
      ↔ p95 > 200) ∧
    ((Float64.EvaluateSLO failed clientErrors total p95 p99).P99LatencyBreached = true
      ↔ p99 > 500) ∧
    ((Float64.EvaluateSLO failed clientErrors total p95 p99).ErrorRateBreached = true
      ↔ 0 < total ∧ (failed : ℚ) / (total : ℚ) > 0.1 / 100) ∧
    ((Float64.EvaluateSLO failed clientErrors total p95 p99).ClientErrorSpike = true
      ↔ 0 < total ∧ (clientErrors : ℚ) / (total : ℚ) > 5 / 100) ∧
    (∀ a : SLOAlert, a.AnyBreach = true
      ↔ (a.P95LatencyBreached = true ∨ a.P99LatencyBreached = true
          ∨ a.ErrorRateBreached = true ∨ a.ClientErrorSpike = true)) ∧
    ((Float64.EvaluateSLO 10 0 1000 0 0).ErrorRateBreached = true ∧
     (Float64.EvaluateSLO 10 0 1000 0 0).AnyBreach = true ∧
     (Float64.EvaluateSLO 0 0 1000 100 200).AnyBreach = false) := by
  have hany : ∀ a : SLOAlert, a.AnyBreach = true
      ↔ (a.P95LatencyBreached = true ∨ a.P99LatencyBreached = true
          ∨ a.ErrorRateBreached = true ∨ a.ClientErrorSpike = true) := by
    intro a
    unfold SLOAlert.AnyBreach
    simp only [Bool.or_eq_true]
    tauto
  have h95 : ∀ (f c t : Int) (x y : ℚ),
      (Float64.EvaluateSLO f c t x y).P95LatencyBreached = true ↔ x > 200 := by
    intro f c t x y
    unfold Float64.EvaluateSLO
    simp only [decide_eq_true_eq]
  have h99 : ∀ (f c t : Int) (x y : ℚ),
      (Float64.EvaluateSLO f c t x y).P99LatencyBreached = true ↔ y > 500 := by
    intro f c t x y
    unfold Float64.EvaluateSLO
    simp only [decide_eq_true_eq]
  have herr : ∀ (f c t : Int) (x y : ℚ), |f| < 2 ^ 53 → t ≤ 2 ^ 51 →
      ((Float64.EvaluateSLO f c t x y).ErrorRateBreached = true
        ↔ 0 < t ∧ (f : ℚ) / (t : ℚ) > 0.1 / 100) := by
    intro f c t x y hfb htb
    rw [Float64_ErrorRateBreached_iff]
    constructor
    · intro h
      exact ⟨h.1, (errRate_iff f t hfb h.1 htb).1 h.2⟩
    · intro h
      exact ⟨h.1, (errRate_iff f t hfb h.1 htb).2 h.2⟩
  have hce : ∀ (f c t : Int) (x y : ℚ), |c| < 2 ^ 53 → t ≤ 2 ^ 51 →
      ((Float64.EvaluateSLO f c t x y).ClientErrorSpike = true
        ↔ 0 < t ∧ (c : ℚ) / (t : ℚ) > 5 / 100) := by
    intro f c t x y hcb htb
    rw [Float64_ClientErrorSpike_iff]
    constructor
    · intro h
      exact ⟨h.1, (ceRate_iff c t hcb h.1 htb).1 h.2⟩
    · intro h
      exact ⟨h.1, (ceRate_iff c t hcb h.1 htb).2 h.2⟩
  have he1 : (Float64.EvaluateSLO 10 0 1000 0 0).ErrorRateBreached = true := by
    rw [herr 10 0 1000 0 0 (by decide) (by decide)]
    norm_num
  refine ⟨h95 _ _ _ _ _, h99 _ _ _ _ _, herr _ _ _ _ _ hf ht, hce _ _ _ _ _ hc ht, hany, he1,
    ?_, ?_⟩
  · rw [hany]
    exact Or.inr (Or.inr (Or.inl he1))
  · have hn : ¬ (Float64.EvaluateSLO 0 0 1000 100 200).AnyBreach = true := by
      rw [hany, h95, h99, herr 0 0 1000 100 200 (by decide) (by decide),
        hce 0 0 1000 100 200 (by decide) (by decide)]
      norm_num
    simpa using hn

/-- Instance of the amended C26, the first call of the repository's test:
`EvaluateSLO(10, 0, 1000, 0, 0)` has an error rate of 1 % and sets
`ErrorRateBreached`, and no other flag. -/
theorem slo_flags_witness :
    (Float64.EvaluateSLO 10 0 1000 0 0).P95LatencyBreached = false ∧
    (Float64.EvaluateSLO 10 0 1000 0 0).P99LatencyBreached = false ∧
    (Float64.EvaluateSLO 10 0 1000 0 0).ErrorRateBreached = true ∧
    (Float64.EvaluateSLO 10 0 1000 0 0).ClientErrorSpike = false := by
  have h := slo_flags 10 0 1000 0 0 (by decide) (by decide) (by decide)
  refine ⟨?_, ?_, ?_, ?_⟩
  · apply Bool.eq_false_iff.2
    intro hb
    have h0 := h.1.1 hb
    norm_num at h0
  · apply Bool.eq_false_iff.2
    intro hb
    have h0 := h.2.1.1 hb
    norm_num at h0
  · exact h.2.2.2.2.2.1
  · apply Bool.eq_false_iff.2
    intro hb
    have h0 := (h.2.2.2.1.1 hb).2
    norm_num at h0

/-! ### C14: observed availability in float64 arithmetic -/

theorem Float64_Snapshot_nonzero (t : ErrorBudgetTracker) (h : t.total ≠ 0) :
    (Float64.Snapshot t).ObservedAvailability
      = fl (mathRound (fl (fl (Float64.ofInt (wrap64 (t.total - t.failed))
          / Float64.ofInt t.total) * 1000000)) / 1000000) ∧
    (Float64.Snapshot t).BudgetConsumedPct
      = (if fl (1 - t.slaTarget) > 0 then
          (if fl (mathRound (fl (fl (fl (fl (Float64.ofInt t.failed / Float64.ofInt t.total)
                / fl (1 - t.slaTarget)) * 100) * 1000)) / 1000) > 100
            then 100
            else fl (mathRound (fl (fl (fl (fl (Float64.ofInt t.failed / Float64.ofInt t.total)
                / fl (1 - t.slaTarget)) * 100) * 1000)) / 1000))
        else if t.failed > 0 then 100
        else 0) ∧
    (Float64.Snapshot t).BudgetExhausted = decide ((Float64.Snapshot t).BudgetConsumedPct ≥ 100) := by
  unfold Float64.Snapshot
  simp only []
  rw [if_neg h]
  exact ⟨rfl, rfl, rfl⟩

theorem fl_avail_a_quot : fl (2 / 3) = (6004799503160661 / 9007199254740992) := by
  have harg : (2 / 3 : ℚ) = ((2 : ℚ) / 3) := by norm_num
  have hk : ulpExp ((2 : ℚ) / 3) = -53 := by
    apply ulpExp_eq <;> norm_num [abs_of_pos]
  have hM : roundEven (((2 : ℚ) / 3) / 2 ^ (-53 : ℤ)) = 6004799503160661 := by
    apply roundEven_eq <;> norm_num
  rw [harg, fl_eval _ _ 6004799503160661 hk hM]
  norm_num

theorem fl_avail_a_scaled : fl ((6004799503160661 / 9007199254740992) * 1000000) = (5726623061333333 / 8589934592) := by
  have harg : ((6004799503160661 / 9007199254740992) * 1000000 : ℚ) = ((93824992236885328125 : ℚ) / 140737488355328) := by norm_num
  have hk : ulpExp ((93824992236885328125 : ℚ) / 140737488355328) = -33 := by
    apply ulpExp_eq <;> norm_num [abs_of_pos]
  have hM : roundEven (((93824992236885328125 : ℚ) / 140737488355328) / 2 ^ (-33 : ℤ)) = 5726623061333333 := by
    apply roundEven_eq <;> norm_num
  rw [harg, fl_eval _ _ 5726623061333333 hk hM]
  norm_num

theorem mathRound_avail_a : mathRound (5726623061333333 / 8589934592) = 666667 := by
  have h : mathRound (5726623061333333 / 8589934592) = ((666667 : ℤ) : ℚ) :=
    mathRound_nonneg_eq (by norm_num) (by norm_num) (by norm_num)
  rw [h]
  norm_num

theorem fl_avail_a_result : fl (666667 / 1000000) = (6004802505560413 / 9007199254740992) := by
  have harg : (666667 / 1000000 : ℚ) = ((666667 : ℚ) / 1000000) := by norm_num
  have hk : ulpExp ((666667 : ℚ) / 1000000) = -53 := by
    apply ulpExp_eq <;> norm_num [abs_of_pos]
  have hM : roundEven (((666667 : ℚ) / 1000000) / 2 ^ (-53 : ℤ)) = 6004802505560413 := by
    apply roundEven_eq <;> norm_num
  rw [harg, fl_eval _ _ 6004802505560413 hk hM]
  norm_num

theorem fl_avail_b_quot : fl (333 / 640) = (2343279181116211 / 4503599627370496) := by
  have harg : (333 / 640 : ℚ) = ((333 : ℚ) / 640) := by norm_num
  have hk : ulpExp ((333 : ℚ) / 640) = -53 := by
    apply ulpExp_eq <;> norm_num [abs_of_pos]
  have hM : roundEven (((333 : ℚ) / 640) / 2 ^ (-53 : ℤ)) = 4686558362232422 := by
    apply roundEven_eq <;> norm_num
  rw [harg, fl_eval _ _ 4686558362232422 hk hM]
  norm_num

theorem fl_avail_b_scaled : fl ((2343279181116211 / 4503599627370496) * 1000000) = (8938900684799999 / 17179869184) := by
  have harg : ((2343279181116211 / 4503599627370496) * 1000000 : ℚ) = ((36613737204940796875 : ℚ) / 70368744177664) := by norm_num
  have hk : ulpExp ((36613737204940796875 : ℚ) / 70368744177664) = -34 := by
    apply ulpExp_eq <;> norm_num [abs_of_pos]
  have hM : roundEven (((36613737204940796875 : ℚ) / 70368744177664) / 2 ^ (-34 : ℤ)) = 8938900684799999 := by
    apply roundEven_eq <;> norm_num
  rw [harg, fl_eval _ _ 8938900684799999 hk hM]
  norm_num

theorem mathRound_avail_b : mathRound (8938900684799999 / 17179869184) = 520312 := by
  have h : mathRound (8938900684799999 / 17179869184) = ((520312 : ℤ) : ℚ) :=
    mathRound_nonneg_eq (by norm_num) (by norm_num) (by norm_num)
  rw [h]
  norm_num

theorem fl_avail_b_result : fl (520312 / 1000000) = (4686553858632795 / 9007199254740992) := by
  have harg : (520312 / 1000000 : ℚ) = ((65039 : ℚ) / 125000) := by norm_num
  have hk : ulpExp ((65039 : ℚ) / 125000) = -53 := by
    apply ulpExp_eq <;> norm_num [abs_of_pos]
  have hM : roundEven (((65039 : ℚ) / 125000) / 2 ^ (-53 : ℤ)) = 4686553858632795 := by
    apply roundEven_eq <;> norm_num
  rw [harg, fl_eval _ _ 4686553858632795 hk hM]
  norm_num

/-- At total = 3, failed = 1 the snapshot reports the float64 nearest to
0.666667. -/
theorem Float64_availability_third :
    (Float64.Snapshot { slaTarget := 1 / 2, total := 3, failed := 1, clientErrors := 0 }
        ).ObservedAvailability = fl (666667 / 1000000) := by
  rw [(Float64_Snapshot_nonzero _ (by decide)).1]
  show fl (mathRound (fl (fl (fl ((wrap64 (3 - 1) : Int) : ℚ) / fl ((3 : Int) : ℚ))
    * 1000000)) / 1000000) = _
  have hw : wrap64 (3 - 1) = 2 := by decide
  rw [hw, fl_intCast 2 (by decide), fl_intCast 3 (by decide)]
  simp only [Int.cast_ofNat]
  rw [fl_avail_a_quot, fl_avail_a_scaled, mathRound_avail_a]

/-- At total = 640, failed = 307 the snapshot reports the float64 nearest to
0.520312. -/
theorem Float64_availability_tie :
    (Float64.Snapshot { slaTarget := 1 / 2, total := 640, failed := 307, clientErrors := 0 }
        ).ObservedAvailability = fl (520312 / 1000000) := by
  rw [(Float64_Snapshot_nonzero _ (by decide)).1]
  show fl (mathRound (fl (fl (fl ((wrap64 (640 - 307) : Int) : ℚ) / fl ((640 : Int) : ℚ))
    * 1000000)) / 1000000) = _
  have hw : wrap64 (640 - 307) = 333 := by decide
  rw [hw, fl_intCast 333 (by decide), fl_intCast 640 (by decide)]
  simp only [Int.cast_ofNat]
  rw [fl_avail_b_quot, fl_avail_b_scaled, mathRound_avail_b]

/-- C14, as stated, fails: with total = 3 and failed = 1 the snapshot reports
the float64 nearest to 0.666667, which is not 2/3. Nor is the reported value
always the exact ratio rounded to six decimals: with total = 640 and
failed = 307 the exact ratio 0.5203125 rounds to 0.520313, while the snapshot
reports the float64 nearest to 0.520312. -/
theorem availability_not_exact :
    (Float64.Snapshot { slaTarget := 1 / 2, total := 3, failed := 1, clientErrors := 0 }
        ).ObservedAvailability = fl (666667 / 1000000) ∧
    (Float64.Snapshot { slaTarget := 1 / 2, total := 3, failed := 1, clientErrors := 0 }
        ).ObservedAvailability ≠ ((3 : ℚ) - 1) / 3 ∧
    (Float64.Snapshot { slaTarget := 1 / 2, total := 640, failed := 307, clientErrors := 0 }
        ).ObservedAvailability = fl (520312 / 1000000) ∧
    mathRound (((640 : ℚ) - 307) / 640 * 1000000) / 1000000 = 520313 / 1000000 := by
  refine ⟨Float64_availability_third, ?_, Float64_availability_tie, ?_⟩
  · rw [Float64_availability_third, fl_avail_a_result]
    norm_num
  · have h : mathRound (((640 : ℚ) - 307) / 640 * 1000000) = ((520313 : ℤ) : ℚ) :=
      mathRound_nonneg_eq (by norm_num) (by norm_num) (by norm_num)
    rw [h]
    norm_num

/-- C14, amended. For every tracker state with `0 < total < 2^53` and
`0 ≤ failed ≤ total`, `ObservedAvailability` in float64 arithmetic is the
float64 nearest to `k / 10^6` for an integer `k` within `1/2 + 2^-32` of
`10^6 * (total - failed) / total`; it is within `5 * 10^-7 + 10^-15` of
`(total - failed) / total` taken over exact rationals. For total = 3,
failed = 1 it is the float64 nearest to 0.666667. -/
theorem snapshot_availability (t : ErrorBudgetTracker) (htotal : 0 < t.total)
    (hbig : t.total < 2 ^ 53) (hf : 0 ≤ t.failed ∧ t.failed ≤ t.total) :
    (∃ k : ℤ,
      (Float64.Snapshot t).ObservedAvailability = fl ((k : ℚ) / 1000000) ∧
      |(k : ℚ) - ((t.total : ℚ) - (t.failed : ℚ)) / (t.total : ℚ) * 1000000|
        ≤ 1 / 2 + 2 ^ (-32 : ℤ) ∧
      |(Float64.Snapshot t).ObservedAvailability
          - ((t.total : ℚ) - (t.failed : ℚ)) / (t.total : ℚ)| ≤ 1 / 2000000 + 1 / 10 ^ 15) ∧
    (Float64.Snapshot { slaTarget := 1 / 2, total := 3, failed := 1, clientErrors := 0 }
        ).ObservedAvailability = fl (666667 / 1000000) := by
  refine ⟨?_, Float64_availability_third⟩
  obtain ⟨hf0, hf1⟩ := hf
  have h := (Float64_Snapshot_nonzero t (by omega)).1
  have hw : wrap64 (t.total - t.failed) = t.total - t.failed :=
    wrap64_id (by omega) (by omega)
  have hd : |t.total - t.failed| < 2 ^ 53 := abs_lt.2 ⟨by omega, by omega⟩
  have ht : |t.total| < 2 ^ 53 := abs_lt.2 ⟨by omega, by omega⟩
  unfold Float64.ofInt at h
  rw [hw, fl_intCast _ hd, fl_intCast _ ht] at h
  push_cast at h
  have hpos : (0 : ℚ) < (t.total : ℚ) := by exact_mod_cast htotal
  have hfq0 : (0 : ℚ) ≤ (t.failed : ℚ) := by exact_mod_cast hf0
  have hfq1 : (t.failed : ℚ) ≤ (t.total : ℚ) := by exact_mod_cast hf1
  have hr0 : 0 ≤ ((t.total : ℚ) - (t.failed : ℚ)) / (t.total : ℚ) :=
    div_nonneg (by linarith) (le_of_lt hpos)
  have hr1 : ((t.total : ℚ) - (t.failed : ℚ)) / (t.total : ℚ) ≤ 1 := by
    rw [div_le_one hpos]
    linarith
  rw [h]
  generalize ((t.total : ℚ) - (t.failed : ℚ)) / (t.total : ℚ) = r at *
  have ea := abs_le.1 (fl_abs_err r 1 (by norm_num) (by
    rw [abs_of_nonneg hr0]
    norm_num
    linarith))
  norm_num at ea
  generalize fl r = a at *
  have eb := abs_le.1 (fl_abs_err (a * 1000000) 20 (by norm_num) (by
    rw [abs_lt]
    norm_num
    constructor <;> linarith))
  norm_num at eb
  generalize fl (a * 1000000) = b at *
  obtain ⟨k, hk⟩ := mathRound_isInt b
  have en := abs_le.1 (mathRound_near b)
  rw [hk] at en ⊢
  have ec := abs_le.1 (fl_abs_err ((k : ℚ) / 1000000) 1 (by norm_num) (by
    rw [abs_lt]
    norm_num
    constructor <;> linarith))
  norm_num at ec
  refine ⟨k, rfl, ?_, ?_⟩
  · rw [abs_le]
    norm_num
    constructor <;> linarith
  · rw [abs_le]
    norm_num
    constructor <;> linarith

/-- Instance of the amended C14 at total = 3, failed = 1: the reported value
is within 5 * 10^-7 + 10^-15 of 2/3. -/
theorem snapshot_availability_witness :
    ∃ k : ℤ,
      (Float64.Snapshot { slaTarget := 1 / 2, total := 3, failed := 1, clientErrors := 0 }
        ).ObservedAvailability = fl ((k : ℚ) / 1000000) ∧
      |(k : ℚ) - (((3 : ℤ) : ℚ) - ((1 : ℤ) : ℚ)) / ((3 : ℤ) : ℚ) * 1000000|
        ≤ 1 / 2 + 2 ^ (-32 : ℤ) ∧
      |(Float64.Snapshot { slaTarget := 1 / 2, total := 3, failed := 1, clientErrors := 0 }
        ).ObservedAvailability - (((3 : ℤ) : ℚ) - ((1 : ℤ) : ℚ)) / ((3 : ℤ) : ℚ)|
        ≤ 1 / 2000000 + 1 / 10 ^ 15 :=
  (snapshot_availability { slaTarget := 1 / 2, total := 3, failed := 1, clientErrors := 0 }
    (by decide) (by decide) ⟨by decide, by decide⟩).1

/-! ### C15: budget consumption in float64 arithmetic -/

theorem fl_budget_allowed : fl (1 - 1 / 2) = (1 / 2) := by
  have harg : (1 - 1 / 2 : ℚ) = ((1 : ℚ) / 2) := by norm_num
  have hk : ulpExp ((1 : ℚ) / 2) = -53 := by
    apply ulpExp_eq <;> norm_num [abs_of_pos]
  have hM : roundEven (((1 : ℚ) / 2) / 2 ^ (-53 : ℤ)) = 4503599627370496 := by
    apply roundEven_eq <;> norm_num
  rw [harg, fl_eval _ _ 4503599627370496 hk hM]
  norm_num

theorem fl_budget_rate : fl (23 / 640) = (2589569785738035 / 72057594037927936) := by
  have harg : (23 / 640 : ℚ) = ((23 : ℚ) / 640) := by norm_num
  have hk : ulpExp ((23 : ℚ) / 640) = -57 := by
    apply ulpExp_eq <;> norm_num [abs_of_pos]
  have hM : roundEven (((23 : ℚ) / 640) / 2 ^ (-57 : ℤ)) = 5179139571476070 := by
    apply roundEven_eq <;> norm_num
  rw [harg, fl_eval _ _ 5179139571476070 hk hM]
  norm_num

theorem fl_budget_quot : fl ((2589569785738035 / 72057594037927936) / (1 / 2)) = (2589569785738035 / 36028797018963968) := by
  have harg : ((2589569785738035 / 72057594037927936) / (1 / 2) : ℚ) = ((2589569785738035 : ℚ) / 36028797018963968) := by norm_num
  have hk : ulpExp ((2589569785738035 : ℚ) / 36028797018963968) = -56 := by
    apply ulpExp_eq <;> norm_num [abs_of_pos]
  have hM : roundEven (((2589569785738035 : ℚ) / 36028797018963968) / 2 ^ (-56 : ℤ)) = 5179139571476070 := by
    apply roundEven_eq <;> norm_num
  rw [harg, fl_eval _ _ 5179139571476070 hk hM]
  norm_num

theorem fl_budget_pct : fl ((2589569785738035 / 36028797018963968) * 100) = (8092405580431359 / 1125899906842624) := by
  have harg : ((2589569785738035 / 36028797018963968) * 100 : ℚ) = ((64739244643450875 : ℚ) / 9007199254740992) := by norm_num
  have hk : ulpExp ((64739244643450875 : ℚ) / 9007199254740992) = -50 := by
    apply ulpExp_eq <;> norm_num [abs_of_pos]
  have hM : roundEven (((64739244643450875 : ℚ) / 9007199254740992) / 2 ^ (-50 : ℤ)) = 8092405580431359 := by
    apply roundEven_eq <;> norm_num
  rw [harg, fl_eval _ _ 8092405580431359 hk hM]
  norm_num

theorem fl_budget_scaled : fl ((8092405580431359 / 1125899906842624) * 1000) = (7902739824639999 / 1099511627776) := by
  have harg : ((8092405580431359 / 1125899906842624) * 1000 : ℚ) = ((1011550697553919875 : ℚ) / 140737488355328) := by norm_num
  have hk : ulpExp ((1011550697553919875 : ℚ) / 140737488355328) = -40 := by
    apply ulpExp_eq <;> norm_num [abs_of_pos]
  have hM : roundEven (((1011550697553919875 : ℚ) / 140737488355328) / 2 ^ (-40 : ℤ)) = 7902739824639999 := by
    apply roundEven_eq <;> norm_num
  rw [harg, fl_eval _ _ 7902739824639999 hk hM]
  norm_num

theorem mathRound_budget : mathRound (7902739824639999 / 1099511627776) = 7187 := by
  have h : mathRound (7902739824639999 / 1099511627776) = ((7187 : ℤ) : ℚ) :=
    mathRound_nonneg_eq (by norm_num) (by norm_num) (by norm_num)
  rw [h]
  norm_num

theorem fl_budget_result : fl (7187 / 1000) = (8091842630477939 / 1125899906842624) := by
  have harg : (7187 / 1000 : ℚ) = ((7187 : ℚ) / 1000) := by norm_num
  have hk : ulpExp ((7187 : ℚ) / 1000) = -50 := by
    apply ulpExp_eq <;> norm_num [abs_of_pos]
  have hM : roundEven (((7187 : ℚ) / 1000) / 2 ^ (-50 : ℤ)) = 8091842630477939 := by
    apply roundEven_eq <;> norm_num
  rw [harg, fl_eval _ _ 8091842630477939 hk hM]
  norm_num

theorem mathRound_zero : mathRound 0 = 0 := by
  have h := mathRound_intCast 0
  simpa using h

theorem ite_gt_eq_min (x : ℚ) : (if x > 100 then 100 else x) = min 100 x := by
  split
  · rename_i hgt
    rw [min_eq_left (le_of_lt hgt)]
  · rename_i hle
    rw [min_eq_right (not_lt.1 hle)]

/-- Relative error of one rounding, as a pair of bounds. -/
theorem fl_rel_bounds (x : ℚ) (hx : (2 : ℚ) ^ (-60 : ℤ) ≤ x) :
    x * (1 - 1 / 9007199254740992) ≤ fl x ∧ fl x ≤ x * (1 + 1 / 9007199254740992) := by
  have hpos : 0 < x := lt_of_lt_of_le (two_zpow_pos _) hx
  have hsmall : (2 : ℚ) ^ (-1022 : ℤ) ≤ 2 ^ (-60 : ℤ) :=
    zpow_le_zpow_right₀ (by norm_num) (by norm_num)
  have hx2 : (2 : ℚ) ^ (-1022 : ℤ) ≤ |x| := by
    rw [abs_of_pos hpos]
    exact le_trans hsmall hx
  have h := abs_le.1 (fl_rel_err x hx2)
  have hab : |x| = x := abs_of_pos hpos
  rw [hab] at h
  have hu : (2 : ℚ) ^ (-53 : ℤ) = 1 / 9007199254740992 := by norm_num
  rw [hu] at h
  constructor <;> linarith [h.1, h.2]

/-- Rounding error of the raw budget figure scaled by 1000: with the rate `ρ`
at least 2^-53 and the allowed rate `A` in [2^-53, 1], the float64 value is
within a relative 2^-50 of `ρ / A * 100 * 1000`. -/
theorem budget_raw_near (ρ A : ℚ) (hρ : (1 : ℚ) / 9007199254740992 ≤ ρ)
    (hA0 : (1 : ℚ) / 9007199254740992 ≤ A) (hA1 : A ≤ 1) :
    ρ / A * 100 * 1000 * (1 - 1 / 1125899906842624)
        ≤ fl (fl (fl (fl ρ / fl A) * 100) * 1000) ∧
    fl (fl (fl (fl ρ / fl A) * 100) * 1000)
        ≤ ρ / A * 100 * 1000 * (1 + 1 / 1125899906842624) := by
  have hApos : 0 < A := by linarith
  have hρpos : 0 < ρ := by linarith
  obtain ⟨l0, h0⟩ := fl_rel_bounds A (by norm_num; linarith)
  obtain ⟨l1, h1⟩ := fl_rel_bounds ρ (by norm_num; linarith)
  generalize fl A = α at *
  generalize fl ρ = a1 at *
  have hα : 0 < α := by linarith
  have ha1 : 0 ≤ a1 := by linarith
  have hy : (1 : ℚ) / 9007199254740992 ≤ ρ / A := by
    rw [le_div_iff₀ hApos]
    nlinarith
  have hq_hi : a1 / α ≤ ρ / A * ((1 + 1 / 9007199254740992) / (1 - 1 / 9007199254740992)) := by
    have h := div_le_div₀ (by linarith : (0 : ℚ) ≤ ρ * (1 + 1 / 9007199254740992)) h1
      (by linarith : (0 : ℚ) < A * (1 - 1 / 9007199254740992)) l0
    rw [mul_div_mul_comm] at h
    exact h
  have hq_lo : ρ / A * ((1 - 1 / 9007199254740992) / (1 + 1 / 9007199254740992)) ≤ a1 / α := by
    have h := div_le_div₀ ha1 l1 hα h0
    rw [mul_div_mul_comm] at h
    exact h
  norm_num at hq_hi hq_lo
  generalize ρ / A = y at *
  generalize a1 / α = q at *
  obtain ⟨l2, h2⟩ := fl_rel_bounds q (by norm_num; linarith)
  generalize fl q = a2 at *
  obtain ⟨l3, h3⟩ := fl_rel_bounds (a2 * 100) (by norm_num; linarith)
  generalize fl (a2 * 100) = a3 at *
  obtain ⟨l4, h4⟩ := fl_rel_bounds (a3 * 1000) (by norm_num; linarith)
  generalize fl (a3 * 1000) = a4 at *
  constructor <;> linarith

/-- C15, as stated, fails: with target 0.5, total = 640 and failed = 23 the
exact figure is 7.1875, which rounds to 7.188, while the float64 computation
reaches 7187.499999999999 before `math.Round` and the snapshot reports the
float64 nearest to 7.187. -/
theorem budget_not_rounded_exact :
    (Float64.Snapshot { slaTarget := 1 / 2, total := 640, failed := 23, clientErrors := 0 }
        ).BudgetConsumedPct = fl (7187 / 1000) ∧
    min 100 (mathRound ((23 : ℚ) / 640 / (1 - 1 / 2) * 100 * 1000) / 1000) = 7188 / 1000 ∧
    (Float64.Snapshot { slaTarget := 1 / 2, total := 640, failed := 23, clientErrors := 0 }
        ).BudgetConsumedPct
      ≠ min 100 (mathRound ((23 : ℚ) / 640 / (1 - 1 / 2) * 100 * 1000) / 1000) := by
  have ha : (Float64.Snapshot
      { slaTarget := 1 / 2, total := 640, failed := 23, clientErrors := 0 }
      ).BudgetConsumedPct = fl (7187 / 1000) := by
    rw [(Float64_Snapshot_nonzero _ (by decide)).2.1]
    show (if fl (1 - 1 / 2) > 0 then
          (if fl (mathRound (fl (fl (fl (fl (fl ((23 : Int) : ℚ) / fl ((640 : Int) : ℚ))
                / fl (1 - 1 / 2)) * 100) * 1000)) / 1000) > 100
            then 100
            else fl (mathRound (fl (fl (fl (fl (fl ((23 : Int) : ℚ) / fl ((640 : Int) : ℚ))
                / fl (1 - 1 / 2)) * 100) * 1000)) / 1000))
        else if (23 : Int) > 0 then 100
        else 0) = _
    rw [fl_intCast 23 (by decide), fl_intCast 640 (by decide)]
    simp only [Int.cast_ofNat]
    rw [fl_budget_allowed, fl_budget_rate, fl_budget_quot, fl_budget_pct, fl_budget_scaled,
      mathRound_budget, if_pos (by norm_num), fl_budget_result, if_neg (by norm_num)]
  have hm : min 100 (mathRound ((23 : ℚ) / 640 / (1 - 1 / 2) * 100 * 1000) / 1000)
      = 7188 / 1000 := by
    have h : mathRound ((23 : ℚ) / 640 / (1 - 1 / 2) * 100 * 1000) = ((7188 : ℤ) : ℚ) :=
      mathRound_nonneg_eq (by norm_num) (by norm_num) (by norm_num)
    rw [h]
    norm_num
  refine ⟨ha, hm, ?_⟩
  rw [ha, hm, fl_budget_result]
  norm_num

/-- C15, amended. For every tracker state with `0 < total < 2^53` and
`0 ≤ failed ≤ total`: when `0 ≤ slaTarget ≤ 1 - 2^-53` (every float64 target
in [0, 1)), `BudgetConsumedPct` in float64 arithmetic is `min(100, c)` where
`c` is the float64 nearest to `k / 1000` for an integer `k ≥ 0` that differs
from `E = failed / total / (1 - slaTarget) * 100 * 1000` by at most
`1/2 + 2^-50 * E`; when `1 - slaTarget ≤ 0` it is 100 if `failed > 0` and 0
otherwise; and `BudgetExhausted` is true exactly when
`BudgetConsumedPct ≥ 100`. -/
theorem snapshot_budget (t : ErrorBudgetTracker) (htotal : 0 < t.total)
    (hbig : t.total < 2 ^ 53) (hf : 0 ≤ t.failed ∧ t.failed ≤ t.total) :
    (0 ≤ t.slaTarget → t.slaTarget ≤ 1 - 2 ^ (-53 : ℤ) →
      ∃ k : ℤ, 0 ≤ k ∧
        (Float64.Snapshot t).BudgetConsumedPct = min 100 (fl ((k : ℚ) / 1000)) ∧
        |(k : ℚ) - (t.failed : ℚ) / (t.total : ℚ) / (1 - t.slaTarget) * 100 * 1000|
          ≤ 1 / 2
            + 2 ^ (-50 : ℤ)
              * ((t.failed : ℚ) / (t.total : ℚ) / (1 - t.slaTarget) * 100 * 1000)) ∧
    (1 - t.slaTarget ≤ 0 →
      (Float64.Snapshot t).BudgetConsumedPct = if 0 < t.failed then 100 else 0) ∧
    ((Float64.Snapshot t).BudgetExhausted = true
      ↔ 100 ≤ (Float64.Snapshot t).BudgetConsumedPct) := by
  obtain ⟨hf0, hf1⟩ := hf
  obtain ⟨-, hc, he⟩ := Float64_Snapshot_nonzero t (by omega)
  refine ⟨?_, ?_, ?_⟩
  · intro hs0 hs1
    have hu : (2 : ℚ) ^ (-53 : ℤ) = 1 / 9007199254740992 := by norm_num
    have hv : (2 : ℚ) ^ (-50 : ℤ) = 1 / 1125899906842624 := by norm_num
    rw [hu] at hs1
    rw [hv]
    have hA0 : (1 : ℚ) / 9007199254740992 ≤ 1 - t.slaTarget := by linarith
    have hA1 : 1 - t.slaTarget ≤ 1 := by linarith
    have hαpos : fl (1 - t.slaTarget) > 0 := by
      have h := (fl_rel_bounds (1 - t.slaTarget) (by norm_num; linarith)).1
      linarith
    have hfb : |t.failed| < 2 ^ 53 := abs_lt.2 ⟨by omega, by omega⟩
    have htb : |t.total| < 2 ^ 53 := abs_lt.2 ⟨by omega, by omega⟩
    have hpos : (0 : ℚ) < (t.total : ℚ) := by exact_mod_cast htotal
    have htq : (t.total : ℚ) ≤ 9007199254740992 := by
      have : t.total ≤ 9007199254740992 := by omega
      exact_mod_cast this
    rw [hc, if_pos hαpos, ite_gt_eq_min]
    unfold Float64.ofInt
    rw [fl_intCast _ hfb, fl_intCast _ htb]
    by_cases hz : t.failed = 0
    · refine ⟨0, le_refl 0, ?_, ?_⟩
      · rw [hz]
        simp only [Int.cast_zero, zero_div, fl_zero, zero_mul, mathRound_zero]
      · rw [hz]
        norm_num
    · have hf1q : (1 : ℚ) ≤ (t.failed : ℚ) := by
        have : 1 ≤ t.failed := by omega
        exact_mod_cast this
      have hρ : (1 : ℚ) / 9007199254740992 ≤ (t.failed : ℚ) / (t.total : ℚ) := by
        rw [le_div_iff₀ hpos]
        linarith
      obtain ⟨hlo, hhi⟩ := budget_raw_near _ _ hρ hA0 hA1
      have hE : 0 ≤ (t.failed : ℚ) / (t.total : ℚ) / (1 - t.slaTarget) * 100 * 1000 := by
        have h1 : (0 : ℚ) ≤ (t.failed : ℚ) / (t.total : ℚ) := by linarith
        have h2 : (0 : ℚ) ≤ (t.failed : ℚ) / (t.total : ℚ) / (1 - t.slaTarget) :=
          div_nonneg h1 (by linarith)
        linarith
      generalize (t.failed : ℚ) / (t.total : ℚ) / (1 - t.slaTarget) * 100 * 1000 = E at *
      generalize fl (fl (fl (fl ((t.failed : ℚ) / (t.total : ℚ)) / fl (1 - t.slaTarget)) * 100)
        * 1000) = a4 at *
      obtain ⟨k, hk⟩ := mathRound_isInt a4
      have en := abs_le.1 (mathRound_near a4)
      rw [hk] at en ⊢
      have hk0 : 0 ≤ k := by
        have h1 : (-1 : ℚ) < (k : ℚ) := by linarith
        have h2 : (-1 : ℤ) < k := by exact_mod_cast h1
        omega
      refine ⟨k, hk0, rfl, ?_⟩
      rw [abs_le]
      constructor <;> linarith
  · intro ha
    have hα : ¬ fl (1 - t.slaTarget) > 0 := not_lt.2 (fl_nonpos _ ha)
    rw [hc, if_neg hα]
  · rw [he]
    simp

/-- Instance of the amended C15 at target 0.5, total = 640, failed = 23. -/
theorem snapshot_budget_witness :
    ∃ k : ℤ, 0 ≤ k ∧
      (Float64.Snapshot { slaTarget := 1 / 2, total := 640, failed := 23, clientErrors := 0 }
        ).BudgetConsumedPct = min 100 (fl ((k : ℚ) / 1000)) ∧
      |(k : ℚ) - ((23 : ℤ) : ℚ) / ((640 : ℤ) : ℚ) / (1 - 1 / 2) * 100 * 1000|
        ≤ 1 / 2 + 2 ^ (-50 : ℤ)
            * (((23 : ℤ) : ℚ) / ((640 : ℤ) : ℚ) / (1 - 1 / 2) * 100 * 1000) :=
  (snapshot_budget { slaTarget := 1 / 2, total := 640, failed := 23, clientErrors := 0 }
    (by decide) (by decide) ⟨by decide, by decide⟩).1 (by norm_num) (by norm_num)

end Telemetry
